import Mathlib

/-!
# Scan-to-scan laser odometry (`BasicLaserOdometry.cpp`)

A shallow embedding of `src/lib/BasicLaserOdometry.cpp`.

* `float` values are modelled by an arbitrary linearly ordered field `α` with a floor
  function (`ℚ` for evaluation, `ℝ` for the trigonometric statements); there is no
  rounding, no NaN and no infinity in the model. The literal `1.8f` of the robust weights
  is modelled by its binary32 value (`weightFactor`), since the selection cutoff depends
  on it.
* `int(x)` (truncation toward zero) is `truncToInt`.
* Clouds are lists of points; an index outside the list is an out-of-bounds read, which
  the model reports as `none`.
* The C math library, the k-d tree and the dense linear algebra routines are parameters
  (`Libm`, `External`).
-/

namespace Loam

/-! ## Scalars -/

/-- The C conversion `int(x)` of a floating point value: truncation toward zero. -/
def truncToInt {α : Type} [LinearOrderedField α] [FloorRing α] (x : α) : ℤ :=
  if 0 ≤ x then ⌊x⌋ else ⌈x⌉

/-- The functions of the C math library the source calls (`std::sin`, `std::cos`,
`std::asin`, `std::atan2`, `std::sqrt`) and the constant `M_PI`. -/
structure Libm (α : Type) where
  sin : α → α
  cos : α → α
  asin : α → α
  atan2 : α → α → α
  sqrt : α → α
  pi : α

/-- The math library over the real numbers: `atan2 y x` is the argument of `x + y i`. -/
noncomputable def realLibm : Libm ℝ where
  sin := Real.sin
  cos := Real.cos
  asin := Real.arcsin
  atan2 := fun y x => Complex.arg ⟨x, y⟩
  sqrt := Real.sqrt
  pi := Real.pi

/-! ## Data model -/

/-- A feature point `pcl::PointXYZI`: position and the intensity channel, whose integer
part is the ring id and whose fractional part is the relative time. -/
structure PointXYZI (α : Type) where
  x : α
  y : α
  z : α
  intensity : α
deriving DecidableEq

/-- A 3-vector (`Vector3`, also used for `pcl::PointXYZ`). -/
structure Vector3 (α : Type) where
  x : α
  y : α
  z : α
deriving DecidableEq

/-- Modelled from the spec: the `Angle` wrapper of the missing header stores the radians
together with their sine and cosine, recomputed eagerly on construction, so an angle is
determined by its radians. The model keeps the radians; `sin` and `cos` of an angle are
read off them through `Libm`. -/
abbrev Angle (α : Type) := α

/-- Modelled from the spec: `Twist`, a 6-DoF rigid motion as Euler angles and a
translation; default constructed all zero. -/
structure Twist (α : Type) where
  rot_x : Angle α
  rot_y : Angle α
  rot_z : Angle α
  pos : Vector3 α
deriving DecidableEq

/-- The default constructed `Twist`. -/
def Twist.zero {α : Type} [LinearOrderedField α] : Twist α :=
  ⟨0, 0, 0, ⟨0, 0, 0⟩⟩

/-- An ordered sequence of feature points (`pcl::PointCloud<pcl::PointXYZI>`). -/
abbrev PointCloud (α : Type) := List (PointXYZI α)

/-- The member variables of `BasicLaserOdometry`. A k-d tree is represented by the cloud
it was last built from (`setInputCloud` copies the points into the index). -/
structure BasicLaserOdometry (α : Type) where
  scanPeriod : α
  systemInited : Bool
  frameCount : ℕ
  maxIterations : ℕ
  deltaTAbort : α
  deltaRAbort : α
  cornerPointsSharp : PointCloud α
  cornerPointsLessSharp : PointCloud α
  surfPointsFlat : PointCloud α
  surfPointsLessFlat : PointCloud α
  laserCloud : PointCloud α
  lastCornerCloud : PointCloud α
  lastSurfaceCloud : PointCloud α
  laserCloudOri : PointCloud α
  coeffSel : PointCloud α
  lastCornerKDTree : PointCloud α
  lastSurfaceKDTree : PointCloud α
  pointSearchCornerInd1 : List ℤ
  pointSearchCornerInd2 : List ℤ
  pointSearchSurfInd1 : List ℤ
  pointSearchSurfInd2 : List ℤ
  pointSearchSurfInd3 : List ℤ
  transform : Twist α
  transformSum : Twist α
  imuRollStart : Angle α
  imuPitchStart : Angle α
  imuYawStart : Angle α
  imuRollEnd : Angle α
  imuPitchEnd : Angle α
  imuYawEnd : Angle α
  imuShiftFromStart : Vector3 α
  imuVeloFromStart : Vector3 α

/-- The constructor `BasicLaserOdometry(scanPeriod, maxIterations)`: empty clouds,
default constructed twists, angles and vectors. -/
def BasicLaserOdometry.new {α : Type} [LinearOrderedField α]
    (scanPeriod : α) (maxIterations : ℕ) : BasicLaserOdometry α where
  scanPeriod := scanPeriod
  systemInited := false
  frameCount := 0
  maxIterations := maxIterations
  deltaTAbort := 1 / 10
  deltaRAbort := 1 / 10
  cornerPointsSharp := []
  cornerPointsLessSharp := []
  surfPointsFlat := []
  surfPointsLessFlat := []
  laserCloud := []
  lastCornerCloud := []
  lastSurfaceCloud := []
  laserCloudOri := []
  coeffSel := []
  lastCornerKDTree := []
  lastSurfaceKDTree := []
  pointSearchCornerInd1 := []
  pointSearchCornerInd2 := []
  pointSearchSurfInd1 := []
  pointSearchSurfInd2 := []
  pointSearchSurfInd3 := []
  transform := Twist.zero
  transformSum := Twist.zero
  imuRollStart := 0
  imuPitchStart := 0
  imuYawStart := 0
  imuRollEnd := 0
  imuPitchEnd := 0
  imuYawEnd := 0
  imuShiftFromStart := ⟨0, 0, 0⟩
  imuVeloFromStart := ⟨0, 0, 0⟩

/-! ## Math kernel (`math_utils.h`, not part of the given sources) -/

section MathKernel

variable {α : Type} [LinearOrderedField α]

/-- Modelled from the spec: rotation of a point about the x axis by `ang`
(`math_utils.h` is missing); the intensity is untouched. -/
def rotX (lm : Libm α) (p : PointXYZI α) (ang : Angle α) : PointXYZI α :=
  { p with
    y := lm.cos ang * p.y - lm.sin ang * p.z
    z := lm.sin ang * p.y + lm.cos ang * p.z }

/-- Modelled from the spec: rotation of a point about the y axis by `ang`. -/
def rotY (lm : Libm α) (p : PointXYZI α) (ang : Angle α) : PointXYZI α :=
  { p with
    x := lm.cos ang * p.x + lm.sin ang * p.z
    z := lm.cos ang * p.z - lm.sin ang * p.x }

/-- Modelled from the spec: rotation of a point about the z axis by `ang`. -/
def rotZ (lm : Libm α) (p : PointXYZI α) (ang : Angle α) : PointXYZI α :=
  { p with
    x := lm.cos ang * p.x - lm.sin ang * p.y
    y := lm.sin ang * p.x + lm.cos ang * p.y }

/-- Modelled from the spec: `rotateZXY(v, rz, rx, ry)` applies the rotations about Z,
then X, then Y. -/
def rotateZXY (lm : Libm α) (p : PointXYZI α) (angZ angX angY : Angle α) : PointXYZI α :=
  rotY lm (rotX lm (rotZ lm p angZ) angX) angY

/-- Modelled from the spec: `rotateYXZ(v, ry, rx, rz)` applies the rotations about Y,
then X, then Z. -/
def rotateYXZ (lm : Libm α) (p : PointXYZI α) (angY angX angZ : Angle α) : PointXYZI α :=
  rotZ lm (rotX lm (rotY lm p angY) angX) angZ

/-- The position of a point as a vector. -/
def PointXYZI.toVector3 (p : PointXYZI α) : Vector3 α := ⟨p.x, p.y, p.z⟩

/-- A vector as a point with the given intensity. -/
def Vector3.toPoint (v : Vector3 α) (intensity : α) : PointXYZI α :=
  ⟨v.x, v.y, v.z, intensity⟩

/-- Modelled from the spec: `rotateZXY` on a `Vector3`. -/
def rotateZXYv (lm : Libm α) (v : Vector3 α) (angZ angX angY : Angle α) : Vector3 α :=
  (rotateZXY lm (v.toPoint 0) angZ angX angY).toVector3

/-- Modelled from the spec: `calcSquaredDiff(a, b)`, the squared distance of two
points. -/
def calcSquaredDiff (a b : PointXYZI α) : α :=
  (a.x - b.x) * (a.x - b.x) + (a.y - b.y) * (a.y - b.y) + (a.z - b.z) * (a.z - b.z)

/-- Modelled from the spec: `calcPointDistance(p)`, the distance of a point from the
origin. -/
def calcPointDistance (lm : Libm α) (p : PointXYZI α) : α :=
  lm.sqrt (p.x * p.x + p.y * p.y + p.z * p.z)

/-- Modelled from the spec: `rad2deg`, radians to degrees. -/
def rad2deg (lm : Libm α) (r : α) : α := r * 180 / lm.pi

end MathKernel

/-! ## Distortion correction -/

section Distortion

variable {α : Type} [LinearOrderedField α] [FloorRing α]

/-- The interpolation coefficient computed on lines 43 and 66:
`(1.f / _scanPeriod) * (intensity - int(intensity))`. -/
def interpolationCoeff (scanPeriod intensity : α) : α :=
  (1 / scanPeriod) * (intensity - (truncToInt intensity : α))

/-- The method `BasicLaserOdometry::transformToStart` (lines 40-54). -/
def transformToStart (lm : Libm α) (st : BasicLaserOdometry α) (pi : PointXYZI α) :
    PointXYZI α :=
  let s := interpolationCoeff st.scanPeriod pi.intensity
  let po : PointXYZI α :=
    ⟨pi.x - s * st.transform.pos.x, pi.y - s * st.transform.pos.y,
      pi.z - s * st.transform.pos.z, pi.intensity⟩
  let rx : Angle α := -s * st.transform.rot_x
  let ry : Angle α := -s * st.transform.rot_y
  let rz : Angle α := -s * st.transform.rot_z
  rotateZXY lm po rz rx ry

/-- The body of the loop of `transformToEnd` (lines 64-84) for one point. -/
def transformToEndPoint (lm : Libm α) (st : BasicLaserOdometry α) (point : PointXYZI α) :
    PointXYZI α :=
  let s := interpolationCoeff st.scanPeriod point.intensity
  let p1 : PointXYZI α :=
    ⟨point.x - s * st.transform.pos.x, point.y - s * st.transform.pos.y,
      point.z - s * st.transform.pos.z, (truncToInt point.intensity : α)⟩
  let rx : Angle α := -s * st.transform.rot_x
  let ry : Angle α := -s * st.transform.rot_y
  let rz : Angle α := -s * st.transform.rot_z
  let p2 := rotateZXY lm p1 rz rx ry
  let p3 := rotateYXZ lm p2 st.transform.rot_y st.transform.rot_x st.transform.rot_z
  let p4 : PointXYZI α :=
    { p3 with
      x := p3.x + (st.transform.pos.x - st.imuShiftFromStart.x)
      y := p3.y + (st.transform.pos.y - st.imuShiftFromStart.y)
      z := p3.z + (st.transform.pos.z - st.imuShiftFromStart.z) }
  let p5 := rotateZXY lm p4 st.imuRollStart st.imuPitchStart st.imuYawStart
  rotateYXZ lm p5 (-st.imuYawEnd) (-st.imuPitchEnd) (-st.imuRollEnd)

/-- The method `BasicLaserOdometry::transformToEnd` (lines 58-88): the cloud is rewritten in place,
point by point, and its size is returned. -/
def transformToEnd (lm : Libm α) (st : BasicLaserOdometry α) (cloud : PointCloud α) :
    PointCloud α × ℕ :=
  (cloud.map (transformToEndPoint lm st), cloud.length)

end Distortion

/-! ## Rotation composition -/

section Rotations

variable {α : Type} [LinearOrderedField α]

/-- The argument `srx` of `asin` in `accumulateRotation` (lines 160-162). -/
def accumulateRotationSrx (lm : Libm α) (cx cz lx ly : Angle α) : α :=
  lm.cos lx * lm.cos cx * lm.sin ly * lm.sin cz
    - lm.cos cx * lm.cos cz * lm.sin lx
    - lm.cos lx * lm.cos ly * lm.sin cx

/-- The method `BasicLaserOdometry::accumulateRotation` (lines 156-180); the three outputs
`(ox, oy, oz)` are returned as a triple. -/
def accumulateRotation (lm : Libm α) (cx cy cz lx ly lz : Angle α) :
    Angle α × Angle α × Angle α :=
  let srx := accumulateRotationSrx lm cx cz lx ly
  let ox : Angle α := -lm.asin srx
  let srycrx := lm.sin lx * (lm.cos cy * lm.sin cz - lm.cos cz * lm.sin cx * lm.sin cy)
    + lm.cos lx * lm.sin ly * (lm.cos cy * lm.cos cz + lm.sin cx * lm.sin cy * lm.sin cz)
    + lm.cos lx * lm.cos ly * lm.cos cx * lm.sin cy
  let crycrx := lm.cos lx * lm.cos ly * lm.cos cx * lm.cos cy
    - lm.cos lx * lm.sin ly * (lm.cos cz * lm.sin cy - lm.cos cy * lm.sin cx * lm.sin cz)
    - lm.sin lx * (lm.sin cy * lm.sin cz + lm.cos cy * lm.cos cz * lm.sin cx)
  let oy : Angle α := lm.atan2 (srycrx / lm.cos ox) (crycrx / lm.cos ox)
  let srzcrx := lm.sin cx * (lm.cos lz * lm.sin ly - lm.cos ly * lm.sin lx * lm.sin lz)
    + lm.cos cx * lm.sin cz * (lm.cos ly * lm.cos lz + lm.sin lx * lm.sin ly * lm.sin lz)
    + lm.cos lx * lm.cos cx * lm.cos cz * lm.sin lz
  let crzcrx := lm.cos lx * lm.cos lz * lm.cos cx * lm.cos cz
    - lm.cos cx * lm.sin cz * (lm.cos ly * lm.sin lz - lm.cos lz * lm.sin lx * lm.sin ly)
    - lm.sin cx * (lm.sin ly * lm.sin lz + lm.cos ly * lm.cos lz * lm.sin lx)
  let oz : Angle α := lm.atan2 (srzcrx / lm.cos ox) (crzcrx / lm.cos ox)
  (ox, oy, oz)

/-- The method `BasicLaserOdometry::pluginIMURotation` (lines 92-152); the three outputs
`(acx, acy, acz)` are returned as a triple. -/
def pluginIMURotation (lm : Libm α) (bcx bcy bcz blx bly blz alx aly alz : Angle α) :
    Angle α × Angle α × Angle α :=
  let sbcx := lm.sin bcx
  let cbcx := lm.cos bcx
  let sbcy := lm.sin bcy
  let cbcy := lm.cos bcy
  let sbcz := lm.sin bcz
  let cbcz := lm.cos bcz
  let sblx := lm.sin blx
  let cblx := lm.cos blx
  let sbly := lm.sin bly
  let cbly := lm.cos bly
  let sblz := lm.sin blz
  let cblz := lm.cos blz
  let salx := lm.sin alx
  let calx := lm.cos alx
  let saly := lm.sin aly
  let caly := lm.cos aly
  let salz := lm.sin alz
  let calz := lm.cos alz
  let srx := -sbcx * (salx*sblx + calx * caly*cblx*cbly + calx * cblx*saly*sbly)
    - cbcx * cbcz*(calx*saly*(cbly*sblz - cblz * sblx*sbly)
                   - calx * caly*(sbly*sblz + cbly * cblz*sblx) + cblx * cblz*salx)
    - cbcx * sbcz*(calx*caly*(cblz*sbly - cbly * sblx*sblz)
                   - calx * saly*(cbly*cblz + sblx * sbly*sblz) + cblx * salx*sblz)
  let acx : Angle α := -lm.asin srx
  let srycrx := (cbcy*sbcz - cbcz * sbcx*sbcy)*(calx*saly*(cbly*sblz - cblz * sblx*sbly)
                                                - calx * caly*(sbly*sblz + cbly * cblz*sblx) + cblx * cblz*salx)
    - (cbcy*cbcz + sbcx * sbcy*sbcz)*(calx*caly*(cblz*sbly - cbly * sblx*sblz)
                                      - calx * saly*(cbly*cblz + sblx * sbly*sblz) + cblx * salx*sblz)
    + cbcx * sbcy*(salx*sblx + calx * caly*cblx*cbly + calx * cblx*saly*sbly)
  let crycrx := (cbcz*sbcy - cbcy * sbcx*sbcz)*(calx*caly*(cblz*sbly - cbly * sblx*sblz)
                                                - calx * saly*(cbly*cblz + sblx * sbly*sblz) + cblx * salx*sblz)
    - (sbcy*sbcz + cbcy * cbcz*sbcx)*(calx*saly*(cbly*sblz - cblz * sblx*sbly)
                                      - calx * caly*(sbly*sblz + cbly * cblz*sblx) + cblx * cblz*salx)
    + cbcx * cbcy*(salx*sblx + calx * caly*cblx*cbly + calx * cblx*saly*sbly)
  let acy : Angle α := lm.atan2 (srycrx / lm.cos acx) (crycrx / lm.cos acx)
  let srzcrx := sbcx * (cblx*cbly*(calz*saly - caly * salx*salz) - cblx * sbly*(caly*calz + salx * saly*salz) + calx * salz*sblx)
    - cbcx * cbcz*((caly*calz + salx * saly*salz)*(cbly*sblz - cblz * sblx*sbly)
                   + (calz*saly - caly * salx*salz)*(sbly*sblz + cbly * cblz*sblx)
                   - calx * cblx*cblz*salz)
    + cbcx * sbcz*((caly*calz + salx * saly*salz)*(cbly*cblz + sblx * sbly*sblz)
                   + (calz*saly - caly * salx*salz)*(cblz*sbly - cbly * sblx*sblz)
                   + calx * cblx*salz*sblz)
  let crzcrx := sbcx * (cblx*sbly*(caly*salz - calz * salx*saly) - cblx * cbly*(saly*salz + caly * calz*salx) + calx * calz*sblx)
    + cbcx * cbcz*((saly*salz + caly * calz*salx)*(sbly*sblz + cbly * cblz*sblx)
                   + (caly*salz - calz * salx*saly)*(cbly*sblz - cblz * sblx*sbly)
                   + calx * calz*cblx*cblz)
    - cbcx * sbcz*((saly*salz + caly * calz*salx)*(cblz*sbly - cbly * sblx*sblz)
                   + (caly*salz - calz * salx*saly)*(cbly*cblz + sblx * sbly*sblz)
                   - calx * calz*cblx*sblz)
  let acz : Angle α := lm.atan2 (srzcrx / lm.cos acx) (crzcrx / lm.cos acx)
  (acx, acy, acz)

/-- The rotation matrix about the x axis, as the spec writes it (`Rx`). -/
def rotMatX (lm : Libm α) (x : α) : Matrix (Fin 3) (Fin 3) α :=
  !![1, 0, 0; 0, lm.cos x, -lm.sin x; 0, lm.sin x, lm.cos x]

/-- The rotation matrix about the y axis, as the spec writes it (`Ry`). -/
def rotMatY (lm : Libm α) (y : α) : Matrix (Fin 3) (Fin 3) α :=
  !![lm.cos y, 0, lm.sin y; 0, 1, 0; -lm.sin y, 0, lm.cos y]

/-- The rotation matrix about the z axis, as the spec writes it (`Rz`). -/
def rotMatZ (lm : Libm α) (z : α) : Matrix (Fin 3) (Fin 3) α :=
  !![lm.cos z, -lm.sin z, 0; lm.sin z, lm.cos z, 0; 0, 0, 1]

/-- The rotation matrix of an Euler triple, following the words of the spec:
`R(x, y, z) = Ry(y) * Rx(x) * Rz(z)`. -/
def eulerMatrix (lm : Libm α) (x y z : α) : Matrix (Fin 3) (Fin 3) α :=
  rotMatY lm y * rotMatX lm x * rotMatZ lm z

/-- The Euler re-extraction that ends both `accumulateRotation` and `pluginIMURotation`:
`x = -asin(srx)`, `y = atan2(srycrx / cos x, crycrx / cos x)`,
`z = atan2(srzcrx / cos x, crzcrx / cos x)`. Used to state what the two functions have in
common; the functions themselves are transcribed above. -/
def eulerExtract (lm : Libm α) (srx srycrx crycrx srzcrx crzcrx : α) : α × α × α :=
  (-lm.asin srx,
    lm.atan2 (srycrx / lm.cos (-lm.asin srx)) (crycrx / lm.cos (-lm.asin srx)),
    lm.atan2 (srzcrx / lm.cos (-lm.asin srx)) (crzcrx / lm.cos (-lm.asin srx)))

end Rotations

/-! ## Correspondence search -/

section Correspondence

variable {α : Type} [LinearOrderedField α] [FloorRing α]

/-- The ring id of a point as the source reads it: `int(point.intensity)`. -/
def ring (p : PointXYZI α) : ℤ := truncToInt p.intensity

/-- The forward scan of the edge search (lines 278-296), started at index `j` with `fuel`
iterations left; `best` is `(minPointSqDis2, minPointInd2)`. The loop is bounded by
`cornerPointsSharpNum`, as in the source. Reading `_lastCornerCloud->points[j]` outside
the cloud gives `none`. -/
def edgeForwardScan (cloud : PointCloud α) (pointSel : PointXYZI α) (closestPointScan : ℤ)
    (cornerPointsSharpNum : ℕ) : ℕ → ℕ → α × ℤ → Option (α × ℤ)
  | 0, _, best => some best
  | fuel + 1, j, best =>
    if j < cornerPointsSharpNum then
      match cloud[j]? with
      | none => none
      | some pj =>
        if ((ring pj : ℤ) : α) > (closestPointScan : α) + 5 / 2 then some best
        else
          let pointSqDis := calcSquaredDiff pj pointSel
          if ring pj > closestPointScan ∧ pointSqDis < best.1 then
            edgeForwardScan cloud pointSel closestPointScan cornerPointsSharpNum fuel (j + 1)
              (pointSqDis, (j : ℤ))
          else
            edgeForwardScan cloud pointSel closestPointScan cornerPointsSharpNum fuel (j + 1)
              best
    else some best

/-- The backward scan of the edge search (lines 297-314): `k` is the number of indices
still to visit, the next index read is `k - 1`. -/
def edgeBackwardScan (cloud : PointCloud α) (pointSel : PointXYZI α) (closestPointScan : ℤ) :
    ℕ → α × ℤ → Option (α × ℤ)
  | 0, best => some best
  | j + 1, best =>
    match cloud[j]? with
    | none => none
    | some pj =>
      if ((ring pj : ℤ) : α) < (closestPointScan : α) - 5 / 2 then some best
      else
        let pointSqDis := calcSquaredDiff pj pointSel
        if ring pj < closestPointScan ∧ pointSqDis < best.1 then
          edgeBackwardScan cloud pointSel closestPointScan j (pointSqDis, (j : ℤ))
        else
          edgeBackwardScan cloud pointSel closestPointScan j best

/-- The edge correspondence search for one query (lines 267-318), given the answer
`(pointSearchInd, pointSearchSqDis)` of the 1-NN query. The result is
`(closestPointInd, minPointInd2)`, the pair cached in `_pointSearchCornerInd1[i]` and
`_pointSearchCornerInd2[i]`. -/
def edgeSearch (cloud : PointCloud α) (cornerPointsSharpNum : ℕ) (pointSel : PointXYZI α)
    (pointSearchInd : ℤ) (pointSearchSqDis : α) : Option (ℤ × ℤ) :=
  if pointSearchSqDis < 25 then
    if 0 ≤ pointSearchInd then
      match cloud[pointSearchInd.toNat]? with
      | none => none
      | some pa =>
        let closestPointScan := ring pa
        let a := pointSearchInd.toNat
        (edgeForwardScan cloud pointSel closestPointScan cornerPointsSharpNum
            (cornerPointsSharpNum - (a + 1)) (a + 1) (25, -1)).bind fun fwd =>
          (edgeBackwardScan cloud pointSel closestPointScan a fwd).bind fun bwd =>
            some (pointSearchInd, bwd.2)
    else none
  else some (-1, -1)

/-- The state of the planar scans: `(minPointSqDis2, minPointInd2)` and
`(minPointSqDis3, minPointInd3)`. -/
abbrev PlanarBest (α : Type) := (α × ℤ) × (α × ℤ)

/-- The forward scan of the planar search (lines 414-439), bounded by
`surfPointsFlatNum` as in the source. -/
def planarForwardScan (cloud : PointCloud α) (pointSel : PointXYZI α) (closestPointScan : ℤ)
    (surfPointsFlatNum : ℕ) : ℕ → ℕ → PlanarBest α → Option (PlanarBest α)
  | 0, _, best => some best
  | fuel + 1, j, best =>
    if j < surfPointsFlatNum then
      match cloud[j]? with
      | none => none
      | some pj =>
        if ((ring pj : ℤ) : α) > (closestPointScan : α) + 5 / 2 then some best
        else
          let pointSqDis := calcSquaredDiff pj pointSel
          let best1 : PlanarBest α :=
            if ring pj ≤ closestPointScan then
              (if pointSqDis < best.1.1 then ((pointSqDis, (j : ℤ)), best.2) else best)
            else
              (if pointSqDis < best.2.1 then (best.1, (pointSqDis, (j : ℤ))) else best)
          planarForwardScan cloud pointSel closestPointScan surfPointsFlatNum fuel (j + 1) best1
    else some best

/-- The backward scan of the planar search (lines 440-465). -/
def planarBackwardScan (cloud : PointCloud α) (pointSel : PointXYZI α)
    (closestPointScan : ℤ) : ℕ → PlanarBest α → Option (PlanarBest α)
  | 0, best => some best
  | j + 1, best =>
    match cloud[j]? with
    | none => none
    | some pj =>
      if ((ring pj : ℤ) : α) < (closestPointScan : α) - 5 / 2 then some best
      else
        let pointSqDis := calcSquaredDiff pj pointSel
        let best1 : PlanarBest α :=
          if ring pj ≥ closestPointScan then
            (if pointSqDis < best.1.1 then ((pointSqDis, (j : ℤ)), best.2) else best)
          else
            (if pointSqDis < best.2.1 then (best.1, (pointSqDis, (j : ℤ))) else best)
        planarBackwardScan cloud pointSel closestPointScan j best1

/-- The planar correspondence search for one query (lines 407-470); the result is
`(closestPointInd, minPointInd2, minPointInd3)`. -/
def planarSearch (cloud : PointCloud α) (surfPointsFlatNum : ℕ) (pointSel : PointXYZI α)
    (pointSearchInd : ℤ) (pointSearchSqDis : α) : Option (ℤ × ℤ × ℤ) :=
  if pointSearchSqDis < 25 then
    if 0 ≤ pointSearchInd then
      match cloud[pointSearchInd.toNat]? with
      | none => none
      | some pa =>
        let closestPointScan := ring pa
        let a := pointSearchInd.toNat
        (planarForwardScan cloud pointSel closestPointScan surfPointsFlatNum
            (surfPointsFlatNum - (a + 1)) (a + 1) ((25, -1), (25, -1))).bind fun fwd =>
          (planarBackwardScan cloud pointSel closestPointScan a fwd).bind fun bwd =>
            some (pointSearchInd, bwd.1.2, bwd.2.2)
    else none
  else some (-1, -1, -1)

/-- What the two edge scans maintain about `(minPointSqDis2, minPointInd2)`, for the
nearest neighbour of index `a` on ring `scan`: a cached index `>= 0` is the index of a
point of the cloud on another ring at most 2 away, differs from `a`, and the cached
value is the squared distance of that point to the query, below 25. -/
def EdgeBestOK (cloud : PointCloud α) (pointSel : PointXYZI α) (scan : ℤ) (a : ℕ)
    (best : α × ℤ) : Prop :=
  0 ≤ best.2 → ∃ pb, cloud[best.2.toNat]? = some pb ∧ ring pb ≠ scan ∧
    |ring pb - scan| ≤ 2 ∧ best.2 ≠ (a : ℤ) ∧ calcSquaredDiff pb pointSel = best.1 ∧
    best.1 < 25

end Correspondence

/-! ## Residuals and Jacobian rows -/

section Residuals

variable {α : Type} [LinearOrderedField α]

/-- The edge residual (lines 329-366) of the query `pointSel` (O) against `tripod1` (A)
and `tripod2` (B): the result is `(la, lb, lc, ld2)`. -/
def edgeResidual (lm : Libm α) (pointSel tripod1 tripod2 : PointXYZI α) : α × α × α × α :=
  let x0 := pointSel.x
  let y0 := pointSel.y
  let z0 := pointSel.z
  let x1 := tripod1.x
  let y1 := tripod1.y
  let z1 := tripod1.z
  let x2 := tripod2.x
  let y2 := tripod2.y
  let z2 := tripod2.z
  let a012 := lm.sqrt (((x0 - x1)*(y0 - y2) - (x0 - x2)*(y0 - y1))
                       * ((x0 - x1)*(y0 - y2) - (x0 - x2)*(y0 - y1))
                       + ((x0 - x1)*(z0 - z2) - (x0 - x2)*(z0 - z1))
                       * ((x0 - x1)*(z0 - z2) - (x0 - x2)*(z0 - z1))
                       + ((y0 - y1)*(z0 - z2) - (y0 - y2)*(z0 - z1))
                       * ((y0 - y1)*(z0 - z2) - (y0 - y2)*(z0 - z1)))
  let l12 := lm.sqrt ((x1 - x2)*(x1 - x2) + (y1 - y2)*(y1 - y2) + (z1 - z2)*(z1 - z2))
  let la := ((y1 - y2)*((x0 - x1)*(y0 - y2) - (x0 - x2)*(y0 - y1))
             + (z1 - z2)*((x0 - x1)*(z0 - z2) - (x0 - x2)*(z0 - z1))) / a012 / l12
  let lb := -((x1 - x2)*((x0 - x1)*(y0 - y2) - (x0 - x2)*(y0 - y1))
              - (z1 - z2)*((y0 - y1)*(z0 - z2) - (y0 - y2)*(z0 - z1))) / a012 / l12
  let lc := -((x1 - x2)*((x0 - x1)*(z0 - z2) - (x0 - x2)*(z0 - z1))
              + (y1 - y2)*((y0 - y1)*(z0 - z2) - (y0 - y2)*(z0 - z1))) / a012 / l12
  let ld2 := a012 / l12
  (la, lb, lc, ld2)

/-- The value of the binary32 literal `1.8f` of lines 378 and 507: `15099494 / 2^23`, the
float nearest to `9/5`; it lies below `9/5`. -/
def weightFactor : α := 15099494 / 8388608

/-- The weight of an edge correspondence in iteration `iterCount` (lines 375-379):
`s = 1 - 1.8f * fabs(ld2)` from iteration 5 on. -/
def edgeWeight (iterCount : ℕ) (ld2 : α) : α :=
  if iterCount ≥ 5 then 1 - weightFactor * |ld2| else 1

/-- The coefficient `coeff` stored for a correspondence with weight `s`, unit direction
`(a, b, c)` and residual `d` (lines 382-385 and 510-513). -/
def weightedCoeff (s a b c d : α) : PointXYZI α := ⟨s * a, s * b, s * c, s * d⟩

/-- The selection test `s > 0.1 && d != 0` (lines 387 and 515). The weight `s` is a
binary32 value and `0.1` is the binary64 literal, which lies slightly above `1/10`; no
binary32 value lies between `1/10` and that literal, so the test is `s > 1/10`. -/
def selected (s d : α) : Prop := s > 1 / 10 ∧ d ≠ 0

instance (s d : α) : Decidable (selected s d) :=
  inferInstanceAs (Decidable (s > 1 / 10 ∧ d ≠ 0))

/-- The planar residual (lines 481-495) of the query `pointSel` against the triple
`tripod1`, `tripod2`, `tripod3`: the result is `(pa, pb, pc, pd2)`. -/
def planeResidual (lm : Libm α) (pointSel tripod1 tripod2 tripod3 : PointXYZI α) :
    α × α × α × α :=
  let pa := (tripod2.y - tripod1.y) * (tripod3.z - tripod1.z)
    - (tripod3.y - tripod1.y) * (tripod2.z - tripod1.z)
  let pb := (tripod2.z - tripod1.z) * (tripod3.x - tripod1.x)
    - (tripod3.z - tripod1.z) * (tripod2.x - tripod1.x)
  let pc := (tripod2.x - tripod1.x) * (tripod3.y - tripod1.y)
    - (tripod3.x - tripod1.x) * (tripod2.y - tripod1.y)
  let pd := -(pa * tripod1.x + pb * tripod1.y + pc * tripod1.z)
  let ps := lm.sqrt (pa * pa + pb * pb + pc * pc)
  let pa := pa / ps
  let pb := pb / ps
  let pc := pc / ps
  let pd := pd / ps
  let pd2 := pa * pointSel.x + pb * pointSel.y + pc * pointSel.z + pd
  (pa, pb, pc, pd2)

/-- The weight of a planar correspondence in iteration `iterCount` (lines 504-508):
`s = 1 - 1.8f * fabs(pd2) / sqrt(calcPointDistance(pointSel))` from iteration 5 on. -/
def planeWeight (lm : Libm α) (iterCount : ℕ) (pointSel : PointXYZI α) (pd2 : α) : α :=
  if iterCount ≥ 5 then
    1 - weightFactor * |pd2| / lm.sqrt (calcPointDistance lm pointSel)
  else 1

/-- One row of `matA` and the entry of `matB` (lines 539-593) for the selected point
`pointOri` with coefficient `coeff`, at the current transform. -/
def jacobianRow (lm : Libm α) (tr : Twist α) (pointOri coeff : PointXYZI α) :
    (Fin 6 → α) × α :=
  let s : α := 1
  let srx := lm.sin (s * tr.rot_x)
  let crx := lm.cos (s * tr.rot_x)
  let sry := lm.sin (s * tr.rot_y)
  let cry := lm.cos (s * tr.rot_y)
  let srz := lm.sin (s * tr.rot_z)
  let crz := lm.cos (s * tr.rot_z)
  let tx := s * tr.pos.x
  let ty := s * tr.pos.y
  let tz := s * tr.pos.z
  let arx := (-s * crx*sry*srz*pointOri.x + s * crx*crz*sry*pointOri.y + s * srx*sry*pointOri.z
              + s * tx*crx*sry*srz - s * ty*crx*crz*sry - s * tz*srx*sry) * coeff.x
    + (s*srx*srz*pointOri.x - s * crz*srx*pointOri.y + s * crx*pointOri.z
       + s * ty*crz*srx - s * tz*crx - s * tx*srx*srz) * coeff.y
    + (s*crx*cry*srz*pointOri.x - s * crx*cry*crz*pointOri.y - s * cry*srx*pointOri.z
       + s * tz*cry*srx + s * ty*crx*cry*crz - s * tx*crx*cry*srz) * coeff.z
  let ary := ((-s * crz*sry - s * cry*srx*srz)*pointOri.x
              + (s*cry*crz*srx - s * sry*srz)*pointOri.y - s * crx*cry*pointOri.z
              + tx * (s*crz*sry + s * cry*srx*srz) + ty * (s*sry*srz - s * cry*crz*srx)
              + s * tz*crx*cry) * coeff.x
    + ((s*cry*crz - s * srx*sry*srz)*pointOri.x
       + (s*cry*srz + s * crz*srx*sry)*pointOri.y - s * crx*sry*pointOri.z
       + s * tz*crx*sry - ty * (s*cry*srz + s * crz*srx*sry)
       - tx * (s*cry*crz - s * srx*sry*srz)) * coeff.z
  let arz := ((-s * cry*srz - s * crz*srx*sry)*pointOri.x + (s*cry*crz - s * srx*sry*srz)*pointOri.y
              + tx * (s*cry*srz + s * crz*srx*sry) - ty * (s*cry*crz - s * srx*sry*srz)) * coeff.x
    + (-s * crx*crz*pointOri.x - s * crx*srz*pointOri.y
       + s * ty*crx*srz + s * tx*crx*crz) * coeff.y
    + ((s*cry*crz*srx - s * sry*srz)*pointOri.x + (s*crz*sry + s * cry*srx*srz)*pointOri.y
       + tx * (s*sry*srz - s * cry*crz*srx) - ty * (s*crz*sry + s * cry*srx*srz)) * coeff.z
  let atx := -s * (cry*crz - srx * sry*srz) * coeff.x + s * crx*srz * coeff.y
    - s * (crz*sry + cry * srx*srz) * coeff.z
  let aty := -s * (cry*srz + crz * srx*sry) * coeff.x - s * crx*crz * coeff.y
    - s * (sry*srz - cry * crz*srx) * coeff.z
  let atz := s * crx*sry * coeff.x - s * srx * coeff.y - s * crx*cry * coeff.z
  let d2 := coeff.intensity
  (![arx, ary, arz, atx, aty, atz], -(1 / 20) * d2)

end Residuals

/-! ## The sweep driver -/

section Process

variable {α : Type} [LinearOrderedField α] [FloorRing α]

/-- The library routines `process` calls: the 1-NN query of a k-d tree (index and squared
distance of the nearest point of the cloud the tree was built from), Eigen's
`colPivHouseholderQr().solve`, `SelfAdjointEigenSolver` (eigenvalues, eigenvectors) and
`inverse`. -/
structure External (α : Type) where
  nearestKSearch : PointCloud α → PointXYZI α → ℤ × α
  qrSolve : Matrix (Fin 6) (Fin 6) α → (Fin 6 → α) → (Fin 6 → α)
  eigenSolver : Matrix (Fin 6) (Fin 6) α → (Fin 6 → α) × Matrix (Fin 6) (Fin 6) α
  inverse : Matrix (Fin 6) (Fin 6) α → Matrix (Fin 6) (Fin 6) α

/-- The call `std::vector<int>::resize(n)`: keeps the first `n` entries, pads with zeros. -/
def resizeInd (l : List ℤ) (n : ℕ) : List ℤ :=
  l.take n ++ List.replicate (n - l.length) 0

/-- The method `BasicLaserOdometry::updateIMU` (lines 183-196); the assertion on the packet size
fails with `none`. A packet point is `(x, y, z)`. -/
def updateIMU (st : BasicLaserOdometry α) (imuTrans : List (Vector3 α)) :
    Option (BasicLaserOdometry α) :=
  match imuTrans with
  | [p0, p1, p2, p3] =>
    some { st with
      imuPitchStart := p0.x
      imuYawStart := p0.y
      imuRollStart := p0.z
      imuPitchEnd := p1.x
      imuYawEnd := p1.y
      imuRollEnd := p1.z
      imuShiftFromStart := p2
      imuVeloFromStart := p3 }
  | _ => none

/-- The body of the edge loop (lines 259-392) for the sharp point of index `i` in solver
iteration `iterCount`. -/
def edgeStep (lm : Libm α) (ext : External α) (iterCount : ℕ) (st : BasicLaserOdometry α)
    (i : ℕ) : Option (BasicLaserOdometry α) :=
  match st.cornerPointsSharp[i]? with
  | none => none
  | some pi =>
    let pointSel := transformToStart lm st pi
    let cornerPointsSharpNum := st.cornerPointsSharp.length
    let searched : Option (BasicLaserOdometry α) :=
      if iterCount % 5 = 0 then
        let nn := ext.nearestKSearch st.lastCornerKDTree pointSel
        (edgeSearch st.lastCornerCloud cornerPointsSharpNum pointSel nn.1 nn.2).map fun r =>
          { st with
            pointSearchCornerInd1 := st.pointSearchCornerInd1.set i r.1
            pointSearchCornerInd2 := st.pointSearchCornerInd2.set i r.2 }
      else some st
    searched.bind fun st1 =>
      match st1.pointSearchCornerInd1[i]?, st1.pointSearchCornerInd2[i]? with
      | some ind1, some ind2 =>
        if ind2 ≥ 0 then
          if ind1 < 0 then none
          else
            match st1.lastCornerCloud[ind1.toNat]?, st1.lastCornerCloud[ind2.toNat]? with
            | some tripod1, some tripod2 =>
              let r := edgeResidual lm pointSel tripod1 tripod2
              let ld2 := r.2.2.2
              let s := edgeWeight iterCount ld2
              let coeff := weightedCoeff s r.1 r.2.1 r.2.2.1 ld2
              if selected s ld2 then
                some { st1 with
                  laserCloudOri := st1.laserCloudOri ++ [pi]
                  coeffSel := st1.coeffSel ++ [coeff] }
              else some st1
            | _, _ => none
        else some st1
      | _, _ => none

/-- The body of the planar loop (lines 401-520) for the flat point of index `i` in solver
iteration `iterCount`. -/
def surfStep (lm : Libm α) (ext : External α) (iterCount : ℕ) (st : BasicLaserOdometry α)
    (i : ℕ) : Option (BasicLaserOdometry α) :=
  match st.surfPointsFlat[i]? with
  | none => none
  | some pi =>
    let pointSel := transformToStart lm st pi
    let surfPointsFlatNum := st.surfPointsFlat.length
    let searched : Option (BasicLaserOdometry α) :=
      if iterCount % 5 = 0 then
        let nn := ext.nearestKSearch st.lastSurfaceKDTree pointSel
        (planarSearch st.lastSurfaceCloud surfPointsFlatNum pointSel nn.1 nn.2).map fun r =>
          { st with
            pointSearchSurfInd1 := st.pointSearchSurfInd1.set i r.1
            pointSearchSurfInd2 := st.pointSearchSurfInd2.set i r.2.1
            pointSearchSurfInd3 := st.pointSearchSurfInd3.set i r.2.2 }
      else some st
    searched.bind fun st1 =>
      match st1.pointSearchSurfInd1[i]?, st1.pointSearchSurfInd2[i]?,
        st1.pointSearchSurfInd3[i]? with
      | some ind1, some ind2, some ind3 =>
        if ind2 ≥ 0 ∧ ind3 ≥ 0 then
          if ind1 < 0 then none
          else
            match st1.lastSurfaceCloud[ind1.toNat]?, st1.lastSurfaceCloud[ind2.toNat]?,
              st1.lastSurfaceCloud[ind3.toNat]? with
            | some tripod1, some tripod2, some tripod3 =>
              let r := planeResidual lm pointSel tripod1 tripod2 tripod3
              let pd2 := r.2.2.2
              let s := planeWeight lm iterCount pointSel pd2
              let coeff := weightedCoeff s r.1 r.2.1 r.2.2.1 pd2
              if selected s pd2 then
                some { st1 with
                  laserCloudOri := st1.laserCloudOri ++ [pi]
                  coeffSel := st1.coeffSel ++ [coeff] }
              else some st1
            | _, _, _ => none
        else some st1
      | _, _, _ => none

/-- Correspondence and residual assembly of one solver iteration (lines 251-521): both
selection clouds are cleared, then the edge loop and the planar loop run. -/
def assemble (lm : Libm α) (ext : External α) (iterCount : ℕ) (st : BasicLaserOdometry α) :
    Option (BasicLaserOdometry α) :=
  let st0 := { st with laserCloudOri := [], coeffSel := [] }
  ((List.range st0.cornerPointsSharp.length).foldlM (edgeStep lm ext iterCount) st0).bind
    fun st1 => (List.range st1.surfPointsFlat.length).foldlM (surfStep lm ext iterCount) st1

/-- The rows of `matA` and the entries of `matB` (lines 537-594). -/
def jacobianRows (lm : Libm α) (tr : Twist α) (laserCloudOri coeffSel : PointCloud α) :
    List ((Fin 6 → α) × α) :=
  List.zipWith (jacobianRow lm tr) laserCloudOri coeffSel

/-- The normal matrix `matAtA = matAt * matA` (line 596). -/
def matAtA (rows : List ((Fin 6 → α) × α)) : Matrix (Fin 6) (Fin 6) α :=
  fun i j => (rows.map fun r => r.1 i * r.1 j).sum

/-- The right-hand side `matAtB = matAt * matB` (line 597). -/
def matAtB (rows : List ((Fin 6 → α) × α)) : Fin 6 → α :=
  fun i => (rows.map fun r => r.1 i * r.2).sum

/-- The scan over the eigenvalues (lines 615-631): for each leading eigenvalue below the
threshold 10 the entries `matV2(i, j)`, `j = 0..5`, are set to zero and the degeneracy
flag is raised; the scan stops at the first eigenvalue that is not below it. -/
def degeneracyScan (matE : Fin 6 → α) :
    List (Fin 6) → Matrix (Fin 6) (Fin 6) α × Bool → Matrix (Fin 6) (Fin 6) α × Bool
  | [], acc => acc
  | i :: rest, acc =>
    if matE i < 10 then
      degeneracyScan matE rest (fun r c => if r = i then 0 else acc.1 r c, true)
    else acc

/-- The degeneracy detection of iteration 0 (lines 604-632): the flag `isDegenerate` and
the matrix `matP`. -/
def degeneracy (ext : External α) (AtA : Matrix (Fin 6) (Fin 6) α) :
    Bool × Matrix (Fin 6) (Fin 6) α :=
  let es := ext.eigenSolver AtA
  let matE := es.1
  let matV := es.2
  let scan := degeneracyScan matE (List.finRange 6) (matV, false)
  (scan.2, ext.inverse matV * scan.1)

/-- The local variables of `process` that live across solver iterations. -/
structure SolverState (α : Type) where
  st : BasicLaserOdometry α
  isDegenerate : Bool
  matP : Matrix (Fin 6) (Fin 6) α

/-- How one pass through the body of the solver loop ends. -/
inductive Flow where
  | next
  | stop
deriving DecidableEq

/-- The body of the solver loop (lines 250-672) for iteration `iterCount`. `Flow.next`
covers both `continue` and falling through the end of the body, `Flow.stop` is `break`.
The finiteness repair of lines 650-661 does nothing, every value of the model being
finite. -/
def solverStep (lm : Libm α) (ext : External α) (iterCount : ℕ) (ss : SolverState α) :
    Option (SolverState α × Flow) :=
  (assemble lm ext iterCount ss.st).bind fun st1 =>
    let pointSelNum := st1.laserCloudOri.length
    if pointSelNum < 10 then some ({ ss with st := st1 }, Flow.next)
    else
      let rows := jacobianRows lm st1.transform st1.laserCloudOri st1.coeffSel
      let AtA := matAtA rows
      let AtB := matAtB rows
      let matX := ext.qrSolve AtA AtB
      let deg : Bool × Matrix (Fin 6) (Fin 6) α :=
        if iterCount = 0 then degeneracy ext AtA else (ss.isDegenerate, ss.matP)
      let matX : Fin 6 → α := if deg.1 then deg.2.mulVec matX else matX
      let tr : Twist α :=
        { rot_x := st1.transform.rot_x + matX 0
          rot_y := st1.transform.rot_y + matX 1
          rot_z := st1.transform.rot_z + matX 2
          pos := ⟨st1.transform.pos.x + matX 3, st1.transform.pos.y + matX 4,
            st1.transform.pos.z + matX 5⟩ }
      let deltaR := lm.sqrt ((rad2deg lm (matX 0)) ^ 2 + (rad2deg lm (matX 1)) ^ 2
        + (rad2deg lm (matX 2)) ^ 2)
      let deltaT := lm.sqrt ((matX 3 * 100) ^ 2 + (matX 4 * 100) ^ 2 + (matX 5 * 100) ^ 2)
      let ss1 : SolverState α :=
        { st := { st1 with transform := tr }, isDegenerate := deg.1, matP := deg.2 }
      if deltaR < st1.deltaRAbort ∧ deltaT < st1.deltaTAbort then some (ss1, Flow.stop)
      else some (ss1, Flow.next)

/-- The solver loop `for (iterCount = 0; iterCount < _maxIterations; iterCount++)`
(line 248), with `fuel` iterations left. -/
def solverLoop (lm : Libm α) (ext : External α) :
    ℕ → ℕ → SolverState α → Option (SolverState α)
  | 0, _, ss => some ss
  | fuel + 1, iterCount, ss =>
    match solverStep lm ext iterCount ss with
    | none => none
    | some (ss1, Flow.stop) => some ss1
    | some (ss1, Flow.next) => solverLoop lm ext fuel (iterCount + 1) ss1

/-- The optimisation block of `process` (lines 227-674). The calls of
`pcl::removeNaNFromPointCloud` (lines 236 and 265) leave a cloud without NaN points as it
is, and the model has no NaN. -/
def optimise (lm : Libm α) (ext : External α) (st : BasicLaserOdometry α) :
    Option (BasicLaserOdometry α) :=
  let lastCornerCloudSize := st.lastCornerCloud.length
  let lastSurfaceCloudSize := st.lastSurfaceCloud.length
  if lastCornerCloudSize > 10 ∧ lastSurfaceCloudSize > 100 then
    let cornerPointsSharpNum := st.cornerPointsSharp.length
    let surfPointsFlatNum := st.surfPointsFlat.length
    let st1 : BasicLaserOdometry α :=
      { st with
        pointSearchCornerInd1 := resizeInd st.pointSearchCornerInd1 cornerPointsSharpNum
        pointSearchCornerInd2 := resizeInd st.pointSearchCornerInd2 cornerPointsSharpNum
        pointSearchSurfInd1 := resizeInd st.pointSearchSurfInd1 surfPointsFlatNum
        pointSearchSurfInd2 := resizeInd st.pointSearchSurfInd2 surfPointsFlatNum
        pointSearchSurfInd3 := resizeInd st.pointSearchSurfInd3 surfPointsFlatNum }
    (solverLoop lm ext st1.maxIterations 0 ⟨st1, false, 0⟩).map fun ss => ss.st
  else some st

/-- The pose accumulation and the buffer rotation of `process` (lines 676-718). -/
def accumulate (lm : Libm α) (st : BasicLaserOdometry α) : BasicLaserOdometry α :=
  let r := accumulateRotation lm st.transformSum.rot_x st.transformSum.rot_y
    st.transformSum.rot_z (-st.transform.rot_x) (-st.transform.rot_y * (21 / 20))
    (-st.transform.rot_z)
  let rx := r.1
  let ry := r.2.1
  let rz := r.2.2
  let v : Vector3 α :=
    ⟨st.transform.pos.x - st.imuShiftFromStart.x,
      st.transform.pos.y - st.imuShiftFromStart.y,
      st.transform.pos.z * (21 / 20) - st.imuShiftFromStart.z⟩
  let v := rotateZXYv lm v rz rx ry
  let trans : Vector3 α :=
    ⟨st.transformSum.pos.x - v.x, st.transformSum.pos.y - v.y, st.transformSum.pos.z - v.z⟩
  let q := pluginIMURotation lm rx ry rz st.imuPitchStart st.imuYawStart st.imuRollStart
    st.imuPitchEnd st.imuYawEnd st.imuRollEnd
  let st1 : BasicLaserOdometry α :=
    { st with transformSum := ⟨q.1, q.2.1, q.2.2, trans⟩ }
  let corner := (transformToEnd lm st1 st1.cornerPointsLessSharp).1
  let surf := (transformToEnd lm st1 st1.surfPointsLessFlat).1
  let st2 : BasicLaserOdometry α :=
    { st1 with
      cornerPointsLessSharp := st1.lastCornerCloud
      lastCornerCloud := corner
      surfPointsLessFlat := st1.lastSurfaceCloud
      lastSurfaceCloud := surf }
  if st2.lastCornerCloud.length > 10 ∧ st2.lastSurfaceCloud.length > 100 then
    { st2 with
      lastCornerKDTree := st2.lastCornerCloud
      lastSurfaceKDTree := st2.lastSurfaceCloud }
  else st2

/-- The method `BasicLaserOdometry::process` (lines 198-720). The result is `none` when the sweep
reads a cloud outside its bounds. -/
def process (lm : Libm α) (ext : External α) (st : BasicLaserOdometry α) :
    Option (BasicLaserOdometry α) :=
  if !st.systemInited then
    some { st with
      cornerPointsLessSharp := st.lastCornerCloud
      lastCornerCloud := st.cornerPointsLessSharp
      surfPointsLessFlat := st.lastSurfaceCloud
      lastSurfaceCloud := st.surfPointsLessFlat
      lastCornerKDTree := st.cornerPointsLessSharp
      lastSurfaceKDTree := st.surfPointsLessFlat
      transformSum :=
        { st.transformSum with
          rot_x := st.transformSum.rot_x + st.imuPitchStart
          rot_z := st.transformSum.rot_z + st.imuRollStart }
      systemInited := true }
  else
    let st1 : BasicLaserOdometry α :=
      { st with
        frameCount := st.frameCount + 1
        transform :=
          { st.transform with
            pos := ⟨st.transform.pos.x - st.imuVeloFromStart.x * st.scanPeriod,
              st.transform.pos.y - st.imuVeloFromStart.y * st.scanPeriod,
              st.transform.pos.z - st.imuVeloFromStart.z * st.scanPeriod⟩ } }
    (optimise lm ext st1).map (accumulate lm)

end Process

/-! ## Runs of the solver loop -/

section RunSpec

variable {α : Type} [LinearOrderedField α] [FloorRing α]

/-- The part of a state that the correspondence search and the selection leave alone:
the state with the selection clouds and the cached neighbour indices emptied. -/
def BasicLaserOdometry.frame (st : BasicLaserOdometry α) : BasicLaserOdometry α :=
  { st with
    laserCloudOri := []
    coeffSel := []
    pointSearchCornerInd1 := []
    pointSearchCornerInd2 := []
    pointSearchSurfInd1 := []
    pointSearchSurfInd2 := []
    pointSearchSurfInd3 := [] }

/-- The state `st` with the cached neighbour indices and the selection clouds replaced:
these are the members the correspondence search and the selection write. -/
def withCaches (st : BasicLaserOdometry α) (c1 c2 s1 s2 s3 : List ℤ)
    (ori coeff : PointCloud α) : BasicLaserOdometry α :=
  { st with
    pointSearchCornerInd1 := c1
    pointSearchCornerInd2 := c2
    pointSearchSurfInd1 := s1
    pointSearchSurfInd2 := s2
    pointSearchSurfInd3 := s3
    laserCloudOri := ori
    coeffSel := coeff }

/-- The state after lines 221-224 of `process`: the frame counter is advanced and the
translation of the previous sweep, reduced by `_imuVeloFromStart * _scanPeriod`, is the
initial guess. -/
def initialGuess (st : BasicLaserOdometry α) : BasicLaserOdometry α :=
  { st with
    frameCount := st.frameCount + 1
    transform :=
      { st.transform with
        pos := ⟨st.transform.pos.x - st.imuVeloFromStart.x * st.scanPeriod,
          st.transform.pos.y - st.imuVeloFromStart.y * st.scanPeriod,
          st.transform.pos.z - st.imuVeloFromStart.z * st.scanPeriod⟩ } }

/-- The solver state at the entry of the solver loop (lines 218-219 and 240-244): the
index vectors resized, `isDegenerate` false. -/
def solverStart (st : BasicLaserOdometry α) : SolverState α :=
  ⟨{ st with
      pointSearchCornerInd1 := resizeInd st.pointSearchCornerInd1 st.cornerPointsSharp.length
      pointSearchCornerInd2 := resizeInd st.pointSearchCornerInd2 st.cornerPointsSharp.length
      pointSearchSurfInd1 := resizeInd st.pointSearchSurfInd1 st.surfPointsFlat.length
      pointSearchSurfInd2 := resizeInd st.pointSearchSurfInd2 st.surfPointsFlat.length
      pointSearchSurfInd3 := resizeInd st.pointSearchSurfInd3 st.surfPointsFlat.length },
    false, 0⟩

/-- Every iteration of the solver loop, run from iteration `iterCount` with `fuel`
iterations left, selects fewer than 10 correspondences (and so takes the `continue` of
line 526). -/
def AllSkip (lm : Libm α) (ext : External α) : ℕ → ℕ → SolverState α → Prop
  | 0, _, _ => True
  | fuel + 1, iterCount, ss =>
    ∃ st1, assemble lm ext iterCount ss.st = some st1 ∧ st1.laserCloudOri.length < 10 ∧
      AllSkip lm ext fuel (iterCount + 1) { ss with st := st1 }

/-- Every solver iteration of the `process()` call on `st` selects fewer than 10
correspondences. -/
def EverySkip (lm : Libm α) (ext : External α) (st : BasicLaserOdometry α) : Prop :=
  AllSkip lm ext st.maxIterations 0 (solverStart (initialGuess st))

/-- The solver loop with a log: the list of the outcomes of the iterations that were
run, in order, each with the way its body ended. -/
def solverTrace (lm : Libm α) (ext : External α) :
    ℕ → ℕ → SolverState α → Option (List (SolverState α × Flow))
  | 0, _, _ => some []
  | fuel + 1, iterCount, ss =>
    match solverStep lm ext iterCount ss with
    | none => none
    | some (ss1, Flow.stop) => some [(ss1, Flow.stop)]
    | some (ss1, Flow.next) =>
      (solverTrace lm ext fuel (iterCount + 1) ss1).map fun l => (ss1, Flow.next) :: l

end RunSpec

/-! ## Sweep-level specifications -/

section SweepSpec

variable {α : Type} [LinearOrderedField α] [FloorRing α]

/-- The weighted query `c . q` of a selected feature as a function of the transform `tr`:
`q` is the original point `p` mapped by `transformToStart` under `tr`, and `c` is the
weighted gradient `(coeff.x, coeff.y, coeff.z)`. -/
def weightedQuery (lm : Libm α) (st : BasicLaserOdometry α) (p c : PointXYZI α)
    (tr : Twist α) : α :=
  c.x * (transformToStart lm { st with transform := tr } p).x
    + c.y * (transformToStart lm { st with transform := tr } p).y
    + c.z * (transformToStart lm { st with transform := tr } p).z

/-- What the two planar scans maintain about `(minPointSqDis2, minPointInd2)` and
`(minPointSqDis3, minPointInd3)` over a cloud sorted by ring, for the nearest neighbour of
index `a` on ring `scan`: a cached second index `>= 0` is the index of a point on the ring
`scan`, a cached third index `>= 0` is the index of a point on another ring at most 2
away; both differ from `a`, and each cached value is the squared distance of its point to
the query, below 25. -/
def PlanarBestOK (cloud : PointCloud α) (pointSel : PointXYZI α) (scan : ℤ) (a : ℕ)
    (best : PlanarBest α) : Prop :=
  (0 ≤ best.1.2 → ∃ pb, cloud[best.1.2.toNat]? = some pb ∧ ring pb = scan ∧
    best.1.2 ≠ (a : ℤ) ∧ calcSquaredDiff pb pointSel = best.1.1 ∧ best.1.1 < 25) ∧
  (0 ≤ best.2.2 → ∃ pc, cloud[best.2.2.toNat]? = some pc ∧ ring pc ≠ scan ∧
    |ring pc - scan| ≤ 2 ∧ best.2.2 ≠ (a : ℤ) ∧ calcSquaredDiff pc pointSel = best.2.1 ∧
    best.2.1 < 25)

/-- The ring ids of the cloud are non-decreasing in index order. -/
def RingSorted (cloud : PointCloud α) : Prop :=
  ∀ (i j : ℕ) (pi pj : PointXYZI α), i ≤ j → cloud[i]? = some pi → cloud[j]? = some pj →
    ring pi ≤ ring pj

/-- The point of index `j` is a candidate that the edge scans around the nearest neighbour
of index `a` (ring `scan`) reach and compare: either the forward scan reaches it (`a < j`,
`j` below the loop bound `cornerPointsSharpNum`, no point of index in `(a, j]` lies more
than 2 rings above `scan`) and it lies on a ring above `scan`, or the backward scan reaches
it (`j < a`, no point of index in `[j, a)` lies more than 2 rings below `scan`) and it lies
on a ring below `scan`; its squared distance to the query is below 25. -/
def EdgeCandidate (cloud : PointCloud α) (pointSel : PointXYZI α) (scan : ℤ)
    (cornerPointsSharpNum a j : ℕ) (pj : PointXYZI α) : Prop :=
  cloud[j]? = some pj ∧ calcSquaredDiff pj pointSel < 25 ∧
    ((a < j ∧ j < cornerPointsSharpNum ∧ scan < ring pj ∧
        ∀ (k : ℕ) (pk : PointXYZI α), a < k → k ≤ j → cloud[k]? = some pk →
          ring pk ≤ scan + 2) ∨
      (j < a ∧ ring pj < scan ∧
        ∀ (k : ℕ) (pk : PointXYZI α), j ≤ k → k < a → cloud[k]? = some pk →
          scan - 2 ≤ ring pk))

/-- Modelled from the spec: `updateCornerPointsSharp(cloud)` sets the sharp corner buffer
of the current sweep. -/
def updateCornerPointsSharp (st : BasicLaserOdometry α) (cloud : PointCloud α) :
    BasicLaserOdometry α :=
  { st with cornerPointsSharp := cloud }

/-- Modelled from the spec: `updateCornerPointsLessSharp(cloud)` sets the less-sharp corner
buffer of the current sweep. -/
def updateCornerPointsLessSharp (st : BasicLaserOdometry α) (cloud : PointCloud α) :
    BasicLaserOdometry α :=
  { st with cornerPointsLessSharp := cloud }

/-- Modelled from the spec: `updateSurfPointsFlat(cloud)` sets the flat surface buffer of
the current sweep. -/
def updateSurfPointsFlat (st : BasicLaserOdometry α) (cloud : PointCloud α) :
    BasicLaserOdometry α :=
  { st with surfPointsFlat := cloud }

/-- Modelled from the spec: `updateSurfPointsLessFlat(cloud)` sets the less-flat surface
buffer of the current sweep. -/
def updateSurfPointsLessFlat (st : BasicLaserOdometry α) (cloud : PointCloud α) :
    BasicLaserOdometry α :=
  { st with surfPointsLessFlat := cloud }

/-- The states reachable from a fresh instance by the calls of the interface: the four
cloud updates, `updateIMU` and `process`. -/
inductive Reachable (lm : Libm α) (ext : External α) : BasicLaserOdometry α → Prop
  | fresh (scanPeriod : α) (maxIterations : ℕ) :
    Reachable lm ext (BasicLaserOdometry.new scanPeriod maxIterations)
  | cornerSharp (st : BasicLaserOdometry α) (cloud : PointCloud α) :
    Reachable lm ext st → Reachable lm ext (updateCornerPointsSharp st cloud)
  | cornerLessSharp (st : BasicLaserOdometry α) (cloud : PointCloud α) :
    Reachable lm ext st → Reachable lm ext (updateCornerPointsLessSharp st cloud)
  | surfFlat (st : BasicLaserOdometry α) (cloud : PointCloud α) :
    Reachable lm ext st → Reachable lm ext (updateSurfPointsFlat st cloud)
  | surfLessFlat (st : BasicLaserOdometry α) (cloud : PointCloud α) :
    Reachable lm ext st → Reachable lm ext (updateSurfPointsLessFlat st cloud)
  | imu (st st1 : BasicLaserOdometry α) (imuTrans : List (Vector3 α)) :
    Reachable lm ext st → updateIMU st imuTrans = some st1 → Reachable lm ext st1
  | sweep (st st1 : BasicLaserOdometry α) :
    Reachable lm ext st → process lm ext st = some st1 → Reachable lm ext st1

end SweepSpec

/-! ## Example data -/

section Examples

/-- A freshly constructed odometry with its four feature clouds and its IMU packet set. -/
def coldStartExample : BasicLaserOdometry ℚ :=
  { BasicLaserOdometry.new (1 / 10 : ℚ) 25 with
    cornerPointsSharp := [⟨1, 2, 3, 5 / 2⟩]
    cornerPointsLessSharp := [⟨1, 2, 3, 5 / 2⟩, ⟨2, 2, 3, 7 / 2⟩]
    surfPointsFlat := [⟨0, 1, 0, 1⟩]
    surfPointsLessFlat := [⟨0, 1, 0, 1⟩, ⟨0, 2, 0, 1⟩, ⟨0, 3, 0, 2⟩]
    imuPitchStart := 1 / 5
    imuYawStart := 1 / 3
    imuRollStart := -1 / 7
    imuPitchEnd := 1 / 4
    imuYawEnd := 1 / 2
    imuRollEnd := -1 / 8
    imuShiftFromStart := ⟨1, 0, 0⟩
    imuVeloFromStart := ⟨0, 1, 0⟩ }

/-- An odometry with scan period 1/10 whose current transform is the translation
`(1, 0, 0)` without rotation. -/
def translationExample (α : Type) [LinearOrderedField α] : BasicLaserOdometry α :=
  { BasicLaserOdometry.new (1 / 10 : α) 25 with transform := ⟨0, 0, 0, ⟨1, 0, 0⟩⟩ }

/-- A `lastCorner` cloud of 12 points for the ring-window scenario: the points lie on
the x axis, on rings 1, 2, 3, 4, 5, 5, 6, 7, 8, 9, 10, 11, at the positions
6, 5, 3, 2, 5/2, 1, 3/2, 2, 11/10, 4, 13/2, 7. The nearest point to the origin is the one of
index 5 (ring 5, squared distance 1); the nearest point to `(6, 0, 0)` is the one of
index 0 (ring 1, squared distance 0). -/
def ringWindowCloud : PointCloud ℚ :=
  [⟨6, 0, 0, 1⟩, ⟨5, 0, 0, 2⟩, ⟨3, 0, 0, 3⟩, ⟨2, 0, 0, 4⟩, ⟨5 / 2, 0, 0, 5⟩, ⟨1, 0, 0, 5⟩,
    ⟨3 / 2, 0, 0, 6⟩, ⟨2, 0, 0, 7⟩, ⟨11 / 10, 0, 0, 8⟩, ⟨4, 0, 0, 9⟩, ⟨13 / 2, 0, 0, 10⟩,
    ⟨7, 0, 0, 11⟩]

/-- An initialised odometry with one sharp point `(0, y, 0)` on ring 0 at relative time 0,
two last corner points `A = (0, 0, 0)` (ring 0) and `B = (1, 0, 0)` (ring 1), and the cached
neighbour indices 0 and 1 for that point; the transform is zero. -/
def edgeExample (α : Type) [LinearOrderedField α] (y : α) : BasicLaserOdometry α :=
  { BasicLaserOdometry.new (1 / 10 : α) 25 with
    systemInited := true
    cornerPointsSharp := [⟨0, y, 0, 0⟩]
    lastCornerCloud := [⟨0, 0, 0, 0⟩, ⟨1, 0, 0, 1⟩]
    pointSearchCornerInd1 := [0]
    pointSearchCornerInd2 := [1] }

/-- An initialised odometry whose last clouds are large enough for the optimisation
(11 corner and 101 surface points) while the current sweep has no sharp and no flat
feature point, so that every solver iteration selects nothing. The carried-forward
transform is the translation `(1, 0, 0)`, the IMU velocity is `(1, 0, 0)`, the IMU shift
is `(0, 0, 1)`, all angles and `transformSum` are zero. -/
def stalledExample (α : Type) [LinearOrderedField α] : BasicLaserOdometry α :=
  { BasicLaserOdometry.new (1 / 10 : α) 25 with
    systemInited := true
    lastCornerCloud := List.replicate 11 ⟨0, 0, 0, 0⟩
    lastSurfaceCloud := List.replicate 101 ⟨0, 0, 0, 0⟩
    lastCornerKDTree := List.replicate 11 ⟨0, 0, 0, 0⟩
    lastSurfaceKDTree := List.replicate 101 ⟨0, 0, 0, 0⟩
    transform := ⟨0, 0, 0, ⟨1, 0, 0⟩⟩
    imuShiftFromStart := ⟨0, 0, 1⟩
    imuVeloFromStart := ⟨1, 0, 0⟩ }

/-- An initialised odometry with empty last clouds and empty k-d trees that is handed 11
less-sharp and 101 less-flat points. -/
def rebuildExample (α : Type) [LinearOrderedField α] : BasicLaserOdometry α :=
  { BasicLaserOdometry.new (1 / 10 : α) 25 with
    systemInited := true
    cornerPointsLessSharp := List.replicate 11 ⟨1, 0, 0, 0⟩
    surfPointsLessFlat := List.replicate 101 ⟨0, 1, 0, 0⟩ }

/-- An initialised odometry with empty last clouds whose k-d trees hold one point each and
that is handed 3 less-sharp and 2 less-flat points. -/
def keepExample (α : Type) [LinearOrderedField α] : BasicLaserOdometry α :=
  { BasicLaserOdometry.new (1 / 10 : α) 25 with
    systemInited := true
    lastCornerKDTree := [⟨5, 0, 0, 0⟩]
    lastSurfaceKDTree := [⟨0, 5, 0, 0⟩]
    cornerPointsLessSharp := List.replicate 3 ⟨1, 0, 0, 0⟩
    surfPointsLessFlat := List.replicate 2 ⟨0, 1, 0, 0⟩ }

/-- The diagonal `(400, 1, 100, 900, 1600, 2500)` of the normal matrix of the axis
example. -/
def axisExampleDiag {α : Type} [LinearOrderedField α] : Fin 6 → α :=
  ![400, 1, 100, 900, 1600, 2500]

/-- A diagonal normal matrix whose diagonal is not sorted: the smallest eigenvalue 1 belongs
to the coordinate axis 1, the next one, 100, to the axis 2, and 400 to the axis 0. Its
eigenvalues are distinct, so its unit eigenvectors are determined up to sign. -/
def axisExampleAtA {α : Type} [LinearOrderedField α] : Matrix (Fin 6) (Fin 6) α :=
  Matrix.diagonal axisExampleDiag

/-- Jacobian rows (with right-hand sides 0) whose normal matrix is `axisExampleAtA`: one
row along each coordinate axis, of lengths 20, 1, 10, 30, 40 and 50. -/
def axisExampleRows {α : Type} [LinearOrderedField α] : List ((Fin 6 → α) × α) :=
  [(![20, 0, 0, 0, 0, 0], 0), (![0, 1, 0, 0, 0, 0], 0), (![0, 0, 10, 0, 0, 0], 0),
    (![0, 0, 0, 30, 0, 0], 0), (![0, 0, 0, 0, 40, 0], 0), (![0, 0, 0, 0, 0, 50], 0)]

/-- Library routines for the axis example: the eigen-solver returns the eigenvalues
`(1, 100, 400, 900, 1600, 2500)` in ascending order and, as the columns of `matV`, the unit
vectors of the axes 1, 2, 0, 3, 4, 5; the inverse is the transpose, which is the inverse of
an orthogonal matrix. -/
def axisExampleExt : External ℚ where
  nearestKSearch := fun _ _ => (0, 0)
  qrSolve := fun _ b => b
  eigenSolver := fun _ =>
    (![1, 100, 400, 900, 1600, 2500],
      !![0, 0, 1, 0, 0, 0;
         1, 0, 0, 0, 0, 0;
         0, 1, 0, 0, 0, 0;
         0, 0, 0, 1, 0, 0;
         0, 0, 0, 0, 1, 0;
         0, 0, 0, 0, 0, 1])
  inverse := fun M => M.transpose

/-- A `lastSurface` cloud of 4 points sorted by ring: three points on ring 5 at
`(1, 0, 0)`, `(0, 0, 0)`, `(2, 0, 0)` and one point on ring 6 at `(0, 1, 0)`. -/
def planarExampleCloud : PointCloud ℚ :=
  [⟨1, 0, 0, 5⟩, ⟨0, 0, 0, 5⟩, ⟨2, 0, 0, 5⟩, ⟨0, 1, 0, 6⟩]

/-- A `lastCorner` cloud of 12 points on rings 1, 2, 3, 4, 4, 5, 6, 7, 8, 9, 10, 11. For the
query at the origin the nearest point is index 5 (ring 5, squared distance 1); the points
of index 3 and 4 (ring 4) both have squared distance 4, the points of index 6 and 7
(rings 6 and 7) both have squared distance 9, the point of index 2 (ring 3) has squared
distance 16 and the other points are at squared distance 36. -/
def tieCloud : PointCloud ℚ :=
  [⟨6, 0, 0, 1⟩, ⟨6, 0, 0, 2⟩, ⟨0, 0, 4, 3⟩, ⟨2, 0, 0, 4⟩, ⟨0, 2, 0, 4⟩, ⟨1, 0, 0, 5⟩,
    ⟨0, 0, 3, 6⟩, ⟨0, 3, 0, 7⟩, ⟨6, 0, 0, 8⟩, ⟨6, 0, 0, 9⟩, ⟨6, 0, 0, 10⟩, ⟨6, 0, 0, 11⟩]

/-- A `lastCorner` cloud of 3 points for a tie across the two scans: around the nearest
neighbour of index 1 (ring 5) the point of index 0 (ring 4) and the point of index 2
(ring 6) both have squared distance 4 to the origin. -/
def crossTieCloud : PointCloud ℚ :=
  [⟨2, 0, 0, 4⟩, ⟨1, 0, 0, 5⟩, ⟨0, 2, 0, 6⟩]

/-- An initialised odometry whose last clouds hold 11 corner points and 101 surface points,
all at the origin on ring 0, and whose current sweep has 13 sharp points at the origin:
the optimisation runs and the current sharp cloud is larger than `lastCorner`. -/
def overrunExample (α : Type) [LinearOrderedField α] : BasicLaserOdometry α :=
  { BasicLaserOdometry.new (1 / 10 : α) 25 with
    systemInited := true
    cornerPointsSharp := List.replicate 13 ⟨0, 0, 0, 0⟩
    lastCornerCloud := List.replicate 11 ⟨0, 0, 0, 0⟩
    lastSurfaceCloud := List.replicate 101 ⟨0, 0, 0, 0⟩
    lastCornerKDTree := List.replicate 11 ⟨0, 0, 0, 0⟩
    lastSurfaceKDTree := List.replicate 101 ⟨0, 0, 0, 0⟩ }

/-- A fresh odometry that was handed 11 less-sharp and 101 less-flat points. -/
def firstSweepExample (α : Type) [LinearOrderedField α] : BasicLaserOdometry α :=
  updateSurfPointsLessFlat
    (updateCornerPointsLessSharp (BasicLaserOdometry.new (1 / 10 : α) 25)
      (List.replicate 11 ⟨1, 0, 0, 0⟩))
    (List.replicate 101 ⟨0, 1, 0, 0⟩)

/-- An initialised odometry that enters the optimisation with one sharp point `(0, 1, 0)`
on ring 0 and no flat point: `lastCorner` holds `B = (1, 0, 0)` on ring 0, `A = (0, 0, 0)`
on ring 1 and nine points `(9, 9, 9)` on ring 1, `lastSurface` holds 101 points, the k-d
trees index these clouds, the transform and the IMU velocity are zero. -/
def sparseExample (α : Type) [LinearOrderedField α] : BasicLaserOdometry α :=
  { BasicLaserOdometry.new (1 / 10 : α) 25 with
    systemInited := true
    cornerPointsSharp := [⟨0, 1, 0, 0⟩]
    lastCornerCloud := ⟨1, 0, 0, 0⟩ :: ⟨0, 0, 0, 1⟩ :: List.replicate 9 ⟨9, 9, 9, 1⟩
    lastSurfaceCloud := List.replicate 101 ⟨0, 0, 0, 0⟩
    lastCornerKDTree := ⟨1, 0, 0, 0⟩ :: ⟨0, 0, 0, 1⟩ :: List.replicate 9 ⟨9, 9, 9, 1⟩
    lastSurfaceKDTree := List.replicate 101 ⟨0, 0, 0, 0⟩ }

/-- Library routines for the sparse example: the nearest-neighbour query answers index 1
at squared distance 1, which is the nearest point of the `lastCorner` cloud of
`sparseExample` to its sharp point `(0, 1, 0)`. -/
def sparseExampleExt (α : Type) [LinearOrderedField α] : External α where
  nearestKSearch := fun _ _ => (1, 1)
  qrSolve := fun _ b => b
  eigenSolver := fun _ => (0, 1)
  inverse := fun M => M

end Examples

/-! ## Auxiliary lemmas -/

section Lemmas

variable {α : Type} [LinearOrderedField α] [FloorRing α]

theorem truncToInt_of_nonneg {x : α} (h : 0 ≤ x) : truncToInt x = ⌊x⌋ := by
  simp [truncToInt, h]

theorem PointXYZI.ext_iff4 {β : Type} (p q : PointXYZI β) :
    p = q ↔ p.x = q.x ∧ p.y = q.y ∧ p.z = q.z ∧ p.intensity = q.intensity := by
  cases p; cases q; simp

theorem rotX_rotX_neg (p : PointXYZI ℝ) (a : ℝ) :
    rotX realLibm (rotX realLibm p (-a)) a = p := by
  have h := Real.sin_sq_add_cos_sq a
  rw [PointXYZI.ext_iff4]
  simp only [rotX, realLibm, Real.sin_neg, Real.cos_neg]
  refine ⟨trivial, ?_, ?_, trivial⟩
  · linear_combination p.y * h
  · linear_combination p.z * h

theorem rotY_rotY_neg (p : PointXYZI ℝ) (a : ℝ) :
    rotY realLibm (rotY realLibm p (-a)) a = p := by
  have h := Real.sin_sq_add_cos_sq a
  rw [PointXYZI.ext_iff4]
  simp only [rotY, realLibm, Real.sin_neg, Real.cos_neg]
  refine ⟨?_, trivial, ?_, trivial⟩
  · linear_combination p.x * h
  · linear_combination p.z * h

theorem rotZ_rotZ_neg (p : PointXYZI ℝ) (a : ℝ) :
    rotZ realLibm (rotZ realLibm p (-a)) a = p := by
  have h := Real.sin_sq_add_cos_sq a
  rw [PointXYZI.ext_iff4]
  simp only [rotZ, realLibm, Real.sin_neg, Real.cos_neg]
  refine ⟨?_, ?_, trivial, trivial⟩
  · linear_combination p.x * h
  · linear_combination p.y * h

/-- Undoing the sweep rotation: `rotateYXZ` with the full angles inverts `rotateZXY` with
the negated angles. -/
theorem rotateYXZ_rotateZXY_neg (p : PointXYZI ℝ) (rx ry rz : ℝ) :
    rotateYXZ realLibm (rotateZXY realLibm p (-rz) (-rx) (-ry)) ry rx rz = p := by
  simp only [rotateYXZ, rotateZXY, rotY_rotY_neg, rotX_rotX_neg, rotZ_rotZ_neg]

theorem rotateZXY_zero (p : PointXYZI ℝ) : rotateZXY realLibm p 0 0 0 = p := by
  simp [rotateZXY, rotX, rotY, rotZ, realLibm]

theorem rotateYXZ_zero (p : PointXYZI ℝ) : rotateYXZ realLibm p 0 0 0 = p := by
  simp [rotateYXZ, rotX, rotY, rotZ, realLibm]

end Lemmas

/-! ## Rotation composition: auxiliary lemmas -/

section RotationLemmas

open Real


theorem eulerMatrix_apply {α : Type} [LinearOrderedField α] (lm : Libm α) (x y z : α) :
    eulerMatrix lm x y z =
      !![lm.cos y * lm.cos z + lm.sin y * lm.sin x * lm.sin z,
         -(lm.cos y * lm.sin z) + lm.sin y * lm.sin x * lm.cos z, lm.sin y * lm.cos x;
         lm.cos x * lm.sin z, lm.cos x * lm.cos z, -lm.sin x;
         -(lm.sin y * lm.cos z) + lm.cos y * lm.sin x * lm.sin z,
         lm.sin y * lm.sin z + lm.cos y * lm.sin x * lm.cos z, lm.cos y * lm.cos x] := by
  ext i j
  fin_cases i <;> fin_cases j <;>
    simp [eulerMatrix, rotMatX, rotMatY, rotMatZ, Matrix.mul_apply, Fin.sum_univ_three]

theorem accumulateRotation_eq_extract {α : Type} [LinearOrderedField α] (lm : Libm α)
    (cx cy cz lx ly lz : α) :
    accumulateRotation lm cx cy cz lx ly lz =
      eulerExtract lm
        ((eulerMatrix lm cx cy cz * eulerMatrix lm lx ly lz) 1 2)
        ((eulerMatrix lm cx cy cz * eulerMatrix lm lx ly lz) 0 2)
        ((eulerMatrix lm cx cy cz * eulerMatrix lm lx ly lz) 2 2)
        ((eulerMatrix lm cx cy cz * eulerMatrix lm lx ly lz) 1 0)
        ((eulerMatrix lm cx cy cz * eulerMatrix lm lx ly lz) 1 1) := by
  have e12 : (eulerMatrix lm cx cy cz * eulerMatrix lm lx ly lz) 1 2
      = accumulateRotationSrx lm cx cz lx ly := by
    simp [eulerMatrix_apply, Matrix.mul_apply, Fin.sum_univ_three, accumulateRotationSrx]; ring
  have e02 : (eulerMatrix lm cx cy cz * eulerMatrix lm lx ly lz) 0 2
      = lm.sin lx * (lm.cos cy * lm.sin cz - lm.cos cz * lm.sin cx * lm.sin cy)
    + lm.cos lx * lm.sin ly * (lm.cos cy * lm.cos cz + lm.sin cx * lm.sin cy * lm.sin cz)
    + lm.cos lx * lm.cos ly * lm.cos cx * lm.sin cy := by
    simp [eulerMatrix_apply, Matrix.mul_apply, Fin.sum_univ_three]; ring
  have e22 : (eulerMatrix lm cx cy cz * eulerMatrix lm lx ly lz) 2 2
      = lm.cos lx * lm.cos ly * lm.cos cx * lm.cos cy
    - lm.cos lx * lm.sin ly * (lm.cos cz * lm.sin cy - lm.cos cy * lm.sin cx * lm.sin cz)
    - lm.sin lx * (lm.sin cy * lm.sin cz + lm.cos cy * lm.cos cz * lm.sin cx) := by
    simp [eulerMatrix_apply, Matrix.mul_apply, Fin.sum_univ_three]; ring
  have e10 : (eulerMatrix lm cx cy cz * eulerMatrix lm lx ly lz) 1 0
      = lm.sin cx * (lm.cos lz * lm.sin ly - lm.cos ly * lm.sin lx * lm.sin lz)
    + lm.cos cx * lm.sin cz * (lm.cos ly * lm.cos lz + lm.sin lx * lm.sin ly * lm.sin lz)
    + lm.cos lx * lm.cos cx * lm.cos cz * lm.sin lz := by
    simp [eulerMatrix_apply, Matrix.mul_apply, Fin.sum_univ_three]; ring
  have e11 : (eulerMatrix lm cx cy cz * eulerMatrix lm lx ly lz) 1 1
      = lm.cos lx * lm.cos lz * lm.cos cx * lm.cos cz
    - lm.cos cx * lm.sin cz * (lm.cos ly * lm.sin lz - lm.cos lz * lm.sin lx * lm.sin ly)
    - lm.sin cx * (lm.sin ly * lm.sin lz + lm.cos ly * lm.cos lz * lm.sin lx) := by
    simp [eulerMatrix_apply, Matrix.mul_apply, Fin.sum_univ_three]; ring
  rw [e12, e02, e22, e10, e11]
  rfl


theorem eulerMatrix_transpose {α : Type} [LinearOrderedField α] (lm : Libm α) (x y z : α) :
    (eulerMatrix lm x y z).transpose =
      !![lm.cos y * lm.cos z + lm.sin y * lm.sin x * lm.sin z, lm.cos x * lm.sin z,
         -(lm.sin y * lm.cos z) + lm.cos y * lm.sin x * lm.sin z;
         -(lm.cos y * lm.sin z) + lm.sin y * lm.sin x * lm.cos z, lm.cos x * lm.cos z,
         lm.sin y * lm.sin z + lm.cos y * lm.sin x * lm.cos z;
         lm.sin y * lm.cos x, -lm.sin x, lm.cos y * lm.cos x] := by
  rw [eulerMatrix_apply]
  ext i j
  fin_cases i <;> fin_cases j <;> simp

theorem eulerExtract_congr {α : Type} [LinearOrderedField α] (lm : Libm α)
    {a b c d e a1 b1 c1 d1 e1 : α} (ha : a = a1) (hb : b = b1) (hc : c = c1) (hd : d = d1)
    (he : e = e1) : eulerExtract lm a b c d e = eulerExtract lm a1 b1 c1 d1 e1 := by
  rw [ha, hb, hc, hd, he]

theorem pluginIMURotation_eq_extract {α : Type} [LinearOrderedField α] (lm : Libm α)
    (bcx bcy bcz blx bly blz alx aly alz : α) :
    pluginIMURotation lm bcx bcy bcz blx bly blz alx aly alz =
      eulerExtract lm
        ((eulerMatrix lm bcx bcy bcz * (eulerMatrix lm blx bly blz).transpose
          * eulerMatrix lm alx aly alz) 1 2)
        ((eulerMatrix lm bcx bcy bcz * (eulerMatrix lm blx bly blz).transpose
          * eulerMatrix lm alx aly alz) 0 2)
        ((eulerMatrix lm bcx bcy bcz * (eulerMatrix lm blx bly blz).transpose
          * eulerMatrix lm alx aly alz) 2 2)
        ((eulerMatrix lm bcx bcy bcz * (eulerMatrix lm blx bly blz).transpose
          * eulerMatrix lm alx aly alz) 1 0)
        ((eulerMatrix lm bcx bcy bcz * (eulerMatrix lm blx bly blz).transpose
          * eulerMatrix lm alx aly alz) 1 1) := by
  show eulerExtract lm _ _ _ _ _ = _
  refine eulerExtract_congr lm ?_ ?_ ?_ ?_ ?_ <;>
  · rw [eulerMatrix_transpose]
    simp [eulerMatrix_apply, Matrix.mul_apply, Fin.sum_univ_three]
    ring


theorem rotMatX_orthogonal (x : ℝ) :
    rotMatX realLibm x * (rotMatX realLibm x).transpose = 1 := by
  have h := Real.sin_sq_add_cos_sq x
  ext i j
  simp only [Matrix.mul_apply, Matrix.transpose_apply, Fin.sum_univ_three]
  fin_cases i <;> fin_cases j <;> simp [rotMatX, realLibm, Matrix.vecHead, Matrix.vecTail] <;> nlinarith [h]

theorem rotMatY_orthogonal (x : ℝ) :
    rotMatY realLibm x * (rotMatY realLibm x).transpose = 1 := by
  have h := Real.sin_sq_add_cos_sq x
  ext i j
  simp only [Matrix.mul_apply, Matrix.transpose_apply, Fin.sum_univ_three]
  fin_cases i <;> fin_cases j <;> simp [rotMatY, realLibm, Matrix.vecHead, Matrix.vecTail] <;> nlinarith [h]

theorem rotMatZ_orthogonal (x : ℝ) :
    rotMatZ realLibm x * (rotMatZ realLibm x).transpose = 1 := by
  have h := Real.sin_sq_add_cos_sq x
  ext i j
  simp only [Matrix.mul_apply, Matrix.transpose_apply, Fin.sum_univ_three]
  fin_cases i <;> fin_cases j <;> simp [rotMatZ, realLibm, Matrix.vecHead, Matrix.vecTail] <;> nlinarith [h]

theorem rotMatX_det (x : ℝ) : (rotMatX realLibm x).det = 1 := by
  have h := Real.sin_sq_add_cos_sq x
  simp [rotMatX, realLibm, Matrix.det_fin_three]
  nlinarith [h]

theorem rotMatY_det (x : ℝ) : (rotMatY realLibm x).det = 1 := by
  have h := Real.sin_sq_add_cos_sq x
  simp [rotMatY, realLibm, Matrix.det_fin_three]
  nlinarith [h]

theorem rotMatZ_det (x : ℝ) : (rotMatZ realLibm x).det = 1 := by
  have h := Real.sin_sq_add_cos_sq x
  simp [rotMatZ, realLibm, Matrix.det_fin_three]
  nlinarith [h]

theorem eulerMatrix_orthogonal (x y z : ℝ) :
    eulerMatrix realLibm x y z * (eulerMatrix realLibm x y z).transpose = 1 := by
  unfold eulerMatrix
  rw [Matrix.transpose_mul, Matrix.transpose_mul]
  calc rotMatY realLibm y * rotMatX realLibm x * rotMatZ realLibm z *
        ((rotMatZ realLibm z).transpose * ((rotMatX realLibm x).transpose * (rotMatY realLibm y).transpose))
      = rotMatY realLibm y * (rotMatX realLibm x * (rotMatZ realLibm z * (rotMatZ realLibm z).transpose)
          * (rotMatX realLibm x).transpose) * (rotMatY realLibm y).transpose := by
        simp only [Matrix.mul_assoc]
    _ = 1 := by
        rw [rotMatZ_orthogonal, Matrix.mul_one, rotMatX_orthogonal, Matrix.mul_one, rotMatY_orthogonal]

theorem eulerMatrix_det (x y z : ℝ) : (eulerMatrix realLibm x y z).det = 1 := by
  unfold eulerMatrix
  rw [Matrix.det_mul, Matrix.det_mul, rotMatX_det, rotMatY_det, rotMatZ_det]
  norm_num

theorem sin_atan2 {u v : ℝ} (h : u ^ 2 + v ^ 2 = 1) : Real.sin (realLibm.atan2 u v) = u := by
  have habs : Complex.abs ⟨v, u⟩ = 1 := by
    rw [Complex.abs_apply, Complex.normSq_mk, ← Real.sqrt_one]
    congr 1
    nlinarith [h]
  simp only [realLibm]
  rw [Complex.sin_arg, habs, div_one]

theorem cos_atan2 {u v : ℝ} (h : u ^ 2 + v ^ 2 = 1) : Real.cos (realLibm.atan2 u v) = v := by
  have habs : Complex.abs ⟨v, u⟩ = 1 := by
    rw [Complex.abs_apply, Complex.normSq_mk, ← Real.sqrt_one]
    congr 1
    nlinarith [h]
  have hne : (⟨v, u⟩ : ℂ) ≠ 0 := by
    intro h0
    rw [h0] at habs
    simp at habs
  simp only [realLibm]
  rw [Complex.cos_arg hne, habs, div_one]

theorem congr_of_cos_sin {a b : ℝ} (hc : Real.cos a = Real.cos b) (hs : Real.sin a = Real.sin b) :
    ∃ k : ℤ, a = b + k * (2 * π) := by
  have h := Real.Angle.cos_sin_inj hc hs
  rw [Real.Angle.angle_eq_iff_two_pi_dvd_sub] at h
  obtain ⟨k, hk⟩ := h
  exact ⟨k, by linarith⟩

/-- The sines and cosines of the angles produced by the Euler extraction. -/
theorem eulerExtract_sin_cos {m12 m02 m22 m10 m11 : ℝ} (h12 : |m12| < 1)
    (hcol : m02 ^ 2 + m12 ^ 2 + m22 ^ 2 = 1) (hrow : m10 ^ 2 + m11 ^ 2 + m12 ^ 2 = 1) :
    0 < Real.cos (eulerExtract realLibm m12 m02 m22 m10 m11).1 ∧
    Real.cos (eulerExtract realLibm m12 m02 m22 m10 m11).1 ^ 2 = 1 - m12 ^ 2 ∧
    Real.sin (eulerExtract realLibm m12 m02 m22 m10 m11).1 = -m12 ∧
    Real.sin (eulerExtract realLibm m12 m02 m22 m10 m11).2.1
      = m02 / Real.cos (eulerExtract realLibm m12 m02 m22 m10 m11).1 ∧
    Real.cos (eulerExtract realLibm m12 m02 m22 m10 m11).2.1
      = m22 / Real.cos (eulerExtract realLibm m12 m02 m22 m10 m11).1 ∧
    Real.sin (eulerExtract realLibm m12 m02 m22 m10 m11).2.2
      = m10 / Real.cos (eulerExtract realLibm m12 m02 m22 m10 m11).1 ∧
    Real.cos (eulerExtract realLibm m12 m02 m22 m10 m11).2.2
      = m11 / Real.cos (eulerExtract realLibm m12 m02 m22 m10 m11).1 := by
  obtain ⟨hlo, hhi⟩ := abs_lt.mp h12
  have hsq : m12 ^ 2 < 1 := by nlinarith
  have hpos : 0 < 1 - m12 ^ 2 := by linarith
  have hc : Real.cos (eulerExtract realLibm m12 m02 m22 m10 m11).1 = √(1 - m12 ^ 2) := by
    simp only [eulerExtract, realLibm, Real.cos_neg, Real.cos_arcsin]
  have hcpos : 0 < Real.cos (eulerExtract realLibm m12 m02 m22 m10 m11).1 := by
    rw [hc]; exact Real.sqrt_pos.mpr hpos
  have hc2 : Real.cos (eulerExtract realLibm m12 m02 m22 m10 m11).1 ^ 2 = 1 - m12 ^ 2 := by
    rw [hc]; exact Real.sq_sqrt hpos.le
  have hs : Real.sin (eulerExtract realLibm m12 m02 m22 m10 m11).1 = -m12 := by
    simp only [eulerExtract, realLibm, Real.sin_neg, Real.sin_arcsin hlo.le hhi.le]
  have hy : (m02 / Real.cos (eulerExtract realLibm m12 m02 m22 m10 m11).1) ^ 2
      + (m22 / Real.cos (eulerExtract realLibm m12 m02 m22 m10 m11).1) ^ 2 = 1 := by
    rw [div_pow, div_pow, ← add_div, hc2, div_eq_one_iff_eq hpos.ne']
    linarith
  have hz : (m10 / Real.cos (eulerExtract realLibm m12 m02 m22 m10 m11).1) ^ 2
      + (m11 / Real.cos (eulerExtract realLibm m12 m02 m22 m10 m11).1) ^ 2 = 1 := by
    rw [div_pow, div_pow, ← add_div, hc2, div_eq_one_iff_eq hpos.ne']
    linarith
  exact ⟨hcpos, hc2, hs, sin_atan2 hy, cos_atan2 hy, sin_atan2 hz, cos_atan2 hz⟩

theorem realLibm_sin (x : ℝ) : realLibm.sin x = Real.sin x := rfl
theorem realLibm_cos (x : ℝ) : realLibm.cos x = Real.cos x := rfl

theorem eulerMatrix_eulerExtract (M : Matrix (Fin 3) (Fin 3) ℝ) (hM : M * M.transpose = 1)
    (hdet : M.det = 1) (h12 : |M 1 2| < 1) :
    eulerMatrix realLibm (eulerExtract realLibm (M 1 2) (M 0 2) (M 2 2) (M 1 0) (M 1 1)).1
      (eulerExtract realLibm (M 1 2) (M 0 2) (M 2 2) (M 1 0) (M 1 1)).2.1
      (eulerExtract realLibm (M 1 2) (M 0 2) (M 2 2) (M 1 0) (M 1 1)).2.2 = M := by
  have hM1 : M.transpose * M = 1 := Matrix.mul_eq_one_comm.mp hM
  have hadj : M.adjugate = M.transpose := by
    have h1 : M * M.adjugate = 1 := by rw [Matrix.mul_adjugate, hdet, one_smul]
    calc M.adjugate = (M.transpose * M) * M.adjugate := by rw [hM1, Matrix.one_mul]
      _ = M.transpose * (M * M.adjugate) := Matrix.mul_assoc _ _ _
      _ = M.transpose := by rw [h1, Matrix.mul_one]
  have hrow : M 1 0 ^ 2 + M 1 1 ^ 2 + M 1 2 ^ 2 = 1 := by
    have := congrFun (congrFun hM 1) 1
    simp only [Matrix.mul_apply, Fin.sum_univ_three, Matrix.transpose_apply, Matrix.one_apply_eq] at this
    nlinarith [this]
  have hcol : M 0 2 ^ 2 + M 1 2 ^ 2 + M 2 2 ^ 2 = 1 := by
    have := congrFun (congrFun hM1 2) 2
    simp only [Matrix.mul_apply, Fin.sum_univ_three, Matrix.transpose_apply, Matrix.one_apply_eq] at this
    nlinarith [this]
  have cof := Matrix.adjugate_fin_three M
  rw [hadj] at cof
  have c00 := congrFun (congrFun cof 0) 0
  have c01 := congrFun (congrFun cof 0) 1
  have c02 := congrFun (congrFun cof 0) 2
  have c10 := congrFun (congrFun cof 1) 0
  have c12 := congrFun (congrFun cof 1) 2
  simp [Matrix.transpose_apply] at c00 c01 c02 c10 c12
  obtain ⟨hcpos, hc2, hsx, hsy, hcy, hsz, hcz⟩ := eulerExtract_sin_cos h12 hcol hrow
  rw [eulerMatrix_apply]
  simp only [realLibm_sin, realLibm_cos, hsx, hsy, hcy, hsz, hcz]
  generalize Real.cos (eulerExtract realLibm (M 1 2) (M 0 2) (M 2 2) (M 1 0) (M 1 1)).1 = c
    at hcpos hc2
  have hc0 : c ≠ 0 := hcpos.ne'
  ext i j
  fin_cases i <;> fin_cases j <;> simp <;> field_simp
  · linear_combination (-1) * c00 + M 1 2 * c12 - M 0 0 * hc2
  · linear_combination (c * c) * ((-1) * c10 - M 1 2 * c02 - M 0 1 * hc2)
  · linear_combination (c * c) * ((-1) * c02 - M 1 2 * c10 - M 2 0 * hc2)
  · linear_combination (-1) * c12 + M 1 2 * c00 - M 2 1 * hc2

/-- The Euler extraction applied to the entries of the rotation matrix of a triple whose
first angle has positive cosine gives the triple back, modulo 2π. -/
theorem eulerExtract_eulerMatrix (x y z : ℝ) (hx : 0 < Real.cos x) :
    (∃ k : ℤ, (eulerExtract realLibm ((eulerMatrix realLibm x y z) 1 2)
        ((eulerMatrix realLibm x y z) 0 2) ((eulerMatrix realLibm x y z) 2 2)
        ((eulerMatrix realLibm x y z) 1 0) ((eulerMatrix realLibm x y z) 1 1)).1
          = x + k * (2 * π)) ∧
    (∃ k : ℤ, (eulerExtract realLibm ((eulerMatrix realLibm x y z) 1 2)
        ((eulerMatrix realLibm x y z) 0 2) ((eulerMatrix realLibm x y z) 2 2)
        ((eulerMatrix realLibm x y z) 1 0) ((eulerMatrix realLibm x y z) 1 1)).2.1
          = y + k * (2 * π)) ∧
    (∃ k : ℤ, (eulerExtract realLibm ((eulerMatrix realLibm x y z) 1 2)
        ((eulerMatrix realLibm x y z) 0 2) ((eulerMatrix realLibm x y z) 2 2)
        ((eulerMatrix realLibm x y z) 1 0) ((eulerMatrix realLibm x y z) 1 1)).2.2
          = z + k * (2 * π)) := by
  have e12 : (eulerMatrix realLibm x y z) 1 2 = -Real.sin x := by
    simp [eulerMatrix_apply, realLibm_sin]
  have e02 : (eulerMatrix realLibm x y z) 0 2 = Real.sin y * Real.cos x := by
    simp [eulerMatrix_apply, realLibm_sin, realLibm_cos]
  have e22 : (eulerMatrix realLibm x y z) 2 2 = Real.cos y * Real.cos x := by
    simp [eulerMatrix_apply, realLibm_sin, realLibm_cos]
  have e10 : (eulerMatrix realLibm x y z) 1 0 = Real.cos x * Real.sin z := by
    simp [eulerMatrix_apply, realLibm_sin, realLibm_cos]
  have e11 : (eulerMatrix realLibm x y z) 1 1 = Real.cos x * Real.cos z := by
    simp [eulerMatrix_apply, realLibm_sin, realLibm_cos]
  rw [e12, e02, e22, e10, e11]
  have hsx := Real.sin_sq_add_cos_sq x
  have hsy := Real.sin_sq_add_cos_sq y
  have hsz := Real.sin_sq_add_cos_sq z
  have h12 : |(-Real.sin x)| < 1 := by
    rw [abs_neg, abs_lt]
    constructor <;> nlinarith
  obtain ⟨hcpos, hc2, h1, h2, h3, h4, h5⟩ := @eulerExtract_sin_cos (-Real.sin x)
    (Real.sin y * Real.cos x) (Real.cos y * Real.cos x)
    (Real.cos x * Real.sin z) (Real.cos x * Real.cos z) h12
    (by nlinarith) (by nlinarith)
  have hc : Real.cos (eulerExtract realLibm (-Real.sin x) (Real.sin y * Real.cos x)
      (Real.cos y * Real.cos x) (Real.cos x * Real.sin z) (Real.cos x * Real.cos z)).1
        = Real.cos x := by
    apply (sq_eq_sq₀ hcpos.le hx.le).mp
    rw [hc2]
    linear_combination -hsx
  rw [hc] at h2 h3 h4 h5
  refine ⟨congr_of_cos_sin hc (by rw [h1, neg_neg]), congr_of_cos_sin ?_ ?_, congr_of_cos_sin ?_ ?_⟩
  · rw [h3]; field_simp
  · rw [h2]; field_simp
  · rw [h5]; field_simp
  · rw [h4]; field_simp

theorem eulerMatrix_zero : eulerMatrix realLibm 0 0 0 = 1 := by
  rw [eulerMatrix_apply, Matrix.one_fin_three]
  simp [realLibm]

theorem accumulateRotation_entry (cx cy cz lx ly lz : ℝ) :
    (eulerMatrix realLibm cx cy cz * eulerMatrix realLibm lx ly lz) 1 2
      = accumulateRotationSrx realLibm cx cz lx ly := by
  simp [eulerMatrix_apply, Matrix.mul_apply, Fin.sum_univ_three, accumulateRotationSrx]
  ring

theorem mul_orthogonal {A B : Matrix (Fin 3) (Fin 3) ℝ} (hA : A * A.transpose = 1)
    (hB : B * B.transpose = 1) : (A * B) * (A * B).transpose = 1 := by
  rw [Matrix.transpose_mul]
  calc A * B * (B.transpose * A.transpose) = A * (B * B.transpose) * A.transpose := by
        simp only [Matrix.mul_assoc]
    _ = 1 := by rw [hB, Matrix.mul_one, hA]

end RotationLemmas

/-! ## Correspondence search: auxiliary lemmas -/

section SearchLemmas

variable {α : Type} [LinearOrderedField α] [FloorRing α]

omit [FloorRing α] in
theorem ring_le_of_not_gt {r scan : ℤ} (h : ¬ ((r : α) > (scan : α) + 5 / 2)) :
    r ≤ scan + 2 := by
  have h1 : (r : α) < ((scan + 3 : ℤ) : α) := by
    push_cast
    have : (r : α) ≤ (scan : α) + 5 / 2 := not_lt.mp h
    linarith
  have := Int.cast_lt.mp h1
  omega

omit [FloorRing α] in
theorem ring_ge_of_not_lt {r scan : ℤ} (h : ¬ ((r : α) < (scan : α) - 5 / 2)) :
    scan - 2 ≤ r := by
  have h1 : ((scan - 3 : ℤ) : α) < (r : α) := by
    push_cast
    have : (scan : α) - 5 / 2 ≤ (r : α) := not_lt.mp h
    linarith
  have := Int.cast_lt.mp h1
  omega

theorem edgeForwardScan_ok (cloud : PointCloud α) (pointSel : PointXYZI α) (scan : ℤ)
    (n a : ℕ) :
    ∀ (fuel j : ℕ) (best r : α × ℤ), a < j → best.1 ≤ 25 →
      EdgeBestOK cloud pointSel scan a best →
      edgeForwardScan cloud pointSel scan n fuel j best = some r →
      r.1 ≤ 25 ∧ EdgeBestOK cloud pointSel scan a r := by
  intro fuel
  induction fuel with
  | zero =>
    intro j best r _ hle hok h
    simp only [edgeForwardScan, Option.some.injEq] at h
    subst h
    exact ⟨hle, hok⟩
  | succ fuel ih =>
    intro j best r haj hle hok h
    simp only [edgeForwardScan] at h
    split at h
    · split at h
      · exact absurd h (by simp)
      · rename_i pj hpj
        split at h
        · simp only [Option.some.injEq] at h
          subst h
          exact ⟨hle, hok⟩
        · rename_i hwin
          split at h
          · rename_i hsel
            refine ih (j + 1) _ r (by omega) (hsel.2.le.trans hle) ?_ h
            intro _
            refine ⟨pj, by simpa using hpj, ne_of_gt hsel.1, ?_, ?_, rfl, lt_of_lt_of_le hsel.2 hle⟩
            · have := ring_le_of_not_gt hwin
              rw [abs_le]; constructor <;> omega
            · simp only [ne_eq, Nat.cast_inj]; omega
          · exact ih (j + 1) best r (by omega) hle hok h
    · simp only [Option.some.injEq] at h
      subst h
      exact ⟨hle, hok⟩

theorem edgeBackwardScan_ok (cloud : PointCloud α) (pointSel : PointXYZI α) (scan : ℤ)
    (a : ℕ) :
    ∀ (k : ℕ) (best r : α × ℤ), k ≤ a → best.1 ≤ 25 →
      EdgeBestOK cloud pointSel scan a best →
      edgeBackwardScan cloud pointSel scan k best = some r →
      r.1 ≤ 25 ∧ EdgeBestOK cloud pointSel scan a r := by
  intro k
  induction k with
  | zero =>
    intro best r _ hle hok h
    simp only [edgeBackwardScan, Option.some.injEq] at h
    subst h
    exact ⟨hle, hok⟩
  | succ j ih =>
    intro best r hka hle hok h
    simp only [edgeBackwardScan] at h
    split at h
    · exact absurd h (by simp)
    · rename_i pj hpj
      split at h
      · simp only [Option.some.injEq] at h
        subst h
        exact ⟨hle, hok⟩
      · rename_i hwin
        split at h
        · rename_i hsel
          refine ih _ r (by omega) (hsel.2.le.trans hle) ?_ h
          intro _
          refine ⟨pj, by simpa using hpj, ne_of_lt hsel.1, ?_, ?_, rfl, lt_of_lt_of_le hsel.2 hle⟩
          · have := ring_ge_of_not_lt hwin
            rw [abs_le]; constructor <;> omega
          · simp only [ne_eq, Nat.cast_inj]; omega
        · exact ih best r (by omega) hle hok h

end SearchLemmas

/-! ## Selection and solver loop: auxiliary lemmas -/

section RunLemmas

variable {α : Type} [LinearOrderedField α] [FloorRing α]

/-- What the body of the edge loop does to the state. -/
theorem edgeStep_spec (lm : Libm α) (ext : External α) (k : ℕ) (st st' : BasicLaserOdometry α)
    (i : ℕ) (h : edgeStep lm ext k st i = some st') :
    ∃ pi ind1 ind2, st.cornerPointsSharp[i]? = some pi ∧ st'.frame = st.frame ∧
      st'.pointSearchCornerInd1[i]? = some ind1 ∧
      st'.pointSearchCornerInd2[i]? = some ind2 ∧
      (ind2 < 0 → st'.laserCloudOri = st.laserCloudOri ∧ st'.coeffSel = st.coeffSel) ∧
      (0 ≤ ind2 → 0 ≤ ind1 ∧ ∃ A B, st.lastCornerCloud[ind1.toNat]? = some A ∧
        st.lastCornerCloud[ind2.toNat]? = some B ∧
        (selected (edgeWeight k (edgeResidual lm (transformToStart lm st pi) A B).2.2.2)
            (edgeResidual lm (transformToStart lm st pi) A B).2.2.2 →
          st'.laserCloudOri = st.laserCloudOri ++ [pi] ∧
          st'.coeffSel = st.coeffSel ++
            [weightedCoeff (edgeWeight k (edgeResidual lm (transformToStart lm st pi) A B).2.2.2)
              (edgeResidual lm (transformToStart lm st pi) A B).1
              (edgeResidual lm (transformToStart lm st pi) A B).2.1
              (edgeResidual lm (transformToStart lm st pi) A B).2.2.1
              (edgeResidual lm (transformToStart lm st pi) A B).2.2.2]) ∧
        (¬ selected (edgeWeight k (edgeResidual lm (transformToStart lm st pi) A B).2.2.2)
            (edgeResidual lm (transformToStart lm st pi) A B).2.2.2 →
          st'.laserCloudOri = st.laserCloudOri ∧ st'.coeffSel = st.coeffSel)) := by
  unfold edgeStep at h
  split at h
  · exact absurd h (by simp)
  · rename_i pi hpi
    simp only [Option.bind_eq_some] at h
    obtain ⟨st1, hs, h⟩ := h
    have hst1 : st1.frame = st.frame ∧ st1.laserCloudOri = st.laserCloudOri ∧
        st1.coeffSel = st.coeffSel ∧ st1.lastCornerCloud = st.lastCornerCloud := by
      split at hs
      · simp only [Option.map_eq_some'] at hs
        obtain ⟨r, -, hr⟩ := hs
        subst hr
        exact ⟨rfl, rfl, rfl, rfl⟩
      · simp only [Option.some.injEq] at hs
        subst hs
        exact ⟨rfl, rfl, rfl, rfl⟩
    obtain ⟨hf, hori, hco, hlc⟩ := hst1
    split at h
    · rename_i ind1 ind2 h1 h2
      split at h
      · rename_i hge
        split at h
        · exact absurd h (by simp)
        · rename_i hnn
          split at h
          · rename_i tripod1 tripod2 ht1 ht2
            rw [hlc] at ht1 ht2
            split at h
            · rename_i hsel
              simp only [Option.some.injEq] at h
              subst h
              refine ⟨pi, ind1, ind2, hpi, hf, h1, h2, fun hlt => absurd hge (not_le.mpr hlt),
                fun _ => ⟨not_lt.mp hnn, tripod1, tripod2, ht1, ht2, ?_, ?_⟩⟩
              · intro _
                exact ⟨by rw [← hori], by rw [← hco]⟩
              · intro hns
                exact absurd hsel hns
            · rename_i hsel
              simp only [Option.some.injEq] at h
              subst h
              refine ⟨pi, ind1, ind2, hpi, hf, h1, h2, fun hlt => absurd hge (not_le.mpr hlt),
                fun _ => ⟨not_lt.mp hnn, tripod1, tripod2, ht1, ht2, ?_, ?_⟩⟩
              · intro hs'
                exact absurd hs' hsel
              · intro _
                exact ⟨hori, hco⟩
          · exact absurd h (by simp)
      · rename_i hge
        simp only [Option.some.injEq] at h
        subst h
        exact ⟨pi, ind1, ind2, hpi, hf, h1, h2, fun _ => ⟨hori, hco⟩,
          fun h0 => absurd h0 hge⟩
    · exact absurd h (by simp)

omit [FloorRing α] in
theorem selected_edgeWeight_iff (k : ℕ) (d : α) :
    selected (edgeWeight k d) d ↔ d ≠ 0 ∧ (k < 5 ∨ |d| < 18874368 / 37748735) := by
  unfold selected edgeWeight weightFactor
  by_cases hk : k ≥ 5
  · simp only [hk, if_true, gt_iff_lt, not_lt.mpr hk, false_or]
    constructor
    · rintro ⟨h1, h2⟩
      exact ⟨h2, by linarith⟩
    · rintro ⟨h1, h2⟩
      exact ⟨by linarith, h1⟩
  · simp only [hk, if_false, not_le.mp hk, true_or, and_true]
    constructor
    · rintro ⟨-, h2⟩
      exact h2
    · intro h2
      exact ⟨by norm_num, h2⟩

theorem edgeStep_frame (lm : Libm α) (ext : External α) (k : ℕ) (st st' : BasicLaserOdometry α)
    (i : ℕ) (h : edgeStep lm ext k st i = some st') : st'.frame = st.frame := by
  unfold edgeStep at h
  split at h
  · exact absurd h (by simp)
  · simp only [Option.bind_eq_some] at h
    obtain ⟨st1, hs, h⟩ := h
    have hf : st1.frame = st.frame := by
      split at hs
      · simp only [Option.map_eq_some'] at hs
        obtain ⟨r, -, hr⟩ := hs
        subst hr
        rfl
      · simp only [Option.some.injEq] at hs
        subst hs
        rfl
    rw [← hf]
    split at h
    · split at h
      · split at h
        · exact absurd h (by simp)
        · split at h
          · split at h <;> simp only [Option.some.injEq] at h <;> subst h <;> rfl
          · exact absurd h (by simp)
      · simp only [Option.some.injEq] at h
        subst h
        rfl
    · exact absurd h (by simp)

theorem surfStep_frame (lm : Libm α) (ext : External α) (k : ℕ) (st st' : BasicLaserOdometry α)
    (i : ℕ) (h : surfStep lm ext k st i = some st') : st'.frame = st.frame := by
  unfold surfStep at h
  split at h
  · exact absurd h (by simp)
  · simp only [Option.bind_eq_some] at h
    obtain ⟨st1, hs, h⟩ := h
    have hf : st1.frame = st.frame := by
      split at hs
      · simp only [Option.map_eq_some'] at hs
        obtain ⟨r, -, hr⟩ := hs
        subst hr
        rfl
      · simp only [Option.some.injEq] at hs
        subst hs
        rfl
    rw [← hf]
    split at h
    · split at h
      · split at h
        · exact absurd h (by simp)
        · split at h
          · split at h <;> simp only [Option.some.injEq] at h <;> subst h <;> rfl
          · exact absurd h (by simp)
      · simp only [Option.some.injEq] at h
        subst h
        rfl
    · exact absurd h (by simp)

omit [LinearOrderedField α] [FloorRing α] in
theorem foldlM_frame (f : BasicLaserOdometry α → ℕ → Option (BasicLaserOdometry α))
    (hf : ∀ st st' i, f st i = some st' → st'.frame = st.frame) :
    ∀ (l : List ℕ) (st st' : BasicLaserOdometry α), l.foldlM f st = some st' →
      st'.frame = st.frame := by
  intro l
  induction l with
  | nil =>
    intro st st' h
    simp only [List.foldlM, pure, Option.some.injEq] at h
    rw [h]
  | cons i l ih =>
    intro st st' h
    simp only [List.foldlM, bind, Option.bind_eq_some] at h
    obtain ⟨st1, h1, h2⟩ := h
    rw [ih st1 st' h2, hf st st1 i h1]

theorem assemble_frame (lm : Libm α) (ext : External α) (k : ℕ) (st st' : BasicLaserOdometry α)
    (h : assemble lm ext k st = some st') : st'.frame = st.frame := by
  unfold assemble at h
  simp only [Option.bind_eq_some] at h
  obtain ⟨st1, h1, h2⟩ := h
  have e1 := foldlM_frame (edgeStep lm ext k) (fun a b i => edgeStep_frame lm ext k a b i) _ _ _ h1
  have e2 := foldlM_frame (surfStep lm ext k) (fun a b i => surfStep_frame lm ext k a b i) _ _ _ h2
  rw [e2, e1]
  rfl


theorem solverStep_spec (lm : Libm α) (ext : External α) (k : ℕ) (ss ss1 : SolverState α)
    (fl : Flow) (h : solverStep lm ext k ss = some (ss1, fl)) :
    ∃ st1, assemble lm ext k ss.st = some st1 ∧
      (st1.laserCloudOri.length < 10 → ss1 = { ss with st := st1 } ∧ fl = Flow.next) ∧
      (10 ≤ st1.laserCloudOri.length →
        ∃ matX : Fin 6 → α,
          ss1.st = { st1 with
            transform :=
              { rot_x := st1.transform.rot_x + matX 0
                rot_y := st1.transform.rot_y + matX 1
                rot_z := st1.transform.rot_z + matX 2
                pos := ⟨st1.transform.pos.x + matX 3, st1.transform.pos.y + matX 4,
                  st1.transform.pos.z + matX 5⟩ } } ∧
          (fl = Flow.stop ↔
            (lm.sqrt ((rad2deg lm (matX 0)) ^ 2 + (rad2deg lm (matX 1)) ^ 2
                + (rad2deg lm (matX 2)) ^ 2) < st1.deltaRAbort ∧
              lm.sqrt ((matX 3 * 100) ^ 2 + (matX 4 * 100) ^ 2 + (matX 5 * 100) ^ 2)
                < st1.deltaTAbort))) := by
  unfold solverStep at h
  simp only [Option.bind_eq_some] at h
  obtain ⟨st1, ha, h⟩ := h
  refine ⟨st1, ha, ?_, ?_⟩
  · intro hlt
    rw [if_pos hlt] at h
    simp only [Option.some.injEq, Prod.mk.injEq] at h
    exact ⟨h.1.symm, h.2.symm⟩
  · intro hge
    rw [if_neg (by omega)] at h
    rcases ite_eq_iff.mp h with ⟨hd, h⟩ | ⟨hd, h⟩
    · simp only [Option.some.injEq, Prod.mk.injEq] at h
      obtain ⟨h1, h2⟩ := h
      subst h1
      exact ⟨_, rfl, ⟨fun _ => hd, fun _ => h2.symm⟩⟩
    · simp only [Option.some.injEq, Prod.mk.injEq] at h
      obtain ⟨h1, h2⟩ := h
      subst h1
      refine ⟨_, rfl, ⟨fun hs => ?_, fun hc => absurd hc hd⟩⟩
      rw [← h2] at hs
      exact absurd hs (by decide)

/-- When every iteration skips, the solver loop returns and leaves everything but the
selection clouds and the cached indices as it was. -/
theorem solverLoop_of_allSkip (lm : Libm α) (ext : External α) :
    ∀ (fuel k : ℕ) (ss : SolverState α), AllSkip lm ext fuel k ss →
      ∃ ss1, solverLoop lm ext fuel k ss = some ss1 ∧ ss1.st.frame = ss.st.frame := by
  intro fuel
  induction fuel with
  | zero =>
    intro k ss _
    exact ⟨ss, rfl, rfl⟩
  | succ fuel ih =>
    intro k ss h
    obtain ⟨st1, ha, hlen, hrest⟩ := h
    obtain ⟨ss1, h1, h2⟩ := ih (k + 1) _ hrest
    refine ⟨ss1, ?_, ?_⟩
    · have hstep : solverStep lm ext k ss = some ({ ss with st := st1 }, Flow.next) := by
        unfold solverStep
        rw [ha]
        simp only [Option.some_bind, if_pos hlen]
      simp only [solverLoop, hstep]
      exact h1
    · rw [h2]
      exact assemble_frame lm ext k ss.st st1 ha

/-- The solver loop writes the transform, the selection clouds and the cached indices,
and nothing else. -/
theorem solverLoop_frame (lm : Libm α) (ext : External α) :
    ∀ (fuel k : ℕ) (ss ss1 : SolverState α), solverLoop lm ext fuel k ss = some ss1 →
      { ss1.st.frame with transform := ss.st.transform } = ss.st.frame := by
  intro fuel
  induction fuel with
  | zero =>
    intro k ss ss1 h
    simp only [solverLoop, Option.some.injEq] at h
    subst h
    rfl
  | succ fuel ih =>
    intro k ss ss1 h
    have step : ∀ (ss2 : SolverState α) (fl : Flow), solverStep lm ext k ss = some (ss2, fl) →
        { ss2.st.frame with transform := ss.st.transform } = ss.st.frame := by
      intro ss2 fl hs
      obtain ⟨st1, ha, hlt, hge⟩ := solverStep_spec lm ext k ss ss2 fl hs
      have hf := assemble_frame lm ext k ss.st st1 ha
      by_cases hl : st1.laserCloudOri.length < 10
      · rw [(hlt hl).1]
        have ht : ss.st.transform = ss.st.frame.transform := rfl
        rw [ht, ← hf]
      · obtain ⟨matX, hst, -⟩ := hge (by omega)
        rw [hst, ← hf]
        have ht : st1.transform = ss.st.transform := by
          have := congrArg BasicLaserOdometry.transform hf
          exact this
        rw [← ht]
        rfl
    simp only [solverLoop] at h
    split at h
    · exact absurd h (by simp)
    · rename_i ss2 hs
      simp only [Option.some.injEq] at h
      subst h
      exact step _ _ hs
    · rename_i ss2 hs
      have h1 := ih (k + 1) ss2 ss1 h
      have h2 := step _ _ hs
      rw [← h2, ← h1]

theorem optimise_eq (lm : Libm α) (ext : External α) (st : BasicLaserOdometry α) :
    optimise lm ext st =
      if st.lastCornerCloud.length > 10 ∧ st.lastSurfaceCloud.length > 100 then
        (solverLoop lm ext st.maxIterations 0 (solverStart st)).map fun ss => ss.st
      else some st := rfl

theorem process_of_inited (lm : Libm α) (ext : External α) (st : BasicLaserOdometry α)
    (h : st.systemInited = true) :
    process lm ext st = (optimise lm ext (initialGuess st)).map (accumulate lm) := by
  unfold process
  rw [if_neg (by simp [h])]
  rfl


theorem accumulate_transform (lm : Libm α) (st : BasicLaserOdometry α) :
    (accumulate lm st).transform = st.transform := by
  unfold accumulate
  dsimp only
  split <;> rfl

/-- The world pose written by the pose accumulation (lines 676-701). -/
theorem accumulate_transformSum (lm : Libm α) (st : BasicLaserOdometry α) :
    (accumulate lm st).transformSum =
      ⟨(pluginIMURotation lm
          (accumulateRotation lm st.transformSum.rot_x st.transformSum.rot_y
            st.transformSum.rot_z (-st.transform.rot_x) (-st.transform.rot_y * (21 / 20))
            (-st.transform.rot_z)).1
          (accumulateRotation lm st.transformSum.rot_x st.transformSum.rot_y
            st.transformSum.rot_z (-st.transform.rot_x) (-st.transform.rot_y * (21 / 20))
            (-st.transform.rot_z)).2.1
          (accumulateRotation lm st.transformSum.rot_x st.transformSum.rot_y
            st.transformSum.rot_z (-st.transform.rot_x) (-st.transform.rot_y * (21 / 20))
            (-st.transform.rot_z)).2.2
          st.imuPitchStart st.imuYawStart st.imuRollStart
          st.imuPitchEnd st.imuYawEnd st.imuRollEnd).1,
        (pluginIMURotation lm
          (accumulateRotation lm st.transformSum.rot_x st.transformSum.rot_y
            st.transformSum.rot_z (-st.transform.rot_x) (-st.transform.rot_y * (21 / 20))
            (-st.transform.rot_z)).1
          (accumulateRotation lm st.transformSum.rot_x st.transformSum.rot_y
            st.transformSum.rot_z (-st.transform.rot_x) (-st.transform.rot_y * (21 / 20))
            (-st.transform.rot_z)).2.1
          (accumulateRotation lm st.transformSum.rot_x st.transformSum.rot_y
            st.transformSum.rot_z (-st.transform.rot_x) (-st.transform.rot_y * (21 / 20))
            (-st.transform.rot_z)).2.2
          st.imuPitchStart st.imuYawStart st.imuRollStart
          st.imuPitchEnd st.imuYawEnd st.imuRollEnd).2.1,
        (pluginIMURotation lm
          (accumulateRotation lm st.transformSum.rot_x st.transformSum.rot_y
            st.transformSum.rot_z (-st.transform.rot_x) (-st.transform.rot_y * (21 / 20))
            (-st.transform.rot_z)).1
          (accumulateRotation lm st.transformSum.rot_x st.transformSum.rot_y
            st.transformSum.rot_z (-st.transform.rot_x) (-st.transform.rot_y * (21 / 20))
            (-st.transform.rot_z)).2.1
          (accumulateRotation lm st.transformSum.rot_x st.transformSum.rot_y
            st.transformSum.rot_z (-st.transform.rot_x) (-st.transform.rot_y * (21 / 20))
            (-st.transform.rot_z)).2.2
          st.imuPitchStart st.imuYawStart st.imuRollStart
          st.imuPitchEnd st.imuYawEnd st.imuRollEnd).2.2,
        ⟨st.transformSum.pos.x - (rotateZXYv lm
            ⟨st.transform.pos.x - st.imuShiftFromStart.x,
              st.transform.pos.y - st.imuShiftFromStart.y,
              st.transform.pos.z * (21 / 20) - st.imuShiftFromStart.z⟩
            (accumulateRotation lm st.transformSum.rot_x st.transformSum.rot_y
              st.transformSum.rot_z (-st.transform.rot_x) (-st.transform.rot_y * (21 / 20))
              (-st.transform.rot_z)).2.2
            (accumulateRotation lm st.transformSum.rot_x st.transformSum.rot_y
              st.transformSum.rot_z (-st.transform.rot_x) (-st.transform.rot_y * (21 / 20))
              (-st.transform.rot_z)).1
            (accumulateRotation lm st.transformSum.rot_x st.transformSum.rot_y
              st.transformSum.rot_z (-st.transform.rot_x) (-st.transform.rot_y * (21 / 20))
              (-st.transform.rot_z)).2.1).x,
          st.transformSum.pos.y - (rotateZXYv lm
            ⟨st.transform.pos.x - st.imuShiftFromStart.x,
              st.transform.pos.y - st.imuShiftFromStart.y,
              st.transform.pos.z * (21 / 20) - st.imuShiftFromStart.z⟩
            (accumulateRotation lm st.transformSum.rot_x st.transformSum.rot_y
              st.transformSum.rot_z (-st.transform.rot_x) (-st.transform.rot_y * (21 / 20))
              (-st.transform.rot_z)).2.2
            (accumulateRotation lm st.transformSum.rot_x st.transformSum.rot_y
              st.transformSum.rot_z (-st.transform.rot_x) (-st.transform.rot_y * (21 / 20))
              (-st.transform.rot_z)).1
            (accumulateRotation lm st.transformSum.rot_x st.transformSum.rot_y
              st.transformSum.rot_z (-st.transform.rot_x) (-st.transform.rot_y * (21 / 20))
              (-st.transform.rot_z)).2.1).y,
          st.transformSum.pos.z - (rotateZXYv lm
            ⟨st.transform.pos.x - st.imuShiftFromStart.x,
              st.transform.pos.y - st.imuShiftFromStart.y,
              st.transform.pos.z * (21 / 20) - st.imuShiftFromStart.z⟩
            (accumulateRotation lm st.transformSum.rot_x st.transformSum.rot_y
              st.transformSum.rot_z (-st.transform.rot_x) (-st.transform.rot_y * (21 / 20))
              (-st.transform.rot_z)).2.2
            (accumulateRotation lm st.transformSum.rot_x st.transformSum.rot_y
              st.transformSum.rot_z (-st.transform.rot_x) (-st.transform.rot_y * (21 / 20))
              (-st.transform.rot_z)).1
            (accumulateRotation lm st.transformSum.rot_x st.transformSum.rot_y
              st.transformSum.rot_z (-st.transform.rot_x) (-st.transform.rot_y * (21 / 20))
              (-st.transform.rot_z)).2.1).z⟩⟩ := by
  unfold accumulate
  dsimp only
  split <;> rfl

theorem accumulate_transformSum_frame (lm : Libm α) (st1 st2 : BasicLaserOdometry α)
    (h : st1.frame = st2.frame) :
    (accumulate lm st1).transformSum = (accumulate lm st2).transformSum := by
  have e1 : st1.transformSum = st2.transformSum :=
    (congrArg (fun s => BasicLaserOdometry.transformSum s) h : st1.frame.transformSum = st2.frame.transformSum)
  have e2 : st1.transform = st2.transform :=
    (congrArg (fun s => BasicLaserOdometry.transform s) h : st1.frame.transform = st2.frame.transform)
  have e3 : st1.imuPitchStart = st2.imuPitchStart :=
    (congrArg (fun s => BasicLaserOdometry.imuPitchStart s) h : st1.frame.imuPitchStart = st2.frame.imuPitchStart)
  have e4 : st1.imuYawStart = st2.imuYawStart :=
    (congrArg (fun s => BasicLaserOdometry.imuYawStart s) h : st1.frame.imuYawStart = st2.frame.imuYawStart)
  have e5 : st1.imuRollStart = st2.imuRollStart :=
    (congrArg (fun s => BasicLaserOdometry.imuRollStart s) h : st1.frame.imuRollStart = st2.frame.imuRollStart)
  have e6 : st1.imuPitchEnd = st2.imuPitchEnd :=
    (congrArg (fun s => BasicLaserOdometry.imuPitchEnd s) h : st1.frame.imuPitchEnd = st2.frame.imuPitchEnd)
  have e7 : st1.imuYawEnd = st2.imuYawEnd :=
    (congrArg (fun s => BasicLaserOdometry.imuYawEnd s) h : st1.frame.imuYawEnd = st2.frame.imuYawEnd)
  have e8 : st1.imuRollEnd = st2.imuRollEnd :=
    (congrArg (fun s => BasicLaserOdometry.imuRollEnd s) h : st1.frame.imuRollEnd = st2.frame.imuRollEnd)
  have e9 : st1.imuShiftFromStart = st2.imuShiftFromStart :=
    (congrArg (fun s => BasicLaserOdometry.imuShiftFromStart s) h : st1.frame.imuShiftFromStart = st2.frame.imuShiftFromStart)
  rw [accumulate_transformSum, accumulate_transformSum, e1, e2, e3, e4, e5, e6, e7, e8, e9]

omit [FloorRing α] in
theorem solverStart_frame (st : BasicLaserOdometry α) : (solverStart st).st.frame = st.frame :=
  rfl

theorem optimise_frame (lm : Libm α) (ext : External α) (st st1 : BasicLaserOdometry α)
    (h : optimise lm ext st = some st1) :
    { st1.frame with transform := st.transform } = st.frame := by
  rw [optimise_eq] at h
  split at h
  · obtain ⟨ss1, hss, rfl⟩ := Option.map_eq_some'.mp h
    exact solverLoop_frame lm ext _ _ _ _ hss
  · cases h
    rfl

theorem optimise_of_allSkip (lm : Libm α) (ext : External α) (st : BasicLaserOdometry α)
    (h : st.lastCornerCloud.length > 10 ∧ st.lastSurfaceCloud.length > 100 →
      AllSkip lm ext st.maxIterations 0 (solverStart st)) :
    ∃ st1, optimise lm ext st = some st1 ∧ st1.frame = st.frame := by
  rw [optimise_eq]
  split
  · next hg =>
    obtain ⟨ss1, hss, hf⟩ := solverLoop_of_allSkip lm ext _ _ _ (h hg)
    exact ⟨ss1.st, by simp [hss], hf⟩
  · exact ⟨st, rfl, rfl⟩

theorem process_of_allSkip (lm : Libm α) (ext : External α) (st : BasicLaserOdometry α)
    (hinit : st.systemInited = true)
    (h : st.lastCornerCloud.length > 10 ∧ st.lastSurfaceCloud.length > 100 →
      EverySkip lm ext st) :
    ∃ st1, process lm ext st = some (accumulate lm st1) ∧
      st1.frame = (initialGuess st).frame := by
  obtain ⟨st1, h1, hf⟩ := optimise_of_allSkip lm ext (initialGuess st) h
  exact ⟨st1, by rw [process_of_inited lm ext st hinit, h1]; rfl, hf⟩

theorem process_inv (lm : Libm α) (ext : External α) (st st' : BasicLaserOdometry α)
    (hinit : st.systemInited = true) (h : process lm ext st = some st') :
    ∃ st1, st' = accumulate lm st1 ∧
      { st1.frame with transform := (initialGuess st).transform } = (initialGuess st).frame := by
  rw [process_of_inited lm ext st hinit] at h
  obtain ⟨st1, h1, rfl⟩ := Option.map_eq_some'.mp h
  exact ⟨st1, rfl, optimise_frame lm ext _ _ h1⟩

/-- The solver loop over a state without sharp and flat feature points selects nothing. -/
theorem allSkip_of_no_features (lm : Libm α) (ext : External α) :
    ∀ (fuel k : ℕ) (ss : SolverState α), ss.st.cornerPointsSharp = [] →
      ss.st.surfPointsFlat = [] → AllSkip lm ext fuel k ss := by
  intro fuel
  induction fuel with
  | zero => intro k ss _ _; trivial
  | succ n ih =>
    intro k ss hc hs
    refine ⟨{ ss.st with laserCloudOri := [], coeffSel := [] }, ?_, by simp, ?_⟩
    · simp [assemble, hc, hs]
    · exact ih _ _ hc hs

theorem atan2_zero_one : realLibm.atan2 0 1 = 0 := by
  show Complex.arg ⟨1, 0⟩ = 0
  have h : (⟨1, 0⟩ : ℂ) = 1 := rfl
  rw [h, Complex.arg_one]

theorem accumulateRotation_origin : accumulateRotation realLibm 0 0 0 0 0 0 = (0, 0, 0) := by
  have h := atan2_zero_one
  simp [accumulateRotation, accumulateRotationSrx, realLibm] at h ⊢
  exact h

theorem rotateZXYv_zero (v : Vector3 ℝ) : rotateZXYv realLibm v 0 0 0 = v := by
  simp [rotateZXYv, rotateZXY_zero, Vector3.toPoint, PointXYZI.toVector3]

theorem accumulate_lastCornerCloud_length (lm : Libm α) (st : BasicLaserOdometry α) :
    (accumulate lm st).lastCornerCloud.length = st.cornerPointsLessSharp.length := by
  unfold accumulate
  dsimp only
  split <;> simp [transformToEnd]

theorem accumulate_lastSurfaceCloud_length (lm : Libm α) (st : BasicLaserOdometry α) :
    (accumulate lm st).lastSurfaceCloud.length = st.surfPointsLessFlat.length := by
  unfold accumulate
  dsimp only
  split <;> simp [transformToEnd]

theorem accumulate_kdtree_rebuilt (lm : Libm α) (st : BasicLaserOdometry α)
    (h : st.cornerPointsLessSharp.length > 10 ∧ st.surfPointsLessFlat.length > 100) :
    (accumulate lm st).lastCornerKDTree = (accumulate lm st).lastCornerCloud ∧
      (accumulate lm st).lastSurfaceKDTree = (accumulate lm st).lastSurfaceCloud := by
  unfold accumulate
  dsimp only
  rw [if_pos (by simpa [transformToEnd] using h)]
  exact ⟨rfl, rfl⟩

theorem accumulate_kdtree_kept (lm : Libm α) (st : BasicLaserOdometry α)
    (h : ¬ (st.cornerPointsLessSharp.length > 10 ∧ st.surfPointsLessFlat.length > 100)) :
    (accumulate lm st).lastCornerKDTree = st.lastCornerKDTree ∧
      (accumulate lm st).lastSurfaceKDTree = st.lastSurfaceKDTree := by
  unfold accumulate
  dsimp only
  rw [if_neg (by simpa [transformToEnd] using h)]
  exact ⟨rfl, rfl⟩

theorem everySkip_stalledExample {β : Type} [LinearOrderedField β] [FloorRing β]
    (lm : Libm β) (ext : External β) : EverySkip lm ext (stalledExample β) :=
  allSkip_of_no_features lm ext _ _ _ rfl rfl

theorem process_stalledExample (ext : External ℝ) :
    ∃ st', process realLibm ext (stalledExample ℝ) = some st' ∧
      st'.transform = ⟨0, 0, 0, ⟨9 / 10, 0, 0⟩⟩ ∧
      st'.transformSum.pos = ⟨-9 / 10, 0, 1⟩ := by
  obtain ⟨st1, h1, hf⟩ := process_of_allSkip realLibm ext (stalledExample ℝ) rfl
    (fun _ => everySkip_stalledExample realLibm ext)
  refine ⟨_, h1, ?_, ?_⟩
  · rw [accumulate_transform]
    have e : st1.frame.transform = (initialGuess (stalledExample ℝ)).frame.transform := by
      rw [hf]
    have e2 : st1.transform = (initialGuess (stalledExample ℝ)).transform := e
    rw [e2]
    simp [initialGuess, stalledExample, BasicLaserOdometry.new]
    norm_num
  · rw [accumulate_transformSum_frame realLibm st1 (initialGuess (stalledExample ℝ)) hf,
      accumulate_transformSum]
    simp [initialGuess, stalledExample, BasicLaserOdometry.new, Twist.zero,
      accumulateRotation_origin, rotateZXYv_zero]
    norm_num

theorem solverStep_frame (lm : Libm α) (ext : External α) (k : ℕ) (ss ss2 : SolverState α)
    (fl : Flow) (hs : solverStep lm ext k ss = some (ss2, fl)) :
    { ss2.st.frame with transform := ss.st.transform } = ss.st.frame := by
  obtain ⟨st1, ha, hlt, hge⟩ := solverStep_spec lm ext k ss ss2 fl hs
  have hf := assemble_frame lm ext k ss.st st1 ha
  by_cases hl : st1.laserCloudOri.length < 10
  · rw [(hlt hl).1]
    have ht : ss.st.transform = ss.st.frame.transform := rfl
    rw [ht, ← hf]
  · obtain ⟨matX, hst, -⟩ := hge (by omega)
    rw [hst, ← hf]
    have ht : st1.transform = ss.st.transform := by
      have := congrArg BasicLaserOdometry.transform hf
      exact this
    rw [← ht]
    rfl

theorem solverTrace_ne_nil (lm : Libm α) (ext : External α) (fuel k : ℕ) (ss : SolverState α)
    (tr : List (SolverState α × Flow))
    (h : solverTrace lm ext (fuel + 1) k ss = some tr) : 0 < tr.length := by
  simp only [solverTrace] at h
  split at h
  · exact absurd h (by simp)
  · simp only [Option.some.injEq] at h
    subst h
    simp
  · obtain ⟨l, -, rfl⟩ := Option.map_eq_some'.mp h
    simp

/-- The log of the solver loop: its length is within the budget, its last state is the
result of the loop, each entry is the outcome of the loop body on the state before it,
a `break` is the last entry, and an iteration that does not `break` is followed by
another one while the budget lasts. -/
theorem solverTrace_spec (lm : Libm α) (ext : External α) :
    ∀ (fuel k : ℕ) (ss : SolverState α) (tr : List (SolverState α × Flow)),
      solverTrace lm ext fuel k ss = some tr →
      tr.length ≤ fuel ∧
      solverLoop lm ext fuel k ss = some ((tr.getLast?.map Prod.fst).getD ss) ∧
      ∀ (i : ℕ) (e : SolverState α × Flow), tr[i]? = some e →
        ∃ prev, (ss :: tr.map Prod.fst)[i]? = some prev ∧
          solverStep lm ext (k + i) prev = some e ∧
          { prev.st.frame with transform := ss.st.transform } = ss.st.frame ∧
          (e.2 = Flow.stop → i + 1 = tr.length) ∧
          (e.2 = Flow.next → i + 1 < fuel → i + 1 < tr.length) := by
  intro fuel
  induction fuel with
  | zero =>
    intro k ss tr h
    simp only [solverTrace, Option.some.injEq] at h
    subst h
    refine ⟨le_refl _, rfl, ?_⟩
    intro i e he
    simp at he
  | succ fuel ih =>
    intro k ss tr h
    have hne := solverTrace_ne_nil lm ext fuel k ss tr h
    simp only [solverTrace] at h
    split at h
    · exact absurd h (by simp)
    · rename_i ss1 hs
      simp only [Option.some.injEq] at h
      subst h
      refine ⟨by simp, by simp [solverLoop, hs], ?_⟩
      intro i e he
      cases i with
      | zero =>
        simp only [List.getElem?_cons_zero, Option.some.injEq] at he
        subst he
        exact ⟨ss, rfl, by simpa using hs, rfl, fun _ => rfl, fun hc => Flow.noConfusion hc⟩
      | succ j => simp at he
    · rename_i ss1 hs
      obtain ⟨l, hl, rfl⟩ := Option.map_eq_some'.mp h
      obtain ⟨hlen, hloop, hent⟩ := ih (k + 1) ss1 l hl
      refine ⟨by simpa using hlen, ?_, ?_⟩
      · simp only [solverLoop, hs]
        rw [hloop]
        cases l with
        | nil => rfl
        | cons a l' =>
          obtain ⟨z, hz⟩ : ∃ z, (a :: l').getLast? = some z :=
            ⟨_, List.getLast?_eq_getLast _ (by simp)⟩
          simp [List.getLast?_cons_cons, hz]
      · intro i e he
        cases i with
        | zero =>
          simp only [List.getElem?_cons_zero, Option.some.injEq] at he
          subst he
          refine ⟨ss, rfl, by simpa using hs, rfl, fun hc => Flow.noConfusion hc, ?_⟩
          intro _ hf
          cases fuel with
          | zero => omega
          | succ n =>
            have := solverTrace_ne_nil lm ext n (k + 1) ss1 l hl
            simp only [List.length_cons]
            omega
        | succ j =>
          simp only [List.getElem?_cons_succ] at he
          obtain ⟨prev, hp, hstep, hfr, hstop, hnext⟩ := hent j e he
          refine ⟨prev, ?_, ?_, ?_, ?_, ?_⟩
          · simpa using hp
          · have e1 : k + (j + 1) = k + 1 + j := by omega
            rw [e1]
            exact hstep
          · have h2 := solverStep_frame lm ext k ss ss1 Flow.next hs
            rw [← h2, ← hfr]
          · intro hc
            have := hstop hc
            simp only [List.length_cons]
            omega
          · intro hc hf
            have := hnext hc (by omega)
            simp only [List.length_cons]
            omega

theorem solverTrace_of_solverLoop (lm : Libm α) (ext : External α) :
    ∀ (fuel k : ℕ) (ss ss1 : SolverState α), solverLoop lm ext fuel k ss = some ss1 →
      ∃ tr, solverTrace lm ext fuel k ss = some tr := by
  intro fuel
  induction fuel with
  | zero =>
    intro k ss ss1 _
    exact ⟨[], rfl⟩
  | succ fuel ih =>
    intro k ss ss1 h
    simp only [solverLoop] at h
    split at h
    · exact absurd h (by simp)
    · rename_i ss2 hs
      exact ⟨[(ss2, Flow.stop)], by simp [solverTrace, hs]⟩
    · rename_i ss2 hs
      obtain ⟨l, hl⟩ := ih (k + 1) ss2 ss1 h
      exact ⟨(ss2, Flow.next) :: l, by simp [solverTrace, hs, hl]⟩

theorem transformToStart_edgeExample (y : ℝ) :
    transformToStart realLibm (edgeExample ℝ y) ⟨0, y, 0, 0⟩ = ⟨0, y, 0, 0⟩ := by
  have h0 : truncToInt (0 : ℝ) = 0 := by
    rw [truncToInt_of_nonneg le_rfl]
    simp
  simp [transformToStart, interpolationCoeff, h0, rotateZXY_zero]

theorem edgeResidual_exampleHalf :
    edgeResidual realLibm ⟨0, 1 / 2, 0, 0⟩ ⟨0, 0, 0, 0⟩ ⟨1, 0, 0, 1⟩ = (0, 1, 0, 1 / 2) := by
  have hs : Real.sqrt ((2 : ℝ)⁻¹ * 2⁻¹) = 2⁻¹ := Real.sqrt_mul_self (by norm_num)
  simp [edgeResidual, realLibm, hs]

theorem edgeWeight_exampleHalf : edgeWeight 6 (1 / 2 : ℝ) = 838861 / 8388608 := by
  unfold edgeWeight weightFactor
  rw [if_pos (by decide), abs_of_pos (by norm_num : (0 : ℝ) < 1 / 2)]
  norm_num

theorem edgeStep_exampleHalf (ext : External ℝ) :
    edgeStep realLibm ext 6 (edgeExample ℝ (1 / 2)) 0 =
      some { edgeExample ℝ (1 / 2) with
        laserCloudOri := [⟨0, 1 / 2, 0, 0⟩]
        coeffSel := [⟨0, 838861 / 8388608, 0, 838861 / 16777216⟩] } := by
  have hc : (edgeExample ℝ (1 / 2)).cornerPointsSharp[0]? = some ⟨0, 1 / 2, 0, 0⟩ := rfl
  have ha : (edgeExample ℝ (1 / 2)).lastCornerCloud[(0 : ℤ).toNat]? = some ⟨0, 0, 0, 0⟩ := rfl
  have hb : (edgeExample ℝ (1 / 2)).lastCornerCloud[(1 : ℤ).toNat]? = some ⟨1, 0, 0, 1⟩ := rfl
  have h1 : (edgeExample ℝ (1 / 2)).pointSearchCornerInd1[0]? = some 0 := rfl
  have h2 : (edgeExample ℝ (1 / 2)).pointSearchCornerInd2[0]? = some 1 := rfl
  have hsel : selected (edgeWeight 6 (1 / 2 : ℝ)) (1 / 2) := by
    rw [edgeWeight_exampleHalf]
    unfold selected
    norm_num
  have hw : weightedCoeff (edgeWeight 6 (1 / 2 : ℝ)) 0 1 0 (1 / 2)
      = ⟨0, 838861 / 8388608, 0, 838861 / 16777216⟩ := by
    rw [edgeWeight_exampleHalf]
    unfold weightedCoeff
    norm_num
  unfold edgeStep
  rw [hc]
  dsimp only
  rw [if_neg (by decide), Option.some_bind, h1, h2]
  dsimp only
  rw [if_pos (by decide), if_neg (by decide), ha, hb]
  dsimp only
  rw [transformToStart_edgeExample, edgeResidual_exampleHalf]
  dsimp only
  rw [if_pos hsel, hw]
  rfl

end RunLemmas

/-! ## Searches, reachability and degeneracy: auxiliary lemmas -/

section SweepLemmas

variable {α : Type} [LinearOrderedField α] [FloorRing α]

theorem planarForwardScan_ok (cloud : PointCloud α) (pointSel : PointXYZI α) (scan : ℤ)
    (n a : ℕ) (pa : PointXYZI α) (hpa : cloud[a]? = some pa) (hscan : ring pa = scan)
    (hsort : RingSorted cloud) :
    ∀ (fuel j : ℕ) (best r : PlanarBest α), a < j → best.1.1 ≤ 25 → best.2.1 ≤ 25 →
      PlanarBestOK cloud pointSel scan a best →
      planarForwardScan cloud pointSel scan n fuel j best = some r →
      r.1.1 ≤ 25 ∧ r.2.1 ≤ 25 ∧ PlanarBestOK cloud pointSel scan a r := by
  intro fuel
  induction fuel with
  | zero =>
    intro j best r _ h1 h2 hok h
    simp only [planarForwardScan, Option.some.injEq] at h
    subst h
    exact ⟨h1, h2, hok⟩
  | succ fuel ih =>
    intro j best r haj h1 h2 hok h
    simp only [planarForwardScan] at h
    split at h
    · split at h
      · exact absurd h (by simp)
      · rename_i pj hpj
        have hpj' : cloud[j]? = some pj := by simpa using hpj
        have hge : scan ≤ ring pj := by
          rw [← hscan]
          exact hsort a j pa pj haj.le hpa hpj'
        split at h
        · simp only [Option.some.injEq] at h
          subst h
          exact ⟨h1, h2, hok⟩
        · rename_i hwin
          have hle2 := ring_le_of_not_gt hwin
          have hja : ((j : ℕ) : ℤ) ≠ (a : ℤ) := by
            simp only [ne_eq, Nat.cast_inj]; omega
          by_cases hring : ring pj ≤ scan
          · by_cases hd : calcSquaredDiff pj pointSel < best.1.1
            · simp only [hring, hd, if_true] at h
              refine ih (j + 1) ((calcSquaredDiff pj pointSel, (j : ℤ)), best.2) r (by omega)
                (hd.le.trans h1) h2 ?_ h
              refine ⟨fun _ => ⟨pj, by simpa using hpj', le_antisymm hring hge, hja, rfl,
                lt_of_lt_of_le hd h1⟩, hok.2⟩
            · simp only [hring, hd, if_true, if_false] at h
              exact ih (j + 1) best r (by omega) h1 h2 hok h
          · by_cases hd : calcSquaredDiff pj pointSel < best.2.1
            · simp only [hring, hd, if_true, if_false] at h
              refine ih (j + 1) (best.1, (calcSquaredDiff pj pointSel, (j : ℤ))) r (by omega) h1
                (hd.le.trans h2) ?_ h
              refine ⟨hok.1, fun _ => ⟨pj, by simpa using hpj', by omega, ?_, hja, rfl,
                lt_of_lt_of_le hd h2⟩⟩
              rw [abs_le]; constructor <;> omega
            · simp only [hring, hd, if_false] at h
              exact ih (j + 1) best r (by omega) h1 h2 hok h
    · simp only [Option.some.injEq] at h
      subst h
      exact ⟨h1, h2, hok⟩

theorem planarBackwardScan_ok (cloud : PointCloud α) (pointSel : PointXYZI α) (scan : ℤ)
    (a : ℕ) (pa : PointXYZI α) (hpa : cloud[a]? = some pa) (hscan : ring pa = scan)
    (hsort : RingSorted cloud) :
    ∀ (k : ℕ) (best r : PlanarBest α), k ≤ a → best.1.1 ≤ 25 → best.2.1 ≤ 25 →
      PlanarBestOK cloud pointSel scan a best →
      planarBackwardScan cloud pointSel scan k best = some r →
      r.1.1 ≤ 25 ∧ r.2.1 ≤ 25 ∧ PlanarBestOK cloud pointSel scan a r := by
  intro k
  induction k with
  | zero =>
    intro best r _ h1 h2 hok h
    simp only [planarBackwardScan, Option.some.injEq] at h
    subst h
    exact ⟨h1, h2, hok⟩
  | succ j ih =>
    intro best r hka h1 h2 hok h
    simp only [planarBackwardScan] at h
    split at h
    · exact absurd h (by simp)
    · rename_i pj hpj
      have hpj' : cloud[j]? = some pj := by simpa using hpj
      have hle : ring pj ≤ scan := by
        rw [← hscan]
        exact hsort j a pj pa (by omega) hpj' hpa
      split at h
      · simp only [Option.some.injEq] at h
        subst h
        exact ⟨h1, h2, hok⟩
      · rename_i hwin
        have hge2 := ring_ge_of_not_lt hwin
        have hja : ((j : ℕ) : ℤ) ≠ (a : ℤ) := by
          simp only [ne_eq, Nat.cast_inj]; omega
        by_cases hring : ring pj ≥ scan
        · by_cases hd : calcSquaredDiff pj pointSel < best.1.1
          · simp only [hring, hd, if_true] at h
            refine ih ((calcSquaredDiff pj pointSel, (j : ℤ)), best.2) r (by omega)
              (hd.le.trans h1) h2 ?_ h
            refine ⟨fun _ => ⟨pj, by simpa using hpj', le_antisymm hle hring, hja, rfl,
              lt_of_lt_of_le hd h1⟩, hok.2⟩
          · simp only [hring, hd, if_true, if_false] at h
            exact ih best r (by omega) h1 h2 hok h
        · by_cases hd : calcSquaredDiff pj pointSel < best.2.1
          · simp only [hring, hd, if_true, if_false] at h
            refine ih (best.1, (calcSquaredDiff pj pointSel, (j : ℤ))) r (by omega) h1
              (hd.le.trans h2) ?_ h
            refine ⟨hok.1, fun _ => ⟨pj, by simpa using hpj', by omega, ?_, hja, rfl,
              lt_of_lt_of_le hd h2⟩⟩
            rw [abs_le]; constructor <;> omega
          · simp only [hring, hd, if_false] at h
            exact ih best r (by omega) h1 h2 hok h

/-- Minimality and tie-break of the forward scan of the edge search: the result is never
larger than the state it started from, equals it when the value is the same, and for
every point that the scan reaches and that lies on a ring above `scan` the result is at
most its squared distance, the cached index being the smaller one on equality. -/
theorem edgeForwardScan_min (cloud : PointCloud α) (pointSel : PointXYZI α) (scan : ℤ)
    (n : ℕ) :
    ∀ (fuel j : ℕ) (best r : α × ℤ), n ≤ j + fuel →
      (best.1 < 25 → 0 ≤ best.2) → (0 ≤ best.2 → best.2 < (j : ℤ)) →
      edgeForwardScan cloud pointSel scan n fuel j best = some r →
      r.1 ≤ best.1 ∧ (r.1 = best.1 → r = best) ∧ (r.1 < 25 → 0 ≤ r.2) ∧
      (r ≠ best → (j : ℤ) ≤ r.2) ∧
      ∀ (k : ℕ) (pk : PointXYZI α), j ≤ k → k < n → cloud[k]? = some pk →
        (∀ (m : ℕ) (pm : PointXYZI α), j ≤ m → m ≤ k → cloud[m]? = some pm →
          ring pm ≤ scan + 2) →
        scan < ring pk → calcSquaredDiff pk pointSel < 25 →
        r.1 ≤ calcSquaredDiff pk pointSel ∧
          (calcSquaredDiff pk pointSel = r.1 → r.2 ≤ (k : ℤ)) := by
  intro fuel
  induction fuel with
  | zero =>
    intro j best r hn hI1 _ h
    simp only [edgeForwardScan, Option.some.injEq] at h
    subst h
    refine ⟨le_rfl, fun _ => rfl, hI1, fun hne => absurd rfl hne, ?_⟩
    intro k pk hjk hkn
    omega
  | succ fuel ih =>
    intro j best r hn hI1 hI2 h
    simp only [edgeForwardScan] at h
    split at h
    · rename_i hjn
      split at h
      · exact absurd h (by simp)
      · rename_i pj hpj
        have hpj' : cloud[j]? = some pj := by simpa using hpj
        split at h
        · rename_i hbreak
          simp only [Option.some.injEq] at h
          subst h
          refine ⟨le_rfl, fun _ => rfl, hI1, fun hne => absurd rfl hne, ?_⟩
          intro k pk hjk _ _ hno _ _
          have h2 := hno j pj le_rfl hjk hpj'
          exfalso
          apply not_le.mpr hbreak
          have : ((ring pj : ℤ) : α) ≤ ((scan + 2 : ℤ) : α) := Int.cast_le.mpr h2
          push_cast at this
          linarith
        · split at h
          · rename_i hsel
            obtain ⟨o1, o2, o3, o4, o5⟩ := ih (j + 1) (calcSquaredDiff pj pointSel, (j : ℤ)) r
              (by omega) (fun _ => by simp) (fun _ => by simp) h
            simp only at o1 o2 o3 o4 o5
            refine ⟨o1.trans hsel.2.le, ?_, o3, ?_, ?_⟩
            · intro e
              rw [e] at o1
              exact absurd hsel.2 (not_lt.mpr o1)
            · intro _
              by_cases e : r = (calcSquaredDiff pj pointSel, (j : ℤ))
              · rw [e]
              · have := o4 e
                push_cast at this
                omega
            · intro k pk hjk hkn hpk hno hring hd
              rcases Nat.eq_or_lt_of_le hjk with e | hlt
              · subst e
                rw [hpj'] at hpk
                obtain rfl := Option.some.inj hpk
                refine ⟨o1, fun e2 => ?_⟩
                rw [o2 e2.symm]
              · exact o5 k pk hlt hkn hpk
                  (fun m pm h1 h2 h3 => hno m pm (by omega) h2 h3) hring hd
          · rename_i hsel
            obtain ⟨o1, o2, o3, o4, o5⟩ := ih (j + 1) best r (by omega) hI1
              (fun h0 => by have := hI2 h0; push_cast; omega) h
            refine ⟨o1, o2, o3, ?_, ?_⟩
            · intro hne
              have := o4 hne
              push_cast at this
              omega
            · intro k pk hjk hkn hpk hno hring hd
              rcases Nat.eq_or_lt_of_le hjk with e | hlt
              · subst e
                rw [hpj'] at hpk
                obtain rfl := Option.some.inj hpk
                have hge : best.1 ≤ calcSquaredDiff pj pointSel := by
                  by_contra hc
                  exact hsel ⟨hring, not_le.mp hc⟩
                refine ⟨o1.trans hge, fun e2 => ?_⟩
                have e3 : r.1 = best.1 := le_antisymm o1 (by rw [← e2]; exact hge)
                rw [o2 e3]
                have h0 : 0 ≤ best.2 := hI1 (lt_of_le_of_lt hge hd)
                exact (hI2 h0).le
              · exact o5 k pk hlt hkn hpk
                  (fun m pm h1 h2 h3 => hno m pm (by omega) h2 h3) hring hd
    · rename_i hjn
      simp only [Option.some.injEq] at h
      subst h
      refine ⟨le_rfl, fun _ => rfl, hI1, fun hne => absurd rfl hne, ?_⟩
      intro k pk hjk hkn
      omega

/-- Minimality and tie-break of the backward scan of the edge search: for every point
that the scan reaches and that lies on a ring below `scan` the result is at most its
squared distance, the cached index being the larger one on equality. -/
theorem edgeBackwardScan_min (cloud : PointCloud α) (pointSel : PointXYZI α) (scan : ℤ) :
    ∀ (cnt : ℕ) (best r : α × ℤ),
      (best.1 < 25 → 0 ≤ best.2) → (0 ≤ best.2 → (cnt : ℤ) ≤ best.2) →
      edgeBackwardScan cloud pointSel scan cnt best = some r →
      r.1 ≤ best.1 ∧ (r.1 = best.1 → r = best) ∧ (r.1 < 25 → 0 ≤ r.2) ∧
      (r ≠ best → 0 ≤ r.2 ∧ r.2 < (cnt : ℤ)) ∧
      ∀ (k : ℕ) (pk : PointXYZI α), k < cnt → cloud[k]? = some pk →
        (∀ (m : ℕ) (pm : PointXYZI α), k ≤ m → m < cnt → cloud[m]? = some pm →
          scan - 2 ≤ ring pm) →
        ring pk < scan → calcSquaredDiff pk pointSel < 25 →
        r.1 ≤ calcSquaredDiff pk pointSel ∧
          (calcSquaredDiff pk pointSel = r.1 → (k : ℤ) ≤ r.2) := by
  intro cnt
  induction cnt with
  | zero =>
    intro best r hI1 _ h
    simp only [edgeBackwardScan, Option.some.injEq] at h
    subst h
    refine ⟨le_rfl, fun _ => rfl, hI1, fun hne => absurd rfl hne, ?_⟩
    intro k pk hk
    omega
  | succ j ih =>
    intro best r hI1 hI2 h
    simp only [edgeBackwardScan] at h
    split at h
    · exact absurd h (by simp)
    · rename_i pj hpj
      have hpj' : cloud[j]? = some pj := by simpa using hpj
      split at h
      · rename_i hbreak
        simp only [Option.some.injEq] at h
        subst h
        refine ⟨le_rfl, fun _ => rfl, hI1, fun hne => absurd rfl hne, ?_⟩
        intro k pk hk _ hno _ _
        have h2 := hno j pj (by omega) (by omega) hpj'
        exfalso
        apply not_le.mpr hbreak
        have : ((scan - 2 : ℤ) : α) ≤ ((ring pj : ℤ) : α) := Int.cast_le.mpr h2
        push_cast at this
        linarith
      · split at h
        · rename_i hsel
          obtain ⟨o1, o2, o3, o4, o5⟩ := ih (calcSquaredDiff pj pointSel, (j : ℤ)) r
            (fun _ => by simp) (fun _ => by simp) h
          simp only at o1 o2 o3 o4 o5
          refine ⟨o1.trans hsel.2.le, ?_, o3, ?_, ?_⟩
          · intro e
            rw [e] at o1
            exact absurd hsel.2 (not_lt.mpr o1)
          · intro _
            by_cases e : r = (calcSquaredDiff pj pointSel, (j : ℤ))
            · rw [e]
              simp only
              push_cast
              omega
            · have := o4 e
              push_cast
              omega
          · intro k pk hk hpk hno hring hd
            rcases Nat.eq_or_lt_of_le (Nat.lt_succ_iff.mp hk) with e | hlt
            · subst e
              rw [hpj'] at hpk
              obtain rfl := Option.some.inj hpk
              refine ⟨o1, fun e2 => ?_⟩
              rw [o2 e2.symm]
            · exact o5 k pk hlt hpk
                (fun m pm h1 h2 h3 => hno m pm h1 (by omega) h3) hring hd
        · rename_i hsel
          obtain ⟨o1, o2, o3, o4, o5⟩ := ih best r hI1
            (fun h0 => by have := hI2 h0; push_cast at this; omega) h
          refine ⟨o1, o2, o3, ?_, ?_⟩
          · intro hne
            have := o4 hne
            push_cast
            omega
          · intro k pk hk hpk hno hring hd
            rcases Nat.eq_or_lt_of_le (Nat.lt_succ_iff.mp hk) with e | hlt
            · subst e
              rw [hpj'] at hpk
              obtain rfl := Option.some.inj hpk
              have hge : best.1 ≤ calcSquaredDiff pj pointSel := by
                by_contra hc
                exact hsel ⟨hring, not_le.mp hc⟩
              refine ⟨o1.trans hge, fun e2 => ?_⟩
              have e3 : r.1 = best.1 := le_antisymm o1 (by rw [← e2]; exact hge)
              rw [o2 e3]
              have h0 : 0 ≤ best.2 := hI1 (lt_of_le_of_lt hge hd)
              have := hI2 h0
              push_cast at this
              omega
            · exact o5 k pk hlt hpk
                (fun m pm h1 h2 h3 => hno m pm h1 (by omega) h3) hring hd

/-- When the loop bound of the forward scan exceeds the size of the cloud and no point of
the cloud lies more than 2 rings above `scan`, the scan runs past the end of the cloud. -/
theorem edgeForwardScan_overrun (cloud : PointCloud α) (pointSel : PointXYZI α) (scan : ℤ)
    (n : ℕ) (hring : ∀ p ∈ cloud, ring p ≤ scan + 2) (hlen : cloud.length < n) :
    ∀ (fuel j : ℕ) (best : α × ℤ), j ≤ cloud.length → n ≤ j + fuel →
      edgeForwardScan cloud pointSel scan n fuel j best = none := by
  intro fuel
  induction fuel with
  | zero =>
    intro j best hj hn
    omega
  | succ fuel ih =>
    intro j best hj hn
    have hjn : j < n := by omega
    simp only [edgeForwardScan, if_pos hjn]
    rcases Nat.lt_or_ge j cloud.length with hlt | hge
    · have hget : cloud[j]? = some cloud[j] := List.getElem?_eq_getElem hlt
      rw [hget]
      have hnb : ¬ (((ring cloud[j] : ℤ) : α) > (scan : α) + 5 / 2) := by
        have h2 := hring cloud[j] (List.getElem_mem hlt)
        have : ((ring cloud[j] : ℤ) : α) ≤ ((scan + 2 : ℤ) : α) := Int.cast_le.mpr h2
        push_cast at this
        intro hc
        linarith
      simp only [if_neg hnb]
      split
      · exact ih (j + 1) _ (by omega) (by omega)
      · exact ih (j + 1) _ (by omega) (by omega)
    · have hget : cloud[j]? = none := List.getElem?_eq_none hge
      rw [hget]

theorem edgeSearch_overrun (cloud : PointCloud α) (n : ℕ) (pointSel : PointXYZI α)
    (ind : ℤ) (sq : α) (hsq : sq < 25) (hlen : cloud.length < n)
    (hring : ∀ p ∈ cloud, ∀ p' ∈ cloud, ring p ≤ ring p' + 2) :
    edgeSearch cloud n pointSel ind sq = none := by
  unfold edgeSearch
  rw [if_pos hsq]
  split
  · split
    · rfl
    · rename_i pa hpa
      have hpa' : cloud[ind.toNat]? = some pa := by simpa using hpa
      have hmem : pa ∈ cloud := List.getElem?_mem hpa'
      have hlt : ind.toNat < cloud.length := by
        by_contra hc
        rw [List.getElem?_eq_none (not_lt.mp hc)] at hpa'
        cases hpa'
      simp only []
      rw [edgeForwardScan_overrun cloud pointSel (ring pa) n (fun p hp => hring p hp pa hmem)
        hlen _ _ _ (by omega) (by omega)]
      rfl
  · rfl

omit [LinearOrderedField α] [FloorRing α] in
theorem foldlM_range_none (f : BasicLaserOdometry α → ℕ → Option (BasicLaserOdometry α))
    (st : BasicLaserOdometry α) (n : ℕ) (hn : 0 < n) (h : f st 0 = none) :
    (List.range n).foldlM f st = none := by
  cases n with
  | zero => omega
  | succ m =>
    rw [List.range_succ_eq_map, List.foldlM_cons, h]
    rfl

/-- A call of `process` that enters the optimisation with more current sharp points than
`lastCorner` points, all `lastCorner` points within 2 rings of each other and the nearest
neighbour of the first sharp point within squared distance 25, reads `lastCorner` out of
bounds. -/
theorem process_overrun (lm : Libm α) (ext : External α) (st : BasicLaserOdometry α)
    (hinit : st.systemInited = true)
    (hgate : st.lastCornerCloud.length > 10 ∧ st.lastSurfaceCloud.length > 100)
    (hmax : 0 < st.maxIterations)
    (hlen : st.lastCornerCloud.length < st.cornerPointsSharp.length)
    (hring : ∀ p ∈ st.lastCornerCloud, ∀ p' ∈ st.lastCornerCloud, ring p ≤ ring p' + 2)
    (p0 : PointXYZI α) (hp0 : st.cornerPointsSharp[0]? = some p0)
    (hnn : (ext.nearestKSearch st.lastCornerKDTree
      (transformToStart lm (initialGuess st) p0)).2 < 25) :
    process lm ext st = none := by
  rw [process_of_inited lm ext st hinit, optimise_eq]
  have hg : (initialGuess st).lastCornerCloud.length > 10 ∧
      (initialGuess st).lastSurfaceCloud.length > 100 := hgate
  rw [if_pos hg]
  have hm : (initialGuess st).maxIterations = st.maxIterations := rfl
  rw [hm]
  obtain ⟨m, hm2⟩ : ∃ m, st.maxIterations = m + 1 := ⟨st.maxIterations - 1, by omega⟩
  rw [hm2]
  have hstep : solverStep lm ext 0 (solverStart (initialGuess st)) = none := by
    unfold solverStep assemble
    have hpos : 0 < st.cornerPointsSharp.length := by omega
    have hedge : edgeStep lm ext 0
        { (solverStart (initialGuess st)).st with laserCloudOri := [], coeffSel := [] } 0
        = none := by
      unfold edgeStep
      have hp1 : ({ (solverStart (initialGuess st)).st with
          laserCloudOri := [], coeffSel := [] } : BasicLaserOdometry α).cornerPointsSharp[0]?
          = some p0 := hp0
      rw [hp1]
      simp only [Nat.zero_mod, if_true]
      have hs2 : edgeSearch
          ({ (solverStart (initialGuess st)).st with
            laserCloudOri := [], coeffSel := [] } : BasicLaserOdometry α).lastCornerCloud
          ({ (solverStart (initialGuess st)).st with
            laserCloudOri := [], coeffSel := [] } : BasicLaserOdometry α).cornerPointsSharp.length
          (transformToStart lm
            { (solverStart (initialGuess st)).st with laserCloudOri := [], coeffSel := [] } p0)
          (ext.nearestKSearch ({ (solverStart (initialGuess st)).st with
            laserCloudOri := [], coeffSel := [] } : BasicLaserOdometry α).lastCornerKDTree
            (transformToStart lm
              { (solverStart (initialGuess st)).st with laserCloudOri := [], coeffSel := [] }
              p0)).1
          (ext.nearestKSearch ({ (solverStart (initialGuess st)).st with
            laserCloudOri := [], coeffSel := [] } : BasicLaserOdometry α).lastCornerKDTree
            (transformToStart lm
              { (solverStart (initialGuess st)).st with laserCloudOri := [], coeffSel := [] }
              p0)).2 = none :=
        edgeSearch_overrun _ _ _ _ _ hnn hlen hring
      rw [hs2]
      rfl
    have hfold := foldlM_range_none (edgeStep lm ext 0)
      { (solverStart (initialGuess st)).st with laserCloudOri := [], coeffSel := [] }
      st.cornerPointsSharp.length hpos hedge
    have hfold2 : (List.range ({ (solverStart (initialGuess st)).st with
          laserCloudOri := [], coeffSel := [] } : BasicLaserOdometry α).cornerPointsSharp.length).foldlM
        (edgeStep lm ext 0)
        { (solverStart (initialGuess st)).st with laserCloudOri := [], coeffSel := [] }
        = none := hfold
    simp only []
    rw [hfold2]
    rfl
  simp only [solverLoop, hstep]
  rfl

/-- One `process()` call leaves the k-d trees equal to the last clouds whenever the last
clouds are large enough for the next optimisation. -/
theorem process_kdtree_inv (lm : Libm α) (ext : External α) (st st1 : BasicLaserOdometry α)
    (h : process lm ext st = some st1)
    (hc : st1.lastCornerCloud.length > 10) (hs : st1.lastSurfaceCloud.length > 100) :
    st1.lastCornerKDTree = st1.lastCornerCloud ∧
      st1.lastSurfaceKDTree = st1.lastSurfaceCloud := by
  by_cases hinit : st.systemInited = true
  · obtain ⟨s1, rfl, -⟩ := process_inv lm ext st st1 hinit h
    rw [accumulate_lastCornerCloud_length] at hc
    rw [accumulate_lastSurfaceCloud_length] at hs
    exact accumulate_kdtree_rebuilt lm s1 ⟨hc, hs⟩
  · unfold process at h
    rw [if_pos (by simpa using hinit)] at h
    simp only [Option.some.injEq] at h
    subst h
    exact ⟨rfl, rfl⟩

theorem reachable_kdtree_inv (lm : Libm α) (ext : External α) (st : BasicLaserOdometry α)
    (hr : Reachable lm ext st) :
    st.lastCornerCloud.length > 10 → st.lastSurfaceCloud.length > 100 →
      st.lastCornerKDTree = st.lastCornerCloud ∧
        st.lastSurfaceKDTree = st.lastSurfaceCloud := by
  induction hr with
  | fresh scanPeriod maxIterations =>
    intro hc _
    simp [BasicLaserOdometry.new] at hc
  | cornerSharp st cloud _ ih => exact ih
  | cornerLessSharp st cloud _ ih => exact ih
  | surfFlat st cloud _ ih => exact ih
  | surfLessFlat st cloud _ ih => exact ih
  | imu st st1 imuTrans _ hu ih =>
    unfold updateIMU at hu
    split at hu
    · simp only [Option.some.injEq] at hu
      subst hu
      exact ih
    · exact absurd hu (by simp)
  | sweep st st1 _ hp _ =>
    intro hc hs
    exact process_kdtree_inv lm ext st st1 hp hc hs

/-- A skipped iteration is a `continue` that keeps the solver state but for the clouds. -/
theorem solverStep_skip (lm : Libm α) (ext : External α) (k : ℕ) (ss : SolverState α)
    (st1 : BasicLaserOdometry α) (ha : assemble lm ext k ss.st = some st1)
    (hlt : st1.laserCloudOri.length < 10) :
    solverStep lm ext k ss = some ({ ss with st := st1 }, Flow.next) := by
  unfold solverStep
  rw [ha]
  simp only [Option.some_bind, if_pos hlt]

/-- The forward scan keeps a best pair that is either still unset or a candidate of the
forward scan with its squared distance. -/
theorem edgeForwardScan_cand (cloud : PointCloud α) (pointSel : PointXYZI α) (scan : ℤ)
    (n a : ℕ) :
    ∀ (fuel j : ℕ) (best r : α × ℤ), a < j →
      (∀ (k : ℕ) (pk : PointXYZI α), a < k → k < j → cloud[k]? = some pk →
        ring pk ≤ scan + 2) →
      (0 ≤ best.2 → ∃ pb, EdgeCandidate cloud pointSel scan n a best.2.toNat pb ∧
        calcSquaredDiff pb pointSel = best.1) →
      best.1 ≤ 25 →
      edgeForwardScan cloud pointSel scan n fuel j best = some r →
      r.1 ≤ 25 ∧ (0 ≤ r.2 → ∃ pb, EdgeCandidate cloud pointSel scan n a r.2.toNat pb ∧
        calcSquaredDiff pb pointSel = r.1) := by
  intro fuel
  induction fuel with
  | zero =>
    intro j best r _ _ hc hle h
    simp only [edgeForwardScan, Option.some.injEq] at h
    subst h
    exact ⟨hle, hc⟩
  | succ fuel ih =>
    intro j best r haj hnb hc hle h
    simp only [edgeForwardScan] at h
    split at h
    · rename_i hjn
      split at h
      · exact absurd h (by simp)
      · rename_i pj hpj
        have hpj' : cloud[j]? = some pj := by simpa using hpj
        split at h
        · simp only [Option.some.injEq] at h
          subst h
          exact ⟨hle, hc⟩
        · rename_i hbreak
          have hring : ring pj ≤ scan + 2 := by
            by_contra hn
            have h3 : scan + 3 ≤ ring pj := by omega
            have h4 : ((scan + 3 : ℤ) : α) ≤ ((ring pj : ℤ) : α) := Int.cast_le.mpr h3
            push_cast at h4
            apply hbreak
            linarith
          have hnb2 : ∀ (k : ℕ) (pk : PointXYZI α), a < k → k < j + 1 → cloud[k]? = some pk →
              ring pk ≤ scan + 2 := by
            intro k pk h1 h2 hk
            by_cases e : k = j
            · subst e
              rw [hpj'] at hk
              obtain rfl := Option.some.inj hk
              exact hring
            · exact hnb k pk h1 (by omega) hk
          split at h
          · rename_i hsel
            refine ih (j + 1) (calcSquaredDiff pj pointSel, (j : ℤ)) r (by omega) hnb2 ?_
              (le_of_lt (lt_of_lt_of_le hsel.2 hle)) h
            intro _
            refine ⟨pj, ⟨?_, lt_of_lt_of_le hsel.2 hle, Or.inl ⟨?_, ?_, hsel.1, ?_⟩⟩, rfl⟩
            · simpa using hpj'
            · simpa using haj
            · simpa using hjn
            · intro k pk h1 h2 hk
              simp only [Int.toNat_ofNat] at h1 h2
              exact hnb2 k pk h1 (by omega) hk
          · exact ih (j + 1) best r (by omega) hnb2 hc hle h
    · simp only [Option.some.injEq] at h
      subst h
      exact ⟨hle, hc⟩

/-- The backward scan keeps a best pair that is either still unset or a candidate of one
of the two scans with its squared distance. -/
theorem edgeBackwardScan_cand (cloud : PointCloud α) (pointSel : PointXYZI α) (scan : ℤ)
    (n a : ℕ) :
    ∀ (cnt : ℕ) (best r : α × ℤ), cnt ≤ a →
      (∀ (k : ℕ) (pk : PointXYZI α), cnt ≤ k → k < a → cloud[k]? = some pk →
        scan - 2 ≤ ring pk) →
      (0 ≤ best.2 → ∃ pb, EdgeCandidate cloud pointSel scan n a best.2.toNat pb ∧
        calcSquaredDiff pb pointSel = best.1) →
      best.1 ≤ 25 →
      edgeBackwardScan cloud pointSel scan cnt best = some r →
      r.1 ≤ 25 ∧ (0 ≤ r.2 → ∃ pb, EdgeCandidate cloud pointSel scan n a r.2.toNat pb ∧
        calcSquaredDiff pb pointSel = r.1) := by
  intro cnt
  induction cnt with
  | zero =>
    intro best r _ _ hc hle h
    simp only [edgeBackwardScan, Option.some.injEq] at h
    subst h
    exact ⟨hle, hc⟩
  | succ j ih =>
    intro best r hja hnb hc hle h
    simp only [edgeBackwardScan] at h
    split at h
    · exact absurd h (by simp)
    · rename_i pj hpj
      have hpj' : cloud[j]? = some pj := by simpa using hpj
      split at h
      · simp only [Option.some.injEq] at h
        subst h
        exact ⟨hle, hc⟩
      · rename_i hbreak
        have hring : scan - 2 ≤ ring pj := by
          by_contra hn
          have h3 : ring pj ≤ scan - 3 := by omega
          have h4 : ((ring pj : ℤ) : α) ≤ ((scan - 3 : ℤ) : α) := Int.cast_le.mpr h3
          push_cast at h4
          apply hbreak
          linarith
        have hnb2 : ∀ (k : ℕ) (pk : PointXYZI α), j ≤ k → k < a → cloud[k]? = some pk →
            scan - 2 ≤ ring pk := by
          intro k pk h1 h2 hk
          by_cases e : k = j
          · subst e
            rw [hpj'] at hk
            obtain rfl := Option.some.inj hk
            exact hring
          · exact hnb k pk (by omega) h2 hk
        split at h
        · rename_i hsel
          refine ih (calcSquaredDiff pj pointSel, (j : ℤ)) r (by omega) hnb2 ?_
            (le_of_lt (lt_of_lt_of_le hsel.2 hle)) h
          intro _
          refine ⟨pj, ⟨?_, lt_of_lt_of_le hsel.2 hle, Or.inr ⟨?_, hsel.1, ?_⟩⟩, rfl⟩
          · simpa using hpj'
          · simp only [Int.toNat_ofNat]
            omega
          · intro k pk h1 h2 hk
            simp only [Int.toNat_ofNat] at h1
            exact hnb2 k pk h1 h2 hk
        · exact ih best r (by omega) hnb2 hc hle h


end SweepLemmas

/-! ## Jacobian rows: auxiliary lemmas -/

section JacobianLemmas

theorem hasDerivAt_trig_affine (F : ℝ → ℝ → ℝ)
    (hF : ∀ s c, F s c = (F 1 0 - F 0 0) * s + (F 0 1 - F 0 0) * c + F 0 0) (r0 : ℝ) :
    HasDerivAt (fun r => F (Real.sin r) (Real.cos r))
      ((F 1 0 - F 0 0) * Real.cos r0 - (F 0 1 - F 0 0) * Real.sin r0) r0 := by
  have h1 := (Real.hasDerivAt_sin r0).const_mul (F 1 0 - F 0 0)
  have h2 := (Real.hasDerivAt_cos r0).const_mul (F 0 1 - F 0 0)
  have h3 := (h1.add h2).add_const (F 0 0)
  have e : (fun r => F (Real.sin r) (Real.cos r))
      = fun r => (F 1 0 - F 0 0) * Real.sin r + (F 0 1 - F 0 0) * Real.cos r + F 0 0 := by
    funext r
    exact hF _ _
  rw [e]
  convert h3 using 1
  ring

theorem hasDerivAt_affine (F : ℝ → ℝ) (hF : ∀ v, F v = (F 1 - F 0) * v + F 0) (v0 : ℝ) :
    HasDerivAt F (F 1 - F 0) v0 := by
  have h1 := ((hasDerivAt_id v0).const_mul (F 1 - F 0)).add_const (F 0)
  have e : F = fun v => (F 1 - F 0) * id v + F 0 := by
    funext v
    exact hF v
  rw [e]
  convert h1 using 1
  simp

/-- The weighted query at full fraction, written out. -/
theorem weightedQuery_eq (st : BasicLaserOdometry ℝ) (p c : PointXYZI ℝ)
    (hs : interpolationCoeff st.scanPeriod p.intensity = 1) (tr : Twist ℝ) :
    weightedQuery realLibm st p c tr =
      c.x * ((Real.cos tr.rot_y * Real.cos tr.rot_z
            - Real.sin tr.rot_x * Real.sin tr.rot_y * Real.sin tr.rot_z) * (p.x - tr.pos.x)
          + (Real.cos tr.rot_y * Real.sin tr.rot_z
            + Real.cos tr.rot_z * Real.sin tr.rot_x * Real.sin tr.rot_y) * (p.y - tr.pos.y)
          - Real.cos tr.rot_x * Real.sin tr.rot_y * (p.z - tr.pos.z))
        + c.y * (Real.cos tr.rot_x * (-Real.sin tr.rot_z * (p.x - tr.pos.x)
            + Real.cos tr.rot_z * (p.y - tr.pos.y)) + Real.sin tr.rot_x * (p.z - tr.pos.z))
        + c.z * ((Real.cos tr.rot_y * Real.sin tr.rot_x * Real.sin tr.rot_z
            + Real.cos tr.rot_z * Real.sin tr.rot_y) * (p.x - tr.pos.x)
          + (Real.sin tr.rot_y * Real.sin tr.rot_z
            - Real.cos tr.rot_y * Real.cos tr.rot_z * Real.sin tr.rot_x) * (p.y - tr.pos.y)
          + Real.cos tr.rot_x * Real.cos tr.rot_y * (p.z - tr.pos.z)) := by
  simp only [weightedQuery, transformToStart, hs, rotateZXY, rotX, rotY, rotZ, realLibm,
    neg_mul, one_mul, Real.sin_neg, Real.cos_neg]
  ring


theorem jacobianRow_rot_x (st : BasicLaserOdometry ℝ) (p c : PointXYZI ℝ)
    (hs : interpolationCoeff st.scanPeriod p.intensity = 1) :
    HasDerivAt (fun r => weightedQuery realLibm st p c { st.transform with rot_x := r })
      ((jacobianRow realLibm st.transform p c).1 0) st.transform.rot_x := by
  have h := hasDerivAt_trig_affine (fun s k : ℝ =>
      c.x * ((Real.cos st.transform.rot_y * Real.cos st.transform.rot_z - s * Real.sin st.transform.rot_y * Real.sin st.transform.rot_z) * (p.x - st.transform.pos.x)
          + (Real.cos st.transform.rot_y * Real.sin st.transform.rot_z + Real.cos st.transform.rot_z * s * Real.sin st.transform.rot_y) * (p.y - st.transform.pos.y)
          - k * Real.sin st.transform.rot_y * (p.z - st.transform.pos.z))
        + c.y * (k * (-Real.sin st.transform.rot_z * (p.x - st.transform.pos.x) + Real.cos st.transform.rot_z * (p.y - st.transform.pos.y)) + s * (p.z - st.transform.pos.z))
        + c.z * ((Real.cos st.transform.rot_y * s * Real.sin st.transform.rot_z + Real.cos st.transform.rot_z * Real.sin st.transform.rot_y) * (p.x - st.transform.pos.x)
          + (Real.sin st.transform.rot_y * Real.sin st.transform.rot_z - Real.cos st.transform.rot_y * Real.cos st.transform.rot_z * s) * (p.y - st.transform.pos.y)
          + k * Real.cos st.transform.rot_y * (p.z - st.transform.pos.z)))
    (by intro s k; ring) st.transform.rot_x
  have e : (fun r => weightedQuery realLibm st p c { st.transform with rot_x := r })
      = fun r => (fun s k : ℝ =>
      c.x * ((Real.cos st.transform.rot_y * Real.cos st.transform.rot_z - s * Real.sin st.transform.rot_y * Real.sin st.transform.rot_z) * (p.x - st.transform.pos.x)
          + (Real.cos st.transform.rot_y * Real.sin st.transform.rot_z + Real.cos st.transform.rot_z * s * Real.sin st.transform.rot_y) * (p.y - st.transform.pos.y)
          - k * Real.sin st.transform.rot_y * (p.z - st.transform.pos.z))
        + c.y * (k * (-Real.sin st.transform.rot_z * (p.x - st.transform.pos.x) + Real.cos st.transform.rot_z * (p.y - st.transform.pos.y)) + s * (p.z - st.transform.pos.z))
        + c.z * ((Real.cos st.transform.rot_y * s * Real.sin st.transform.rot_z + Real.cos st.transform.rot_z * Real.sin st.transform.rot_y) * (p.x - st.transform.pos.x)
          + (Real.sin st.transform.rot_y * Real.sin st.transform.rot_z - Real.cos st.transform.rot_y * Real.cos st.transform.rot_z * s) * (p.y - st.transform.pos.y)
          + k * Real.cos st.transform.rot_y * (p.z - st.transform.pos.z))) (Real.sin r) (Real.cos r) := by
    funext r
    rw [weightedQuery_eq st p c hs]
  rw [e]
  convert h using 1
  simp [jacobianRow, realLibm]
  ring

theorem jacobianRow_rot_y (st : BasicLaserOdometry ℝ) (p c : PointXYZI ℝ)
    (hs : interpolationCoeff st.scanPeriod p.intensity = 1) :
    HasDerivAt (fun r => weightedQuery realLibm st p c { st.transform with rot_y := r })
      ((jacobianRow realLibm st.transform p c).1 1) st.transform.rot_y := by
  have h := hasDerivAt_trig_affine (fun s k : ℝ =>
      c.x * ((k * Real.cos st.transform.rot_z - Real.sin st.transform.rot_x * s * Real.sin st.transform.rot_z) * (p.x - st.transform.pos.x)
          + (k * Real.sin st.transform.rot_z + Real.cos st.transform.rot_z * Real.sin st.transform.rot_x * s) * (p.y - st.transform.pos.y)
          - Real.cos st.transform.rot_x * s * (p.z - st.transform.pos.z))
        + c.y * (Real.cos st.transform.rot_x * (-Real.sin st.transform.rot_z * (p.x - st.transform.pos.x) + Real.cos st.transform.rot_z * (p.y - st.transform.pos.y)) + Real.sin st.transform.rot_x * (p.z - st.transform.pos.z))
        + c.z * ((k * Real.sin st.transform.rot_x * Real.sin st.transform.rot_z + Real.cos st.transform.rot_z * s) * (p.x - st.transform.pos.x)
          + (s * Real.sin st.transform.rot_z - k * Real.cos st.transform.rot_z * Real.sin st.transform.rot_x) * (p.y - st.transform.pos.y)
          + Real.cos st.transform.rot_x * k * (p.z - st.transform.pos.z)))
    (by intro s k; ring) st.transform.rot_y
  have e : (fun r => weightedQuery realLibm st p c { st.transform with rot_y := r })
      = fun r => (fun s k : ℝ =>
      c.x * ((k * Real.cos st.transform.rot_z - Real.sin st.transform.rot_x * s * Real.sin st.transform.rot_z) * (p.x - st.transform.pos.x)
          + (k * Real.sin st.transform.rot_z + Real.cos st.transform.rot_z * Real.sin st.transform.rot_x * s) * (p.y - st.transform.pos.y)
          - Real.cos st.transform.rot_x * s * (p.z - st.transform.pos.z))
        + c.y * (Real.cos st.transform.rot_x * (-Real.sin st.transform.rot_z * (p.x - st.transform.pos.x) + Real.cos st.transform.rot_z * (p.y - st.transform.pos.y)) + Real.sin st.transform.rot_x * (p.z - st.transform.pos.z))
        + c.z * ((k * Real.sin st.transform.rot_x * Real.sin st.transform.rot_z + Real.cos st.transform.rot_z * s) * (p.x - st.transform.pos.x)
          + (s * Real.sin st.transform.rot_z - k * Real.cos st.transform.rot_z * Real.sin st.transform.rot_x) * (p.y - st.transform.pos.y)
          + Real.cos st.transform.rot_x * k * (p.z - st.transform.pos.z))) (Real.sin r) (Real.cos r) := by
    funext r
    rw [weightedQuery_eq st p c hs]
  rw [e]
  convert h using 1
  simp [jacobianRow, realLibm]
  ring

theorem jacobianRow_rot_z (st : BasicLaserOdometry ℝ) (p c : PointXYZI ℝ)
    (hs : interpolationCoeff st.scanPeriod p.intensity = 1) :
    HasDerivAt (fun r => weightedQuery realLibm st p c { st.transform with rot_z := r })
      ((jacobianRow realLibm st.transform p c).1 2) st.transform.rot_z := by
  have h := hasDerivAt_trig_affine (fun s k : ℝ =>
      c.x * ((Real.cos st.transform.rot_y * k - Real.sin st.transform.rot_x * Real.sin st.transform.rot_y * s) * (p.x - st.transform.pos.x)
          + (Real.cos st.transform.rot_y * s + k * Real.sin st.transform.rot_x * Real.sin st.transform.rot_y) * (p.y - st.transform.pos.y)
          - Real.cos st.transform.rot_x * Real.sin st.transform.rot_y * (p.z - st.transform.pos.z))
        + c.y * (Real.cos st.transform.rot_x * (-s * (p.x - st.transform.pos.x) + k * (p.y - st.transform.pos.y)) + Real.sin st.transform.rot_x * (p.z - st.transform.pos.z))
        + c.z * ((Real.cos st.transform.rot_y * Real.sin st.transform.rot_x * s + k * Real.sin st.transform.rot_y) * (p.x - st.transform.pos.x)
          + (Real.sin st.transform.rot_y * s - Real.cos st.transform.rot_y * k * Real.sin st.transform.rot_x) * (p.y - st.transform.pos.y)
          + Real.cos st.transform.rot_x * Real.cos st.transform.rot_y * (p.z - st.transform.pos.z)))
    (by intro s k; ring) st.transform.rot_z
  have e : (fun r => weightedQuery realLibm st p c { st.transform with rot_z := r })
      = fun r => (fun s k : ℝ =>
      c.x * ((Real.cos st.transform.rot_y * k - Real.sin st.transform.rot_x * Real.sin st.transform.rot_y * s) * (p.x - st.transform.pos.x)
          + (Real.cos st.transform.rot_y * s + k * Real.sin st.transform.rot_x * Real.sin st.transform.rot_y) * (p.y - st.transform.pos.y)
          - Real.cos st.transform.rot_x * Real.sin st.transform.rot_y * (p.z - st.transform.pos.z))
        + c.y * (Real.cos st.transform.rot_x * (-s * (p.x - st.transform.pos.x) + k * (p.y - st.transform.pos.y)) + Real.sin st.transform.rot_x * (p.z - st.transform.pos.z))
        + c.z * ((Real.cos st.transform.rot_y * Real.sin st.transform.rot_x * s + k * Real.sin st.transform.rot_y) * (p.x - st.transform.pos.x)
          + (Real.sin st.transform.rot_y * s - Real.cos st.transform.rot_y * k * Real.sin st.transform.rot_x) * (p.y - st.transform.pos.y)
          + Real.cos st.transform.rot_x * Real.cos st.transform.rot_y * (p.z - st.transform.pos.z))) (Real.sin r) (Real.cos r) := by
    funext r
    rw [weightedQuery_eq st p c hs]
  rw [e]
  convert h using 1
  simp [jacobianRow, realLibm]
  ring

theorem jacobianRow_pos_x (st : BasicLaserOdometry ℝ) (p c : PointXYZI ℝ)
    (hs : interpolationCoeff st.scanPeriod p.intensity = 1) :
    HasDerivAt (fun v => weightedQuery realLibm st p c
        { st.transform with pos := ⟨v, st.transform.pos.y, st.transform.pos.z⟩ })
      ((jacobianRow realLibm st.transform p c).1 3) st.transform.pos.x := by
  have h := hasDerivAt_affine (fun v : ℝ =>
      c.x * ((Real.cos st.transform.rot_y * Real.cos st.transform.rot_z - Real.sin st.transform.rot_x * Real.sin st.transform.rot_y * Real.sin st.transform.rot_z) * (p.x - v)
          + (Real.cos st.transform.rot_y * Real.sin st.transform.rot_z + Real.cos st.transform.rot_z * Real.sin st.transform.rot_x * Real.sin st.transform.rot_y) * (p.y - st.transform.pos.y)
          - Real.cos st.transform.rot_x * Real.sin st.transform.rot_y * (p.z - st.transform.pos.z))
        + c.y * (Real.cos st.transform.rot_x * (-Real.sin st.transform.rot_z * (p.x - v) + Real.cos st.transform.rot_z * (p.y - st.transform.pos.y)) + Real.sin st.transform.rot_x * (p.z - st.transform.pos.z))
        + c.z * ((Real.cos st.transform.rot_y * Real.sin st.transform.rot_x * Real.sin st.transform.rot_z + Real.cos st.transform.rot_z * Real.sin st.transform.rot_y) * (p.x - v)
          + (Real.sin st.transform.rot_y * Real.sin st.transform.rot_z - Real.cos st.transform.rot_y * Real.cos st.transform.rot_z * Real.sin st.transform.rot_x) * (p.y - st.transform.pos.y)
          + Real.cos st.transform.rot_x * Real.cos st.transform.rot_y * (p.z - st.transform.pos.z)))
    (by intro v; ring) st.transform.pos.x
  have e : (fun v => weightedQuery realLibm st p c
        { st.transform with pos := ⟨v, st.transform.pos.y, st.transform.pos.z⟩ })
      = fun v : ℝ =>
      c.x * ((Real.cos st.transform.rot_y * Real.cos st.transform.rot_z - Real.sin st.transform.rot_x * Real.sin st.transform.rot_y * Real.sin st.transform.rot_z) * (p.x - v)
          + (Real.cos st.transform.rot_y * Real.sin st.transform.rot_z + Real.cos st.transform.rot_z * Real.sin st.transform.rot_x * Real.sin st.transform.rot_y) * (p.y - st.transform.pos.y)
          - Real.cos st.transform.rot_x * Real.sin st.transform.rot_y * (p.z - st.transform.pos.z))
        + c.y * (Real.cos st.transform.rot_x * (-Real.sin st.transform.rot_z * (p.x - v) + Real.cos st.transform.rot_z * (p.y - st.transform.pos.y)) + Real.sin st.transform.rot_x * (p.z - st.transform.pos.z))
        + c.z * ((Real.cos st.transform.rot_y * Real.sin st.transform.rot_x * Real.sin st.transform.rot_z + Real.cos st.transform.rot_z * Real.sin st.transform.rot_y) * (p.x - v)
          + (Real.sin st.transform.rot_y * Real.sin st.transform.rot_z - Real.cos st.transform.rot_y * Real.cos st.transform.rot_z * Real.sin st.transform.rot_x) * (p.y - st.transform.pos.y)
          + Real.cos st.transform.rot_x * Real.cos st.transform.rot_y * (p.z - st.transform.pos.z)) := by
    funext v
    rw [weightedQuery_eq st p c hs]
  rw [e]
  convert h using 1
  simp [jacobianRow, realLibm]
  ring

theorem jacobianRow_pos_y (st : BasicLaserOdometry ℝ) (p c : PointXYZI ℝ)
    (hs : interpolationCoeff st.scanPeriod p.intensity = 1) :
    HasDerivAt (fun v => weightedQuery realLibm st p c
        { st.transform with pos := ⟨st.transform.pos.x, v, st.transform.pos.z⟩ })
      ((jacobianRow realLibm st.transform p c).1 4) st.transform.pos.y := by
  have h := hasDerivAt_affine (fun v : ℝ =>
      c.x * ((Real.cos st.transform.rot_y * Real.cos st.transform.rot_z - Real.sin st.transform.rot_x * Real.sin st.transform.rot_y * Real.sin st.transform.rot_z) * (p.x - st.transform.pos.x)
          + (Real.cos st.transform.rot_y * Real.sin st.transform.rot_z + Real.cos st.transform.rot_z * Real.sin st.transform.rot_x * Real.sin st.transform.rot_y) * (p.y - v)
          - Real.cos st.transform.rot_x * Real.sin st.transform.rot_y * (p.z - st.transform.pos.z))
        + c.y * (Real.cos st.transform.rot_x * (-Real.sin st.transform.rot_z * (p.x - st.transform.pos.x) + Real.cos st.transform.rot_z * (p.y - v)) + Real.sin st.transform.rot_x * (p.z - st.transform.pos.z))
        + c.z * ((Real.cos st.transform.rot_y * Real.sin st.transform.rot_x * Real.sin st.transform.rot_z + Real.cos st.transform.rot_z * Real.sin st.transform.rot_y) * (p.x - st.transform.pos.x)
          + (Real.sin st.transform.rot_y * Real.sin st.transform.rot_z - Real.cos st.transform.rot_y * Real.cos st.transform.rot_z * Real.sin st.transform.rot_x) * (p.y - v)
          + Real.cos st.transform.rot_x * Real.cos st.transform.rot_y * (p.z - st.transform.pos.z)))
    (by intro v; ring) st.transform.pos.y
  have e : (fun v => weightedQuery realLibm st p c
        { st.transform with pos := ⟨st.transform.pos.x, v, st.transform.pos.z⟩ })
      = fun v : ℝ =>
      c.x * ((Real.cos st.transform.rot_y * Real.cos st.transform.rot_z - Real.sin st.transform.rot_x * Real.sin st.transform.rot_y * Real.sin st.transform.rot_z) * (p.x - st.transform.pos.x)
          + (Real.cos st.transform.rot_y * Real.sin st.transform.rot_z + Real.cos st.transform.rot_z * Real.sin st.transform.rot_x * Real.sin st.transform.rot_y) * (p.y - v)
          - Real.cos st.transform.rot_x * Real.sin st.transform.rot_y * (p.z - st.transform.pos.z))
        + c.y * (Real.cos st.transform.rot_x * (-Real.sin st.transform.rot_z * (p.x - st.transform.pos.x) + Real.cos st.transform.rot_z * (p.y - v)) + Real.sin st.transform.rot_x * (p.z - st.transform.pos.z))
        + c.z * ((Real.cos st.transform.rot_y * Real.sin st.transform.rot_x * Real.sin st.transform.rot_z + Real.cos st.transform.rot_z * Real.sin st.transform.rot_y) * (p.x - st.transform.pos.x)
          + (Real.sin st.transform.rot_y * Real.sin st.transform.rot_z - Real.cos st.transform.rot_y * Real.cos st.transform.rot_z * Real.sin st.transform.rot_x) * (p.y - v)
          + Real.cos st.transform.rot_x * Real.cos st.transform.rot_y * (p.z - st.transform.pos.z)) := by
    funext v
    rw [weightedQuery_eq st p c hs]
  rw [e]
  convert h using 1
  simp [jacobianRow, realLibm]
  ring

theorem jacobianRow_pos_z (st : BasicLaserOdometry ℝ) (p c : PointXYZI ℝ)
    (hs : interpolationCoeff st.scanPeriod p.intensity = 1) :
    HasDerivAt (fun v => weightedQuery realLibm st p c
        { st.transform with pos := ⟨st.transform.pos.x, st.transform.pos.y, v⟩ })
      ((jacobianRow realLibm st.transform p c).1 5) st.transform.pos.z := by
  have h := hasDerivAt_affine (fun v : ℝ =>
      c.x * ((Real.cos st.transform.rot_y * Real.cos st.transform.rot_z - Real.sin st.transform.rot_x * Real.sin st.transform.rot_y * Real.sin st.transform.rot_z) * (p.x - st.transform.pos.x)
          + (Real.cos st.transform.rot_y * Real.sin st.transform.rot_z + Real.cos st.transform.rot_z * Real.sin st.transform.rot_x * Real.sin st.transform.rot_y) * (p.y - st.transform.pos.y)
          - Real.cos st.transform.rot_x * Real.sin st.transform.rot_y * (p.z - v))
        + c.y * (Real.cos st.transform.rot_x * (-Real.sin st.transform.rot_z * (p.x - st.transform.pos.x) + Real.cos st.transform.rot_z * (p.y - st.transform.pos.y)) + Real.sin st.transform.rot_x * (p.z - v))
        + c.z * ((Real.cos st.transform.rot_y * Real.sin st.transform.rot_x * Real.sin st.transform.rot_z + Real.cos st.transform.rot_z * Real.sin st.transform.rot_y) * (p.x - st.transform.pos.x)
          + (Real.sin st.transform.rot_y * Real.sin st.transform.rot_z - Real.cos st.transform.rot_y * Real.cos st.transform.rot_z * Real.sin st.transform.rot_x) * (p.y - st.transform.pos.y)
          + Real.cos st.transform.rot_x * Real.cos st.transform.rot_y * (p.z - v)))
    (by intro v; ring) st.transform.pos.z
  have e : (fun v => weightedQuery realLibm st p c
        { st.transform with pos := ⟨st.transform.pos.x, st.transform.pos.y, v⟩ })
      = fun v : ℝ =>
      c.x * ((Real.cos st.transform.rot_y * Real.cos st.transform.rot_z - Real.sin st.transform.rot_x * Real.sin st.transform.rot_y * Real.sin st.transform.rot_z) * (p.x - st.transform.pos.x)
          + (Real.cos st.transform.rot_y * Real.sin st.transform.rot_z + Real.cos st.transform.rot_z * Real.sin st.transform.rot_x * Real.sin st.transform.rot_y) * (p.y - st.transform.pos.y)
          - Real.cos st.transform.rot_x * Real.sin st.transform.rot_y * (p.z - v))
        + c.y * (Real.cos st.transform.rot_x * (-Real.sin st.transform.rot_z * (p.x - st.transform.pos.x) + Real.cos st.transform.rot_z * (p.y - st.transform.pos.y)) + Real.sin st.transform.rot_x * (p.z - v))
        + c.z * ((Real.cos st.transform.rot_y * Real.sin st.transform.rot_x * Real.sin st.transform.rot_z + Real.cos st.transform.rot_z * Real.sin st.transform.rot_y) * (p.x - st.transform.pos.x)
          + (Real.sin st.transform.rot_y * Real.sin st.transform.rot_z - Real.cos st.transform.rot_y * Real.cos st.transform.rot_z * Real.sin st.transform.rot_x) * (p.y - st.transform.pos.y)
          + Real.cos st.transform.rot_x * Real.cos st.transform.rot_y * (p.z - v)) := by
    funext v
    rw [weightedQuery_eq st p c hs]
  rw [e]
  have e5 : (jacobianRow realLibm st.transform p c).1 5
      = 1 * Real.cos (1 * st.transform.rot_x) * Real.sin (1 * st.transform.rot_y) * c.x
        - 1 * Real.sin (1 * st.transform.rot_x) * c.y
        - 1 * Real.cos (1 * st.transform.rot_x) * Real.cos (1 * st.transform.rot_y) * c.z := rfl
  rw [e5]
  convert h using 1
  simp only [one_mul]
  ring

end JacobianLemmas

/-! ## Iterations after a skipped first iteration: auxiliary lemmas -/

section SimulationLemmas

variable {α : Type} [LinearOrderedField α] [FloorRing α]

omit [LinearOrderedField α] [FloorRing α] in
theorem set_eq_self_of_getElem? {β : Type} (l : List β) (i : ℕ) (v : β)
    (h : l[i]? = some v) : l.set i v = l := by
  induction l generalizing i with
  | nil => rfl
  | cons a l ih =>
    cases i with
    | zero =>
      simp only [List.getElem?_cons_zero, Option.some.injEq] at h
      rw [List.set_cons_zero, h]
    | succ i =>
      simp only [List.getElem?_cons_succ] at h
      rw [List.set_cons_succ, ih i h]

omit [LinearOrderedField α] [FloorRing α] in
theorem eq_of_getElem?_set {β : Type} (l : List β) (i : ℕ) (v w : β)
    (h : (l.set i v)[i]? = some w) : w = v := by
  rw [List.getElem?_set] at h
  simp only [if_true] at h
  split at h
  · exact (Option.some.inj h).symm
  · exact absurd h (by simp)

omit [FloorRing α] in
theorem selected_one_of_selected (s d : α) (h : selected s d) : selected (edgeWeight 0 d) d := by
  unfold selected edgeWeight at *
  rw [if_neg (by decide)]
  exact ⟨by norm_num, h.2⟩

/-- The body of the edge loop in iteration 0 writes the cached pair of index `i` and the
selection clouds; run in any iteration on a state that caches the same pair for `i`, it
returns, leaves the caches as they are and selects the point only if iteration 0 did. -/
theorem edgeStep_sim (lm : Libm α) (ext : External α) (s : BasicLaserOdometry α)
    (x1 x2 y1 y2 y3 : List ℤ) (LA CA : PointCloud α) (i : ℕ) (a' : BasicLaserOdometry α)
    (h : edgeStep lm ext 0 (withCaches s x1 x2 y1 y2 y3 LA CA) i = some a') :
    ∃ x1' x2' LA' CA', a' = withCaches s x1' x2' y1 y2 y3 LA' CA' ∧
      (∀ j, j ≠ i → x1'[j]? = x1[j]? ∧ x2'[j]? = x2[j]?) ∧
      ∀ (k : ℕ) (c1 c2 z1 z2 z3 : List ℤ) (L C : PointCloud α),
        c1[i]? = x1'[i]? → c2[i]? = x2'[i]? →
        ∃ L' C', edgeStep lm ext k (withCaches s c1 c2 z1 z2 z3 L C) i
            = some (withCaches s c1 c2 z1 z2 z3 L' C') ∧
          L'.length + LA.length ≤ LA'.length + L.length := by
  unfold edgeStep at h
  split at h
  · exact absurd h (by simp)
  · rename_i pi hpi
    simp only [Option.bind_eq_some] at h
    obtain ⟨st1, hs, h⟩ := h
    rw [if_pos (by decide)] at hs
    simp only [Option.map_eq_some'] at hs
    obtain ⟨r, hr, hst1⟩ := hs
    subst hst1
    have hpi' : s.cornerPointsSharp[i]? = some pi := hpi
    have hr' : edgeSearch s.lastCornerCloud s.cornerPointsSharp.length
        (transformToStart lm s pi)
        (ext.nearestKSearch s.lastCornerKDTree (transformToStart lm s pi)).1
        (ext.nearestKSearch s.lastCornerKDTree (transformToStart lm s pi)).2 = some r := hr
    split at h
    · rename_i ind1 ind2 h1 h2
      have h1' : (x1.set i r.1)[i]? = some ind1 := h1
      have h2' : (x2.set i r.2)[i]? = some ind2 := h2
      have e1 : ind1 = r.1 := eq_of_getElem?_set _ _ _ _ h1'
      have e2 : ind2 = r.2 := eq_of_getElem?_set _ _ _ _ h2'
      have hB : ∀ (k : ℕ) (B : BasicLaserOdometry α) (c1 c2 z1 z2 z3 : List ℤ)
          (L C : PointCloud α), B = withCaches s c1 c2 z1 z2 z3 L C →
          c1[i]? = some ind1 → c2[i]? = some ind2 →
          edgeStep lm ext k B i =
            if ind2 ≥ 0 then
              if ind1 < 0 then none
              else
                match s.lastCornerCloud[ind1.toNat]?, s.lastCornerCloud[ind2.toNat]? with
                | some tripod1, some tripod2 =>
                  if selected
                      (edgeWeight k (edgeResidual lm (transformToStart lm s pi)
                        tripod1 tripod2).2.2.2)
                      (edgeResidual lm (transformToStart lm s pi) tripod1 tripod2).2.2.2 then
                    some (withCaches s c1 c2 z1 z2 z3 (L ++ [pi])
                      (C ++ [weightedCoeff
                        (edgeWeight k (edgeResidual lm (transformToStart lm s pi)
                          tripod1 tripod2).2.2.2)
                        (edgeResidual lm (transformToStart lm s pi) tripod1 tripod2).1
                        (edgeResidual lm (transformToStart lm s pi) tripod1 tripod2).2.1
                        (edgeResidual lm (transformToStart lm s pi) tripod1 tripod2).2.2.1
                        (edgeResidual lm (transformToStart lm s pi) tripod1 tripod2).2.2.2]))
                  else some (withCaches s c1 c2 z1 z2 z3 L C)
                | _, _ => none
            else some (withCaches s c1 c2 z1 z2 z3 L C) := by
        intro k B c1 c2 z1 z2 z3 L C hBdef g1 g2
        have hpB : B.cornerPointsSharp[i]? = some pi := by rw [hBdef]; exact hpi'
        have g1' : B.pointSearchCornerInd1[i]? = some ind1 := by rw [hBdef]; exact g1
        have g2' : B.pointSearchCornerInd2[i]? = some ind2 := by rw [hBdef]; exact g2
        have hsearch : (if k % 5 = 0 then
            (edgeSearch B.lastCornerCloud B.cornerPointsSharp.length
              (transformToStart lm B pi)
              (ext.nearestKSearch B.lastCornerKDTree (transformToStart lm B pi)).1
              (ext.nearestKSearch B.lastCornerKDTree (transformToStart lm B pi)).2).map
                fun r =>
              { B with
                pointSearchCornerInd1 := B.pointSearchCornerInd1.set i r.1
                pointSearchCornerInd2 := B.pointSearchCornerInd2.set i r.2 }
          else some B) = some B := by
          split
          · have hr2 : edgeSearch B.lastCornerCloud B.cornerPointsSharp.length
                (transformToStart lm B pi)
                (ext.nearestKSearch B.lastCornerKDTree (transformToStart lm B pi)).1
                (ext.nearestKSearch B.lastCornerKDTree (transformToStart lm B pi)).2
                = some r := by
              rw [hBdef]
              exact hr
            rw [hr2]
            simp only [Option.map_some', Option.some.injEq]
            have q1 : B.pointSearchCornerInd1.set i r.1 = B.pointSearchCornerInd1 :=
              set_eq_self_of_getElem? _ _ _ (by rw [g1', e1])
            have q2 : B.pointSearchCornerInd2.set i r.2 = B.pointSearchCornerInd2 :=
              set_eq_self_of_getElem? _ _ _ (by rw [g2', e2])
            rw [q1, q2]
          · rfl
        unfold edgeStep
        simp only [hpB, hsearch, Option.some_bind, g1', g2']
        rw [hBdef]
        rfl
      by_cases hge : ind2 ≥ 0
      · rw [if_pos hge] at h
        by_cases hneg : ind1 < 0
        · rw [if_pos hneg] at h
          exact absurd h (by simp)
        · rw [if_neg hneg] at h
          split at h
          · rename_i tripod1 tripod2 ht1 ht2
            have ht1' : s.lastCornerCloud[ind1.toNat]? = some tripod1 := ht1
            have ht2' : s.lastCornerCloud[ind2.toNat]? = some tripod2 := ht2
            split at h
            · rename_i hsel
              simp only [Option.some.injEq] at h
              subst h
              refine ⟨x1.set i r.1, x2.set i r.2, LA ++ [pi], _, rfl, ?_, ?_⟩
              · intro j hj
                exact ⟨List.getElem?_set_ne (Ne.symm hj), List.getElem?_set_ne (Ne.symm hj)⟩
              · intro k c1 c2 z1 z2 z3 L C g1 g2
                rw [hB k _ c1 c2 z1 z2 z3 L C rfl (g1.trans h1') (g2.trans h2'),
                  if_pos hge, if_neg hneg, ht1', ht2']
                simp only
                split
                · exact ⟨_, _, rfl, by simp only [List.length_append, List.length_singleton]; omega⟩
                · exact ⟨_, _, rfl, by simp only [List.length_append, List.length_singleton]; omega⟩
            · rename_i hsel
              simp only [Option.some.injEq] at h
              subst h
              refine ⟨x1.set i r.1, x2.set i r.2, LA, CA, rfl, ?_, ?_⟩
              · intro j hj
                exact ⟨List.getElem?_set_ne (Ne.symm hj), List.getElem?_set_ne (Ne.symm hj)⟩
              · intro k c1 c2 z1 z2 z3 L C g1 g2
                rw [hB k _ c1 c2 z1 z2 z3 L C rfl (g1.trans h1') (g2.trans h2'),
                  if_pos hge, if_neg hneg, ht1', ht2']
                simp only
                split
                · rename_i hselk
                  exact absurd (selected_one_of_selected _ _ hselk) hsel
                · exact ⟨_, _, rfl, by omega⟩
          · exact absurd h (by simp)
      · rw [if_neg hge] at h
        simp only [Option.some.injEq] at h
        subst h
        refine ⟨x1.set i r.1, x2.set i r.2, LA, CA, rfl, ?_, ?_⟩
        · intro j hj
          exact ⟨List.getElem?_set_ne (Ne.symm hj), List.getElem?_set_ne (Ne.symm hj)⟩
        · intro k c1 c2 z1 z2 z3 L C g1 g2
          rw [hB k _ c1 c2 z1 z2 z3 L C rfl (g1.trans h1') (g2.trans h2'), if_neg hge]
          exact ⟨_, _, rfl, by omega⟩
    · exact absurd h (by simp)

omit [FloorRing α] in
theorem selected_planeWeight_zero (lm : Libm α) (p : PointXYZI α) (s d : α)
    (h : selected s d) : selected (planeWeight lm 0 p d) d := by
  unfold selected planeWeight at *
  rw [if_neg (by decide)]
  exact ⟨by norm_num, h.2⟩

/-- The body of the planar loop in iteration 0 writes the cached triple of index `i` and
the selection clouds; run in any iteration on a state that caches the same triple for `i`,
it returns, leaves the caches as they are and selects the point only if iteration 0 did. -/
theorem surfStep_sim (lm : Libm α) (ext : External α) (s : BasicLaserOdometry α)
    (x1 x2 y1 y2 y3 : List ℤ) (LA CA : PointCloud α) (i : ℕ) (a' : BasicLaserOdometry α)
    (h : surfStep lm ext 0 (withCaches s x1 x2 y1 y2 y3 LA CA) i = some a') :
    ∃ y1' y2' y3' LA' CA', a' = withCaches s x1 x2 y1' y2' y3' LA' CA' ∧
      (∀ j, j ≠ i → y1'[j]? = y1[j]? ∧ y2'[j]? = y2[j]? ∧ y3'[j]? = y3[j]?) ∧
      ∀ (k : ℕ) (z1 z2 c1 c2 c3 : List ℤ) (L C : PointCloud α),
        c1[i]? = y1'[i]? → c2[i]? = y2'[i]? → c3[i]? = y3'[i]? →
        ∃ L' C', surfStep lm ext k (withCaches s z1 z2 c1 c2 c3 L C) i
            = some (withCaches s z1 z2 c1 c2 c3 L' C') ∧
          L'.length + LA.length ≤ LA'.length + L.length := by
  unfold surfStep at h
  split at h
  · exact absurd h (by simp)
  · rename_i pi hpi
    simp only [Option.bind_eq_some] at h
    obtain ⟨st1, hs, h⟩ := h
    rw [if_pos (by decide)] at hs
    simp only [Option.map_eq_some'] at hs
    obtain ⟨r, hr, hst1⟩ := hs
    subst hst1
    have hpi' : s.surfPointsFlat[i]? = some pi := hpi
    split at h
    · rename_i ind1 ind2 ind3 h1 h2 h3
      have h1' : (y1.set i r.1)[i]? = some ind1 := h1
      have h2' : (y2.set i r.2.1)[i]? = some ind2 := h2
      have h3' : (y3.set i r.2.2)[i]? = some ind3 := h3
      have e1 : ind1 = r.1 := eq_of_getElem?_set _ _ _ _ h1'
      have e2 : ind2 = r.2.1 := eq_of_getElem?_set _ _ _ _ h2'
      have e3 : ind3 = r.2.2 := eq_of_getElem?_set _ _ _ _ h3'
      have hB : ∀ (k : ℕ) (B : BasicLaserOdometry α) (z1 z2 c1 c2 c3 : List ℤ)
          (L C : PointCloud α), B = withCaches s z1 z2 c1 c2 c3 L C →
          c1[i]? = some ind1 → c2[i]? = some ind2 → c3[i]? = some ind3 →
          surfStep lm ext k B i =
            if ind2 ≥ 0 ∧ ind3 ≥ 0 then
              if ind1 < 0 then none
              else
                match s.lastSurfaceCloud[ind1.toNat]?, s.lastSurfaceCloud[ind2.toNat]?,
                  s.lastSurfaceCloud[ind3.toNat]? with
                | some tripod1, some tripod2, some tripod3 =>
                  if selected
                      (planeWeight lm k (transformToStart lm s pi)
                        (planeResidual lm (transformToStart lm s pi)
                          tripod1 tripod2 tripod3).2.2.2)
                      (planeResidual lm (transformToStart lm s pi)
                        tripod1 tripod2 tripod3).2.2.2 then
                    some (withCaches s z1 z2 c1 c2 c3 (L ++ [pi])
                      (C ++ [weightedCoeff
                        (planeWeight lm k (transformToStart lm s pi)
                          (planeResidual lm (transformToStart lm s pi)
                            tripod1 tripod2 tripod3).2.2.2)
                        (planeResidual lm (transformToStart lm s pi)
                          tripod1 tripod2 tripod3).1
                        (planeResidual lm (transformToStart lm s pi)
                          tripod1 tripod2 tripod3).2.1
                        (planeResidual lm (transformToStart lm s pi)
                          tripod1 tripod2 tripod3).2.2.1
                        (planeResidual lm (transformToStart lm s pi)
                          tripod1 tripod2 tripod3).2.2.2]))
                  else some (withCaches s z1 z2 c1 c2 c3 L C)
                | _, _, _ => none
            else some (withCaches s z1 z2 c1 c2 c3 L C) := by
        intro k B z1 z2 c1 c2 c3 L C hBdef g1 g2 g3
        have hpB : B.surfPointsFlat[i]? = some pi := by rw [hBdef]; exact hpi'
        have g1' : B.pointSearchSurfInd1[i]? = some ind1 := by rw [hBdef]; exact g1
        have g2' : B.pointSearchSurfInd2[i]? = some ind2 := by rw [hBdef]; exact g2
        have g3' : B.pointSearchSurfInd3[i]? = some ind3 := by rw [hBdef]; exact g3
        have hsearch : (if k % 5 = 0 then
            (planarSearch B.lastSurfaceCloud B.surfPointsFlat.length
              (transformToStart lm B pi)
              (ext.nearestKSearch B.lastSurfaceKDTree (transformToStart lm B pi)).1
              (ext.nearestKSearch B.lastSurfaceKDTree (transformToStart lm B pi)).2).map
                fun r =>
              { B with
                pointSearchSurfInd1 := B.pointSearchSurfInd1.set i r.1
                pointSearchSurfInd2 := B.pointSearchSurfInd2.set i r.2.1
                pointSearchSurfInd3 := B.pointSearchSurfInd3.set i r.2.2 }
          else some B) = some B := by
          split
          · have hr2 : planarSearch B.lastSurfaceCloud B.surfPointsFlat.length
                (transformToStart lm B pi)
                (ext.nearestKSearch B.lastSurfaceKDTree (transformToStart lm B pi)).1
                (ext.nearestKSearch B.lastSurfaceKDTree (transformToStart lm B pi)).2
                = some r := by
              rw [hBdef]
              exact hr
            rw [hr2]
            simp only [Option.map_some', Option.some.injEq]
            have q1 : B.pointSearchSurfInd1.set i r.1 = B.pointSearchSurfInd1 :=
              set_eq_self_of_getElem? _ _ _ (by rw [g1', e1])
            have q2 : B.pointSearchSurfInd2.set i r.2.1 = B.pointSearchSurfInd2 :=
              set_eq_self_of_getElem? _ _ _ (by rw [g2', e2])
            have q3 : B.pointSearchSurfInd3.set i r.2.2 = B.pointSearchSurfInd3 :=
              set_eq_self_of_getElem? _ _ _ (by rw [g3', e3])
            rw [q1, q2, q3]
          · rfl
        unfold surfStep
        simp only [hpB, hsearch, Option.some_bind, g1', g2', g3']
        rw [hBdef]
        rfl
      have hother : ∀ j, j ≠ i → (y1.set i r.1)[j]? = y1[j]? ∧
          (y2.set i r.2.1)[j]? = y2[j]? ∧ (y3.set i r.2.2)[j]? = y3[j]? := by
        intro j hj
        exact ⟨List.getElem?_set_ne (Ne.symm hj), List.getElem?_set_ne (Ne.symm hj),
          List.getElem?_set_ne (Ne.symm hj)⟩
      by_cases hge : ind2 ≥ 0 ∧ ind3 ≥ 0
      · rw [if_pos hge] at h
        by_cases hneg : ind1 < 0
        · rw [if_pos hneg] at h
          exact absurd h (by simp)
        · rw [if_neg hneg] at h
          split at h
          · rename_i tripod1 tripod2 tripod3 ht1 ht2 ht3
            have ht1' : s.lastSurfaceCloud[ind1.toNat]? = some tripod1 := ht1
            have ht2' : s.lastSurfaceCloud[ind2.toNat]? = some tripod2 := ht2
            have ht3' : s.lastSurfaceCloud[ind3.toNat]? = some tripod3 := ht3
            split at h
            · rename_i hsel
              simp only [Option.some.injEq] at h
              subst h
              refine ⟨y1.set i r.1, y2.set i r.2.1, y3.set i r.2.2, LA ++ [pi], _, rfl,
                hother, ?_⟩
              intro k z1 z2 c1 c2 c3 L C g1 g2 g3
              rw [hB k _ z1 z2 c1 c2 c3 L C rfl (g1.trans h1') (g2.trans h2') (g3.trans h3'),
                if_pos hge, if_neg hneg, ht1', ht2', ht3']
              simp only
              split
              · exact ⟨_, _, rfl,
                  by simp only [List.length_append, List.length_singleton]; omega⟩
              · exact ⟨_, _, rfl,
                  by simp only [List.length_append, List.length_singleton]; omega⟩
            · rename_i hsel
              simp only [Option.some.injEq] at h
              subst h
              refine ⟨y1.set i r.1, y2.set i r.2.1, y3.set i r.2.2, LA, CA, rfl,
                hother, ?_⟩
              intro k z1 z2 c1 c2 c3 L C g1 g2 g3
              rw [hB k _ z1 z2 c1 c2 c3 L C rfl (g1.trans h1') (g2.trans h2') (g3.trans h3'),
                if_pos hge, if_neg hneg, ht1', ht2', ht3']
              simp only
              split
              · rename_i hselk
                exact absurd (selected_planeWeight_zero lm _ _ _ hselk) hsel
              · exact ⟨_, _, rfl, by omega⟩
          · exact absurd h (by simp)
      · rw [if_neg hge] at h
        simp only [Option.some.injEq] at h
        subst h
        refine ⟨y1.set i r.1, y2.set i r.2.1, y3.set i r.2.2, LA, CA, rfl, hother, ?_⟩
        intro k z1 z2 c1 c2 c3 L C g1 g2 g3
        rw [hB k _ z1 z2 c1 c2 c3 L C rfl (g1.trans h1') (g2.trans h2') (g3.trans h3'),
          if_neg hge]
        exact ⟨_, _, rfl, by omega⟩
    · exact absurd h (by simp)

/-- The edge loop of iteration 0 over the first `m` sharp points, compared with the edge
loop of any iteration on a state that caches the pairs iteration 0 has written. -/
theorem edgeFold_sim (lm : Libm α) (ext : External α) (s : BasicLaserOdometry α)
    (x1 x2 y1 y2 y3 : List ℤ) (LA CA : PointCloud α) :
    ∀ (m : ℕ) (a' : BasicLaserOdometry α),
      (List.range m).foldlM (edgeStep lm ext 0) (withCaches s x1 x2 y1 y2 y3 LA CA) = some a' →
      ∃ x1' x2' LA' CA', a' = withCaches s x1' x2' y1 y2 y3 LA' CA' ∧
        ∀ (k : ℕ) (c1 c2 z1 z2 z3 : List ℤ) (L C : PointCloud α),
          (∀ j, j < m → c1[j]? = x1'[j]? ∧ c2[j]? = x2'[j]?) →
          ∃ L' C', (List.range m).foldlM (edgeStep lm ext k) (withCaches s c1 c2 z1 z2 z3 L C)
              = some (withCaches s c1 c2 z1 z2 z3 L' C') ∧
            L'.length + LA.length ≤ LA'.length + L.length := by
  intro m
  induction m with
  | zero =>
    intro a' h
    simp only [List.range_zero, List.foldlM, pure, Option.some.injEq] at h
    subst h
    refine ⟨x1, x2, LA, CA, rfl, fun k c1 c2 z1 z2 z3 L C _ => ⟨L, C, rfl, by omega⟩⟩
  | succ m ih =>
    intro a' h
    rw [List.range_succ, List.foldlM_append] at h
    simp only [bind, Option.bind_eq_some] at h
    obtain ⟨am, hm, hstep⟩ := h
    obtain ⟨x1m, x2m, LAm, CAm, rfl, hsim⟩ := ih am hm
    simp only [List.foldlM, bind, pure, Option.bind_eq_some] at hstep
    obtain ⟨a2, hstep, ha2⟩ := hstep
    simp only [Option.some.injEq] at ha2
    subst ha2
    obtain ⟨x1', x2', LA', CA', rfl, hoth, hsim2⟩ := edgeStep_sim lm ext s x1m x2m y1 y2 y3
      LAm CAm m _ hstep
    refine ⟨x1', x2', LA', CA', rfl, ?_⟩
    intro k c1 c2 z1 z2 z3 L C hc
    obtain ⟨Lm, Cm, hfm, hlm⟩ := hsim k c1 c2 z1 z2 z3 L C (fun j hj => by
      obtain ⟨o1, o2⟩ := hoth j (by omega)
      obtain ⟨p1, p2⟩ := hc j (by omega)
      exact ⟨p1.trans o1, p2.trans o2⟩)
    obtain ⟨L', C', hf2, hl2⟩ := hsim2 k c1 c2 z1 z2 z3 Lm Cm (hc m (by omega)).1
      (hc m (by omega)).2
    refine ⟨L', C', ?_, by omega⟩
    rw [List.range_succ, List.foldlM_append, hfm]
    simp only [bind, Option.some_bind, List.foldlM, pure, hf2]

/-- The planar loop of iteration 0 over the first `m` flat points, compared with the planar
loop of any iteration on a state that caches the triples iteration 0 has written. -/
theorem surfFold_sim (lm : Libm α) (ext : External α) (s : BasicLaserOdometry α)
    (x1 x2 y1 y2 y3 : List ℤ) (LA CA : PointCloud α) :
    ∀ (m : ℕ) (a' : BasicLaserOdometry α),
      (List.range m).foldlM (surfStep lm ext 0) (withCaches s x1 x2 y1 y2 y3 LA CA) = some a' →
      ∃ y1' y2' y3' LA' CA', a' = withCaches s x1 x2 y1' y2' y3' LA' CA' ∧
        ∀ (k : ℕ) (z1 z2 c1 c2 c3 : List ℤ) (L C : PointCloud α),
          (∀ j, j < m → c1[j]? = y1'[j]? ∧ c2[j]? = y2'[j]? ∧ c3[j]? = y3'[j]?) →
          ∃ L' C', (List.range m).foldlM (surfStep lm ext k) (withCaches s z1 z2 c1 c2 c3 L C)
              = some (withCaches s z1 z2 c1 c2 c3 L' C') ∧
            L'.length + LA.length ≤ LA'.length + L.length := by
  intro m
  induction m with
  | zero =>
    intro a' h
    simp only [List.range_zero, List.foldlM, pure, Option.some.injEq] at h
    subst h
    refine ⟨y1, y2, y3, LA, CA, rfl, fun k z1 z2 c1 c2 c3 L C _ => ⟨L, C, rfl, by omega⟩⟩
  | succ m ih =>
    intro a' h
    rw [List.range_succ, List.foldlM_append] at h
    simp only [bind, Option.bind_eq_some] at h
    obtain ⟨am, hm, hstep⟩ := h
    obtain ⟨y1m, y2m, y3m, LAm, CAm, rfl, hsim⟩ := ih am hm
    simp only [List.foldlM, bind, pure, Option.bind_eq_some] at hstep
    obtain ⟨a2, hstep, ha2⟩ := hstep
    simp only [Option.some.injEq] at ha2
    subst ha2
    obtain ⟨y1', y2', y3', LA', CA', rfl, hoth, hsim2⟩ := surfStep_sim lm ext s x1 x2
      y1m y2m y3m LAm CAm m _ hstep
    refine ⟨y1', y2', y3', LA', CA', rfl, ?_⟩
    intro k z1 z2 c1 c2 c3 L C hc
    obtain ⟨Lm, Cm, hfm, hlm⟩ := hsim k z1 z2 c1 c2 c3 L C (fun j hj => by
      obtain ⟨o1, o2, o3⟩ := hoth j (by omega)
      obtain ⟨p1, p2, p3⟩ := hc j (by omega)
      exact ⟨p1.trans o1, p2.trans o2, p3.trans o3⟩)
    obtain ⟨L', C', hf2, hl2⟩ := hsim2 k z1 z2 c1 c2 c3 Lm Cm (hc m (by omega)).1
      (hc m (by omega)).2.1 (hc m (by omega)).2.2
    refine ⟨L', C', ?_, by omega⟩
    rw [List.range_succ, List.foldlM_append, hfm]
    simp only [bind, Option.some_bind, List.foldlM, pure, hf2]

/-- The state after the assembly of iteration 0 has the caches with which the assembly of
every iteration returns, changes only the selection clouds and selects no more
correspondences than iteration 0 did. -/
theorem assemble_sim (lm : Libm α) (ext : External α) (st st0 : BasicLaserOdometry α)
    (h : assemble lm ext 0 st = some st0) :
    ∀ (k : ℕ) (L C : PointCloud α),
      ∃ L' C', assemble lm ext k { st0 with laserCloudOri := L, coeffSel := C }
          = some { st0 with laserCloudOri := L', coeffSel := C' } ∧
        L'.length ≤ st0.laserCloudOri.length := by
  unfold assemble at h
  simp only [Option.bind_eq_some] at h
  obtain ⟨a1, he, hs⟩ := h
  have he' : (List.range st.cornerPointsSharp.length).foldlM (edgeStep lm ext 0)
      (withCaches st st.pointSearchCornerInd1 st.pointSearchCornerInd2 st.pointSearchSurfInd1
        st.pointSearchSurfInd2 st.pointSearchSurfInd3 [] []) = some a1 := he
  obtain ⟨x1, x2, LA1, CA1, rfl, hsimE⟩ := edgeFold_sim lm ext st _ _ _ _ _ _ _ _ _ he'
  have hs' : (List.range st.surfPointsFlat.length).foldlM (surfStep lm ext 0)
      (withCaches st x1 x2 st.pointSearchSurfInd1 st.pointSearchSurfInd2
        st.pointSearchSurfInd3 LA1 CA1) = some st0 := hs
  obtain ⟨y1, y2, y3, LA2, CA2, rfl, hsimS⟩ := surfFold_sim lm ext st _ _ _ _ _ _ _ _ _ hs'
  intro k L C
  obtain ⟨L1, C1, hf1, hl1⟩ := hsimE k x1 x2 y1 y2 y3 [] [] (fun j _ => ⟨rfl, rfl⟩)
  obtain ⟨L2, C2, hf2, hl2⟩ := hsimS k x1 x2 y1 y2 y3 L1 C1 (fun j _ => ⟨rfl, rfl, rfl⟩)
  refine ⟨L2, C2, ?_, ?_⟩
  · unfold assemble
    have hf1' : (List.range ({ withCaches st x1 x2 y1 y2 y3 LA2 CA2 with
          laserCloudOri := L, coeffSel := C } : BasicLaserOdometry α).cornerPointsSharp.length).foldlM
        (edgeStep lm ext k)
        { ({ withCaches st x1 x2 y1 y2 y3 LA2 CA2 with
          laserCloudOri := L, coeffSel := C } : BasicLaserOdometry α) with
            laserCloudOri := [], coeffSel := [] }
        = some (withCaches st x1 x2 y1 y2 y3 L1 C1) := hf1
    simp only [hf1', Option.some_bind]
    exact hf2
  · have e : (withCaches st x1 x2 y1 y2 y3 LA2 CA2).laserCloudOri = LA2 := rfl
    rw [e]
    simp only [List.length_nil] at hl1 hl2
    omega

/-- When iteration 0 of the solver loop selects fewer than 10 correspondences, so does
every later iteration: the transform is not updated, the searches of the iterations 5, 10,
... repeat the result of iteration 0, and the weights of the iterations from 5 on only
drop correspondences. -/
theorem allSkip_of_first (lm : Libm α) (ext : External α) (st st0 : BasicLaserOdometry α)
    (h : assemble lm ext 0 st = some st0) (hlt : st0.laserCloudOri.length < 10) :
    ∀ (fuel k : ℕ) (L C : PointCloud α) (deg : Bool) (P : Matrix (Fin 6) (Fin 6) α),
      AllSkip lm ext fuel k ⟨{ st0 with laserCloudOri := L, coeffSel := C }, deg, P⟩ := by
  intro fuel
  induction fuel with
  | zero => intro k L C deg P; trivial
  | succ fuel ih =>
    intro k L C deg P
    obtain ⟨L', C', ha, hl⟩ := assemble_sim lm ext st st0 h k L C
    exact ⟨_, ha, by
      have e : ({ st0 with laserCloudOri := L', coeffSel := C' } :
        BasicLaserOdometry α).laserCloudOri = L' := rfl
      rw [e]; omega, ih (k + 1) L' C' deg P⟩

/-- When iteration 0 selects fewer than 10 correspondences, every iteration of the call
does. -/
theorem everySkip_of_first (lm : Libm α) (ext : External α) (st st0 : BasicLaserOdometry α)
    (h0 : assemble lm ext 0 (solverStart (initialGuess st)).st = some st0)
    (hlt : st0.laserCloudOri.length < 10) : EverySkip lm ext st := by
  unfold EverySkip
  cases hm : st.maxIterations with
  | zero => trivial
  | succ fuel =>
    refine ⟨st0, h0, hlt, ?_⟩
    exact allSkip_of_first lm ext _ st0 h0 hlt fuel 1 st0.laserCloudOri st0.coeffSel false 0

/-- A solver loop whose iterations all skip consults neither the linear solver nor the
eigen-solver nor the matrix inverse. -/
theorem solverLoop_ext_of_allSkip (lm : Libm α) (ext : External α)
    (qr : Matrix (Fin 6) (Fin 6) α → (Fin 6 → α) → (Fin 6 → α))
    (es : Matrix (Fin 6) (Fin 6) α → (Fin 6 → α) × Matrix (Fin 6) (Fin 6) α)
    (inv : Matrix (Fin 6) (Fin 6) α → Matrix (Fin 6) (Fin 6) α) :
    ∀ (fuel k : ℕ) (ss : SolverState α), AllSkip lm ext fuel k ss →
      solverLoop lm { ext with qrSolve := qr, eigenSolver := es, inverse := inv } fuel k ss
        = solverLoop lm ext fuel k ss := by
  intro fuel
  induction fuel with
  | zero => intro k ss _; rfl
  | succ fuel ih =>
    intro k ss h
    obtain ⟨st1, ha, hlen, hrest⟩ := h
    have h1 := solverStep_skip lm ext k ss st1 ha hlen
    have h2 := solverStep_skip lm { ext with qrSolve := qr, eigenSolver := es, inverse := inv }
      k ss st1 ha hlen
    simp only [solverLoop, h1, h2]
    exact ih (k + 1) _ hrest

/-- The log of a solver loop whose iterations all skip: one entry per iteration of the
budget, each a `continue` that leaves `isDegenerate`, `matP` and everything but the
selection clouds and the cached indices as they were. -/
theorem solverTrace_of_allSkip (lm : Libm α) (ext : External α) :
    ∀ (fuel k : ℕ) (ss : SolverState α), AllSkip lm ext fuel k ss →
      ∃ tr, solverTrace lm ext fuel k ss = some tr ∧ tr.length = fuel ∧
        ∀ (i : ℕ) (e : SolverState α × Flow), tr[i]? = some e →
          e.2 = Flow.next ∧ e.1.isDegenerate = ss.isDegenerate ∧ e.1.matP = ss.matP ∧
            e.1.st.frame = ss.st.frame ∧ e.1.st.laserCloudOri.length < 10 := by
  intro fuel
  induction fuel with
  | zero =>
    intro k ss _
    refine ⟨[], rfl, rfl, fun i e he => ?_⟩
    simp at he
  | succ fuel ih =>
    intro k ss h
    obtain ⟨st1, ha, hlen, hrest⟩ := h
    obtain ⟨tr, htr, hl, hent⟩ := ih (k + 1) _ hrest
    have hstep := solverStep_skip lm ext k ss st1 ha hlen
    refine ⟨({ ss with st := st1 }, Flow.next) :: tr, ?_, by simp [hl], ?_⟩
    · simp only [solverTrace, hstep, htr, Option.map_some']
    · intro i e he
      cases i with
      | zero =>
        simp only [List.getElem?_cons_zero, Option.some.injEq] at he
        subst he
        exact ⟨rfl, rfl, rfl, assemble_frame lm ext k ss.st st1 ha, hlen⟩
      | succ i =>
        simp only [List.getElem?_cons_succ] at he
        obtain ⟨q1, q2, q3, q4, q5⟩ := hent i e he
        exact ⟨q1, q2, q3, q4.trans (assemble_frame lm ext k ss.st st1 ha), q5⟩


theorem edgeSearch_sparseExample :
    edgeSearch (sparseExample ℝ).lastCornerCloud 1 ⟨0, 1, 0, 0⟩ 1 1 = some (1, 0) := by
  have h0 : truncToInt (0 : ℝ) = 0 := by
    rw [truncToInt_of_nonneg le_rfl]
    simp
  have h1 : truncToInt (1 : ℝ) = 1 := by
    rw [truncToInt_of_nonneg zero_le_one]
    simp
  have hl : (sparseExample ℝ).lastCornerCloud
      = ⟨1, 0, 0, 0⟩ :: ⟨0, 0, 0, 1⟩ :: List.replicate 9 ⟨9, 9, 9, 1⟩ := rfl
  rw [hl]
  simp [edgeSearch, edgeForwardScan, edgeBackwardScan, ring, h0, h1, calcSquaredDiff]
  norm_num

theorem assemble_sparseExample (ext : External ℝ)
    (hnn : ext.nearestKSearch (sparseExample ℝ).lastCornerKDTree ⟨0, 1, 0, 0⟩ = (1, 1)) :
    ∃ st0, assemble realLibm ext 0 (solverStart (initialGuess (sparseExample ℝ))).st
        = some st0 ∧
      st0.laserCloudOri = [⟨0, 1, 0, 0⟩] ∧ st0.coeffSel = [⟨0, 1, 0, 1⟩] := by
  have h0 : truncToInt (0 : ℝ) = 0 := by
    rw [truncToInt_of_nonneg le_rfl]
    simp
  have hq : ∀ st : BasicLaserOdometry ℝ, st.transform = Twist.zero →
      transformToStart realLibm st ⟨0, 1, 0, 0⟩ = ⟨0, 1, 0, 0⟩ := by
    intro st ht
    simp [transformToStart, interpolationCoeff, h0, rotateZXY_zero, ht, Twist.zero]
  have hres : edgeResidual realLibm ⟨0, 1, 0, 0⟩ ⟨0, 0, 0, 1⟩ ⟨1, 0, 0, 0⟩ = (0, 1, 0, 1) := by
    simp [edgeResidual, realLibm]
  obtain ⟨S, hS⟩ : ∃ S, S = (solverStart (initialGuess (sparseExample ℝ))).st := ⟨_, rfl⟩
  have hc : S.cornerPointsSharp = [⟨0, 1, 0, 0⟩] := by rw [hS]; rfl
  have hf : S.surfPointsFlat = [] := by rw [hS]; rfl
  have hk : S.lastCornerKDTree = (sparseExample ℝ).lastCornerKDTree := by rw [hS]; rfl
  have hl : S.lastCornerCloud = (sparseExample ℝ).lastCornerCloud := by rw [hS]; rfl
  have hi1 : S.pointSearchCornerInd1 = [0] := by rw [hS]; rfl
  have hi2 : S.pointSearchCornerInd2 = [0] := by rw [hS]; rfl
  have ht : S.transform = Twist.zero := by
    rw [hS]
    simp [solverStart, initialGuess, sparseExample, BasicLaserOdometry.new, Twist.zero]
  have hl2 : (sparseExample ℝ).lastCornerCloud
      = ⟨1, 0, 0, 0⟩ :: ⟨0, 0, 0, 1⟩ :: List.replicate 9 ⟨9, 9, 9, 1⟩ := rfl
  have hstep : edgeStep realLibm ext 0 { S with laserCloudOri := [], coeffSel := [] } 0
      = some { S with
          pointSearchCornerInd1 := [1], pointSearchCornerInd2 := [0],
          laserCloudOri := [⟨0, 1, 0, 0⟩], coeffSel := [⟨0, 1, 0, 1⟩] } := by
    obtain ⟨T, hT⟩ : ∃ T : BasicLaserOdometry ℝ,
        T = { S with laserCloudOri := [], coeffSel := [] } := ⟨_, rfl⟩
    have hcT : T.cornerPointsSharp[0]? = some ⟨0, 1, 0, 0⟩ := by rw [hT]; simp [hc]
    have hnT : T.cornerPointsSharp.length = 1 := by rw [hT]; simp [hc]
    have hkT : T.lastCornerKDTree = (sparseExample ℝ).lastCornerKDTree := by rw [hT]; exact hk
    have hlT : T.lastCornerCloud = (sparseExample ℝ).lastCornerCloud := by rw [hT]; exact hl
    have hi1T : T.pointSearchCornerInd1 = [0] := by rw [hT]; exact hi1
    have hi2T : T.pointSearchCornerInd2 = [0] := by rw [hT]; exact hi2
    have hqT := hq T (by rw [hT]; exact ht)
    have ha : (sparseExample ℝ).lastCornerCloud[(1 : ℤ).toNat]? = some ⟨0, 0, 0, 1⟩ := rfl
    have hb : (sparseExample ℝ).lastCornerCloud[(0 : ℤ).toNat]? = some ⟨1, 0, 0, 0⟩ := rfl
    have hsel : selected (edgeWeight 0 (1 : ℝ)) 1 := by
      unfold selected edgeWeight
      rw [if_neg (by decide)]
      norm_num
    rw [← hT]
    unfold edgeStep
    simp only [hcT, hnT, hkT, hlT, hi1T, hi2T, hqT, hnn, edgeSearch_sparseExample,
      Nat.zero_mod, if_true, Option.map_some', Option.some_bind, List.set_cons_zero,
      List.getElem?_cons_zero, ha, hb, hres, hsel]
    rw [if_pos (le_refl _), if_neg (by decide)]
    subst hT
    have hw : weightedCoeff (edgeWeight 0 (1 : ℝ)) 0 1 0 1 = ⟨0, 1, 0, 1⟩ := by
      simp [weightedCoeff, edgeWeight]
    rw [hw, ← hl, ← hk]
    rfl
  rw [← hS]
  have e1 : List.range S.cornerPointsSharp.length = [0] := by rw [hc]; rfl
  have e2 : List.range S.surfPointsFlat.length = [] := by rw [hf]; rfl
  refine ⟨{ S with
    pointSearchCornerInd1 := [1], pointSearchCornerInd2 := [0],
    laserCloudOri := [⟨0, 1, 0, 0⟩], coeffSel := [⟨0, 1, 0, 1⟩] }, ?_, rfl, rfl⟩
  simp only [assemble, e1, e2, List.foldlM_cons, List.foldlM_nil, hstep, bind, pure,
    Option.some_bind]

end SimulationLemmas

/-! ## Degeneracy projection: auxiliary lemmas -/

section DegeneracyLemmas

variable {α : Type} [LinearOrderedField α]

theorem vec6_five {β : Type} (a b c d e f : β) : ![a, b, c, d, e, f] 5 = f := rfl

theorem eig_entry_zero {a e x : α} (h : a * x = x * e) (hne : a ≠ e) : x = 0 := by
  have h2 : (a - e) * x = 0 := by linear_combination h
  rcases mul_eq_zero.mp h2 with h3 | h3
  · exact absurd (sub_eq_zero.mp h3) hne
  · exact h3

theorem axisExampleDiag_injective (i j : Fin 6) (h : i ≠ j) :
    (axisExampleDiag i : α) ≠ axisExampleDiag j := by
  fin_cases i <;> fin_cases j <;> first
    | exact absurd rfl h
    | (simp only [axisExampleDiag]; norm_num)


/-- For every output of an eigen-solver on `axisExampleAtA` that is an orthonormal
eigen-decomposition with ascending eigenvalues: the eigenvalues 1, 100, 400 come first,
the eigenvectors of columns 0 and 1 are supported on the axes 1 and 2, and row 0 of `matV`
is supported on column 2. -/
theorem axisExample_eigen (E : Fin 6 → α) (V : Matrix (Fin 6) (Fin 6) α)
    (heig : axisExampleAtA * V = V * Matrix.diagonal E)
    (horth : V.transpose * V = 1)
    (hasc : ∀ i j : Fin 6, i ≤ j → E i ≤ E j) :
    E 0 = 1 ∧ E 1 = 100 ∧ E 2 = 400 ∧
    (∀ i, i ≠ 1 → V i 0 = 0) ∧ V 1 0 * V 1 0 = 1 ∧
    (∀ i, i ≠ 2 → V i 1 = 0) ∧ V 2 1 * V 2 1 = 1 ∧
    (∀ j, j ≠ 2 → V 0 j = 0) ∧ V 0 2 * V 0 2 = 1 := by
  have heq : ∀ i j, axisExampleDiag i * V i j = V i j * E j := by
    intro i j
    have h := congrFun (congrFun heig i) j
    simpa [axisExampleAtA, Matrix.diagonal_mul, Matrix.mul_diagonal] using h
  have hcol : ∀ j k, ∑ i, V i j * V i k = if j = k then 1 else 0 := by
    intro j k
    have h := congrFun (congrFun horth j) k
    simpa [Matrix.mul_apply, Matrix.one_apply] using h
  have hz : ∀ i j, axisExampleDiag i ≠ E j → V i j = 0 := fun i j h =>
    eig_entry_zero (heq i j) h
  have hsupp : ∀ i0 j, axisExampleDiag i0 = E j → ∀ i, i ≠ i0 → V i j = 0 := by
    intro i0 j h i hi
    exact hz i j (by rw [← h]; exact axisExampleDiag_injective i i0 hi)
  have hsum : ∀ i0 j k, axisExampleDiag i0 = E j →
      ∑ i, V i j * V i k = V i0 j * V i0 k := by
    intro i0 j k h
    refine Finset.sum_eq_single i0 (fun i _ hi => ?_) (fun hn => absurd (Finset.mem_univ _) hn)
    rw [hsupp i0 j h i hi, zero_mul]
  have hunit : ∀ i0 j, axisExampleDiag i0 = E j → V i0 j * V i0 j = 1 := by
    intro i0 j h
    rw [← hsum i0 j j h, hcol j j, if_pos rfl]
  have hmem : ∀ j, ∃ i0, axisExampleDiag i0 = E j := by
    intro j
    by_contra hn
    push_neg at hn
    have h := hcol j j
    rw [if_pos rfl] at h
    have h0 : ∑ i, V i j * V i j = 0 :=
      Finset.sum_eq_zero (fun i _ => by rw [hz i j (hn i), zero_mul])
    rw [h0] at h
    exact zero_ne_one h
  have hinj : ∀ j k, j ≠ k → E j ≠ E k := by
    intro j k hjk he
    obtain ⟨i0, hi0⟩ := hmem j
    have h1 := hunit i0 j hi0
    have h2 := hunit i0 k (hi0.trans he)
    have h3 := hcol j k
    rw [if_neg hjk, hsum i0 j k hi0] at h3
    rcases mul_eq_zero.mp h3 with h4 | h4
    · rw [h4, zero_mul] at h1
      exact zero_ne_one h1
    · rw [h4, zero_mul] at h2
      exact zero_ne_one h2
  have hlt : ∀ j k : Fin 6, j < k → E j < E k := fun j k h =>
    lt_of_le_of_ne (hasc j k h.le) (hinj j k h.ne)
  have hval : ∀ j, E j = 400 ∨ E j = 1 ∨ E j = 100 ∨ E j = 900 ∨ E j = 1600 ∨ E j = 2500 := by
    intro j
    obtain ⟨i0, hi0⟩ := hmem j
    rw [← hi0]
    fin_cases i0
    · exact Or.inl rfl
    · exact Or.inr (Or.inl rfl)
    · exact Or.inr (Or.inr (Or.inl rfl))
    · exact Or.inr (Or.inr (Or.inr (Or.inl rfl)))
    · exact Or.inr (Or.inr (Or.inr (Or.inr (Or.inl rfl))))
    · exact Or.inr (Or.inr (Or.inr (Or.inr (Or.inr rfl))))
  have l01 := hlt 0 1 (by decide)
  have l12 := hlt 1 2 (by decide)
  have l23 := hlt 2 3 (by decide)
  have l34 := hlt 3 4 (by decide)
  have l45 := hlt 4 5 (by decide)
  have b5 : E 5 ≤ 2500 := by rcases hval 5 with h | h | h | h | h | h <;> linarith
  have b4 : E 4 ≤ 1600 := by rcases hval 4 with h | h | h | h | h | h <;> linarith
  have b3 : E 3 ≤ 900 := by rcases hval 3 with h | h | h | h | h | h <;> linarith
  have b2 : E 2 ≤ 400 := by rcases hval 2 with h | h | h | h | h | h <;> linarith
  have b1 : E 1 ≤ 100 := by rcases hval 1 with h | h | h | h | h | h <;> linarith
  have e0 : E 0 = 1 := by rcases hval 0 with h | h | h | h | h | h <;> linarith
  have e1 : E 1 = 100 := by rcases hval 1 with h | h | h | h | h | h <;> linarith
  have e2 : E 2 = 400 := by rcases hval 2 with h | h | h | h | h | h <;> linarith
  have d0 : (axisExampleDiag 1 : α) = E 0 := by rw [e0]; simp [axisExampleDiag]
  have d1 : (axisExampleDiag 2 : α) = E 1 := by rw [e1]; simp [axisExampleDiag]
  have d2 : (axisExampleDiag 0 : α) = E 2 := by rw [e2]; simp [axisExampleDiag]
  refine ⟨e0, e1, e2, hsupp 1 0 d0, hunit 1 0 d0, hsupp 2 1 d1, hunit 2 1 d1, ?_,
    hunit 0 2 d2⟩
  intro j hj
  exact hz 0 j (by rw [d2]; exact hinj 2 j (Ne.symm hj))


end DegeneracyLemmas

/-! ## Cold start -/

/-- C1: the first `process()` call on an odometry that is not yet initialised and whose
`transformSum` is zero and `frameCount` is 0 returns, leaves `transform` unchanged, ends
with `transformSum.rotX = imuPitchStart`, `transformSum.rotZ = imuRollStart`,
`transformSum.rotY = 0` and `transformSum.pos = 0`, marks the system initialised and leaves
`frameCount` at 0, whatever the feature clouds and the IMU packet are. -/
theorem process_cold_start {α : Type} [LinearOrderedField α] [FloorRing α]
    (lm : Libm α) (ext : External α) (st : BasicLaserOdometry α)
    (hinit : st.systemInited = false)
    (hsum : st.transformSum = Twist.zero) (hfc : st.frameCount = 0) :
    ∃ st1, process lm ext st = some st1 ∧ st1.transform = st.transform ∧
      st1.transformSum.rot_x = st.imuPitchStart ∧
      st1.transformSum.rot_z = st.imuRollStart ∧
      st1.transformSum.rot_y = 0 ∧ st1.transformSum.pos = ⟨0, 0, 0⟩ ∧
      st1.systemInited = true ∧ st1.frameCount = 0 := by
  simp [process, hinit, hsum, hfc, Twist.zero]

/-- Witness for C1: the cold start of a freshly constructed odometry with clouds and an
IMU packet set. -/
theorem process_cold_start_witness :
    coldStartExample.systemInited = false ∧ coldStartExample.transform = Twist.zero ∧
    coldStartExample.transformSum = Twist.zero ∧ coldStartExample.frameCount = 0 ∧
    ∀ (lm : Libm ℚ) (ext : External ℚ),
      ∃ st1, process lm ext coldStartExample = some st1 ∧ st1.transform = Twist.zero ∧
        st1.transformSum.rot_x = 1 / 5 ∧ st1.transformSum.rot_z = -1 / 7 ∧
        st1.transformSum.rot_y = 0 ∧ st1.transformSum.pos = ⟨0, 0, 0⟩ ∧
        st1.systemInited = true ∧ st1.frameCount = 0 :=
  ⟨rfl, rfl, rfl, rfl, fun lm ext => process_cold_start lm ext coldStartExample rfl rfl rfl⟩

/-! ## Distortion correction -/

/-- C3: for a point whose interpolation coefficient is 1, the forward step of `toEnd`
(`rotateYXZ` by `(rotY, rotX, rotZ)`, then adding `T`) applied to `transformToStart(p)`
gives back the position of `p`; and when `imuShiftFromStart` and all IMU start and end
attitudes are zero, `transformToEnd` leaves the position of every such point of a cloud
unchanged. -/
theorem toStart_toEnd_round_trip (st : BasicLaserOdometry ℝ) (p : PointXYZI ℝ)
    (hs : interpolationCoeff st.scanPeriod p.intensity = 1) :
    (⟨(rotateYXZ realLibm (transformToStart realLibm st p)
          st.transform.rot_y st.transform.rot_x st.transform.rot_z).x + st.transform.pos.x,
      (rotateYXZ realLibm (transformToStart realLibm st p)
          st.transform.rot_y st.transform.rot_x st.transform.rot_z).y + st.transform.pos.y,
      (rotateYXZ realLibm (transformToStart realLibm st p)
          st.transform.rot_y st.transform.rot_x st.transform.rot_z).z + st.transform.pos.z⟩ :
        Vector3 ℝ) = p.toVector3 ∧
    (st.imuShiftFromStart = ⟨0, 0, 0⟩ → st.imuRollStart = 0 → st.imuPitchStart = 0 →
      st.imuYawStart = 0 → st.imuRollEnd = 0 → st.imuPitchEnd = 0 → st.imuYawEnd = 0 →
      (transformToEndPoint realLibm st p).toVector3 = p.toVector3 ∧
      ∀ cloud : PointCloud ℝ,
        (∀ q ∈ cloud, interpolationCoeff st.scanPeriod q.intensity = 1) →
        (transformToEnd realLibm st cloud).1.map PointXYZI.toVector3
          = cloud.map PointXYZI.toVector3) := by
  have key : ∀ q : PointXYZI ℝ, interpolationCoeff st.scanPeriod q.intensity = 1 →
      st.imuShiftFromStart = ⟨0, 0, 0⟩ → st.imuRollStart = 0 → st.imuPitchStart = 0 →
      st.imuYawStart = 0 → st.imuRollEnd = 0 → st.imuPitchEnd = 0 → st.imuYawEnd = 0 →
      (transformToEndPoint realLibm st q).toVector3 = q.toVector3 := by
    intro q hq h1 h2 h3 h4 h5 h6 h7
    simp only [transformToEndPoint, hq, neg_mul, one_mul, rotateYXZ_rotateZXY_neg, h1, h2, h3,
      h4, h5, h6, h7, neg_zero, rotateZXY_zero, rotateYXZ_zero, PointXYZI.toVector3, sub_zero,
      sub_add_cancel]
  constructor
  · simp only [transformToStart, hs, neg_mul, one_mul, rotateYXZ_rotateZXY_neg,
      PointXYZI.toVector3, sub_add_cancel]
  · intro h1 h2 h3 h4 h5 h6 h7
    refine ⟨key p hs h1 h2 h3 h4 h5 h6 h7, ?_⟩
    intro cloud hc
    simp only [transformToEnd, List.map_map]
    apply List.map_congr_left
    intro q hq
    exact key q (hc q hq) h1 h2 h3 h4 h5 h6 h7

/-- Witness for C3: scan period 1/10 and intensity 31/10 (ring 3, fractional part 1/10)
give the interpolation coefficient 1. -/
theorem toStart_toEnd_round_trip_witness :
    interpolationCoeff (translationExample ℝ).scanPeriod (31 / 10) = 1 ∧
    (transformToEndPoint realLibm (translationExample ℝ) ⟨1, 2, 3, 31 / 10⟩).toVector3
      = ⟨1, 2, 3⟩ := by
  have hs : interpolationCoeff (translationExample ℝ).scanPeriod
      (⟨1, 2, 3, 31 / 10⟩ : PointXYZI ℝ).intensity = 1 := by
    norm_num [interpolationCoeff, truncToInt, translationExample, BasicLaserOdometry.new]
  exact ⟨hs, ((toStart_toEnd_round_trip (translationExample ℝ) ⟨1, 2, 3, 31 / 10⟩ hs).2
    rfl rfl rfl rfl rfl rfl rfl).1⟩

open Real in
/-- C6, counterexample: for the triple `(π, 0, 0)` and the zero increment,
`accumulateRotation` returns `ox = 0`, which is not congruent to `π` modulo 2π. -/
theorem accumulateRotation_zero_counterexample :
    (accumulateRotation realLibm π 0 0 0 0 0).1 = 0 ∧
    ¬ ∃ k : ℤ, (accumulateRotation realLibm π 0 0 0 0 0).1 = π + k * (2 * π) := by
  have h0 : (accumulateRotation realLibm π 0 0 0 0 0).1 = 0 := by
    simp [accumulateRotation, accumulateRotationSrx, realLibm]
  refine ⟨h0, ?_⟩
  rw [h0]
  rintro ⟨k, hk⟩
  have hpi : (1 + 2 * (k : ℝ)) * π = 0 := by linarith
  have h1 : (1 + 2 * (k : ℝ)) = 0 := by
    rcases mul_eq_zero.mp hpi with h | h
    · exact h
    · exact absurd h Real.pi_ne_zero
  have h2 : (1 + 2 * k : ℤ) = 0 := by exact_mod_cast h1
  omega

open Real in
/-- C6, amended: for every Euler triple `(cx, cy, cz)` with `cos cx > 0` (that is, `cx`
within `(-π/2, π/2)` modulo 2π), `accumulateRotation(cx, cy, cz, 0, 0, 0)` returns
`(ox, oy, oz)` with `ox`, `oy`, `oz` congruent to `cx`, `cy`, `cz` modulo 2π. -/
theorem accumulateRotation_zero (cx cy cz : ℝ) (h : 0 < Real.cos cx) :
    (∃ k : ℤ, (accumulateRotation realLibm cx cy cz 0 0 0).1 = cx + k * (2 * π)) ∧
    (∃ k : ℤ, (accumulateRotation realLibm cx cy cz 0 0 0).2.1 = cy + k * (2 * π)) ∧
    (∃ k : ℤ, (accumulateRotation realLibm cx cy cz 0 0 0).2.2 = cz + k * (2 * π)) := by
  rw [accumulateRotation_eq_extract, eulerMatrix_zero, Matrix.mul_one]
  exact eulerExtract_eulerMatrix cx cy cz h

open Real in
/-- Witness for C6 (amended): the triple `(0, 3π, 1)`. -/
theorem accumulateRotation_zero_witness :
    (0 : ℝ) < Real.cos 0 ∧
    (∃ k : ℤ, (accumulateRotation realLibm 0 (3 * π) 1 0 0 0).1 = 0 + k * (2 * π)) ∧
    (∃ k : ℤ, (accumulateRotation realLibm 0 (3 * π) 1 0 0 0).2.1 = 3 * π + k * (2 * π)) ∧
    (∃ k : ℤ, (accumulateRotation realLibm 0 (3 * π) 1 0 0 0).2.2 = 1 + k * (2 * π)) :=
  ⟨by simp, accumulateRotation_zero 0 (3 * π) 1 (by simp)⟩

open Real in
/-- C7, counterexample: for the attitude `(π, 0, 0)` and IMU start = IMU end = `(0, 0, 0)`,
`pluginIMURotation` returns `acx = 0`, which is not congruent to `π` modulo 2π. -/
theorem pluginIMURotation_same_counterexample :
    (pluginIMURotation realLibm π 0 0 0 0 0 0 0 0).1 = 0 ∧
    ¬ ∃ k : ℤ, (pluginIMURotation realLibm π 0 0 0 0 0 0 0 0).1 = π + k * (2 * π) := by
  have h0 : (pluginIMURotation realLibm π 0 0 0 0 0 0 0 0).1 = 0 := by
    simp [pluginIMURotation, realLibm]
  refine ⟨h0, ?_⟩
  rw [h0]
  rintro ⟨k, hk⟩
  have hpi : (1 + 2 * (k : ℝ)) * π = 0 := by linarith
  have h1 : (1 + 2 * (k : ℝ)) = 0 := by
    rcases mul_eq_zero.mp hpi with h | h
    · exact h
    · exact absurd h Real.pi_ne_zero
  have h2 : (1 + 2 * k : ℤ) = 0 := by exact_mod_cast h1
  omega

open Real in
/-- C7, amended: for every attitude `(bcx, bcy, bcz)` with `cos bcx > 0` and every IMU
attitude `(lx, ly, lz)`, `pluginIMURotation` called with IMU start = IMU end = `(lx, ly, lz)`
returns `(acx, acy, acz)` congruent to `(bcx, bcy, bcz)` modulo 2π, component by
component. -/
theorem pluginIMURotation_same (bcx bcy bcz lx ly lz : ℝ) (h : 0 < Real.cos bcx) :
    (∃ k : ℤ, (pluginIMURotation realLibm bcx bcy bcz lx ly lz lx ly lz).1
      = bcx + k * (2 * π)) ∧
    (∃ k : ℤ, (pluginIMURotation realLibm bcx bcy bcz lx ly lz lx ly lz).2.1
      = bcy + k * (2 * π)) ∧
    (∃ k : ℤ, (pluginIMURotation realLibm bcx bcy bcz lx ly lz lx ly lz).2.2
      = bcz + k * (2 * π)) := by
  have hl : (eulerMatrix realLibm lx ly lz).transpose * eulerMatrix realLibm lx ly lz = 1 :=
    Matrix.mul_eq_one_comm.mp (eulerMatrix_orthogonal lx ly lz)
  rw [pluginIMURotation_eq_extract, Matrix.mul_assoc, hl, Matrix.mul_one]
  exact eulerExtract_eulerMatrix bcx bcy bcz h

open Real in
/-- Witness for C7 (amended): the attitude `(0, 3π, 1)` with IMU attitude `(2, 3, 4)`. -/
theorem pluginIMURotation_same_witness :
    (0 : ℝ) < Real.cos 0 ∧
    (∃ k : ℤ, (pluginIMURotation realLibm 0 (3 * π) 1 2 3 4 2 3 4).1 = 0 + k * (2 * π)) ∧
    (∃ k : ℤ, (pluginIMURotation realLibm 0 (3 * π) 1 2 3 4 2 3 4).2.1
      = 3 * π + k * (2 * π)) ∧
    (∃ k : ℤ, (pluginIMURotation realLibm 0 (3 * π) 1 2 3 4 2 3 4).2.2 = 1 + k * (2 * π)) :=
  ⟨by simp, pluginIMURotation_same 0 (3 * π) 1 2 3 4 (by simp)⟩

/-- C8: with `R(x, y, z) = Ry(y) * Rx(x) * Rz(z)`, whenever the computed `asin` argument
`srx` satisfies `|srx| < 1`, the output `(ox, oy, oz)` of `accumulateRotation` satisfies
`R(ox, oy, oz) = R(cx, cy, cz) * R(lx, ly, lz)`. -/
theorem accumulateRotation_matrix (cx cy cz lx ly lz : ℝ)
    (h : |accumulateRotationSrx realLibm cx cz lx ly| < 1) :
    eulerMatrix realLibm (accumulateRotation realLibm cx cy cz lx ly lz).1
      (accumulateRotation realLibm cx cy cz lx ly lz).2.1
      (accumulateRotation realLibm cx cy cz lx ly lz).2.2
      = eulerMatrix realLibm cx cy cz * eulerMatrix realLibm lx ly lz := by
  rw [accumulateRotation_eq_extract]
  apply eulerMatrix_eulerExtract
  · exact mul_orthogonal (eulerMatrix_orthogonal cx cy cz) (eulerMatrix_orthogonal lx ly lz)
  · rw [Matrix.det_mul, eulerMatrix_det, eulerMatrix_det, one_mul]
  · rw [accumulateRotation_entry]; exact h

open Real in
/-- Witness for C8: the composition of two quarter turns about the y axis, for which
`srx = 0`. -/
theorem accumulateRotation_matrix_witness :
    |accumulateRotationSrx realLibm 0 0 0 (π / 2)| < 1 ∧
    eulerMatrix realLibm (accumulateRotation realLibm 0 (π / 2) 0 0 (π / 2) 0).1
      (accumulateRotation realLibm 0 (π / 2) 0 0 (π / 2) 0).2.1
      (accumulateRotation realLibm 0 (π / 2) 0 0 (π / 2) 0).2.2
      = eulerMatrix realLibm 0 (π / 2) 0 * eulerMatrix realLibm 0 (π / 2) 0 := by
  have h : |accumulateRotationSrx realLibm 0 0 0 (π / 2)| < 1 := by
    simp [accumulateRotationSrx, realLibm]
  exact ⟨h, accumulateRotation_matrix 0 (π / 2) 0 0 (π / 2) 0 h⟩

/-! ## Edge correspondence search -/

/-- C9: whenever the edge search caches a second neighbour `b >= 0` next to the nearest
neighbour `a`, both are indices of points of the `lastCorner` cloud, `b` lies on a
different ring than `a` with `|ring(b) - ring(a)| <= 2`, `b` differs from `a`, and the
squared distance of `b` to the query is below 25. -/
theorem edgeSearch_ring_window {α : Type} [LinearOrderedField α] [FloorRing α]
    (cloud : PointCloud α) (cornerPointsSharpNum : ℕ)
    (pointSel : PointXYZI α) (pointSearchInd : ℤ) (pointSearchSqDis : α) (a b : ℤ)
    (h : edgeSearch cloud cornerPointsSharpNum pointSel pointSearchInd pointSearchSqDis
      = some (a, b))
    (hb : 0 ≤ b) :
    ∃ pa pb, a = pointSearchInd ∧ 0 ≤ a ∧ cloud[a.toNat]? = some pa ∧
      cloud[b.toNat]? = some pb ∧ ring pb ≠ ring pa ∧ |ring pb - ring pa| ≤ 2 ∧ b ≠ a ∧
      calcSquaredDiff pb pointSel < 25 := by
  unfold edgeSearch at h
  split at h
  · split at h
    · rename_i hind
      split at h
      · exact absurd h (by simp)
      · rename_i pa hpa
        simp only [Option.bind_eq_some, Option.some.injEq, Prod.mk.injEq] at h
        obtain ⟨fwd, hfwd, bwd, hbwd, ha, hbb⟩ := h
        have hf := edgeForwardScan_ok cloud pointSel (ring pa) cornerPointsSharpNum
          pointSearchInd.toNat _ _ (25, -1) fwd (Nat.lt_succ_self _) le_rfl
          (by intro h0; simp at h0) hfwd
        have hbk := edgeBackwardScan_ok cloud pointSel (ring pa) pointSearchInd.toNat
          _ fwd bwd le_rfl hf.1 hf.2 hbwd
        obtain ⟨pb, h1, h2, h3, h4, h5, h6⟩ := hbk.2 (by rw [hbb]; exact hb)
        subst ha
        rw [hbb] at h1 h4
        refine ⟨pa, pb, rfl, hind, hpa, h1, h2, h3, ?_, by rw [h5]; exact h6⟩
        rwa [Int.toNat_of_nonneg hind] at h4
    · exact absurd h (by simp)
  · simp only [Option.some.injEq, Prod.mk.injEq] at h
    omega

/-- Witness for C9, the ring-window scenario: the nearest neighbour is on ring 5 (index 5)
and the points around it are on rings 3, 4, 5, 6, 7, 8; the search caches index 6, on
ring 6. The point on ring 8, although nearer to the query, is outside the window. -/
theorem edgeSearch_ring_window_witness :
    edgeSearch ringWindowCloud 12 ⟨0, 0, 0, 0⟩ 5 1 = some (5, 6) ∧
    ∃ pa pb, (5 : ℤ) = 5 ∧ (0 : ℤ) ≤ 5 ∧ ringWindowCloud[(5 : ℤ).toNat]? = some pa ∧
      ringWindowCloud[(6 : ℤ).toNat]? = some pb ∧ ring pb ≠ ring pa ∧
      |ring pb - ring pa| ≤ 2 ∧ (6 : ℤ) ≠ 5 ∧
      calcSquaredDiff pb (⟨0, 0, 0, 0⟩ : PointXYZI ℚ) < 25 :=
  ⟨by decide!, edgeSearch_ring_window ringWindowCloud 12 ⟨0, 0, 0, 0⟩ 5 1 5 6 (by decide!)
    (by decide)⟩

/-- C10, evaluation at the failing input: with two current sharp points
(`cornerPointsSharpNum = 2`) the forward scan `j = 6; j < 2` over the 12-point ring-window
cloud visits no point, and the search for the query at the origin caches index 3 (ring 4,
squared distance 4), although index 6 (ring 6, inside the window, squared distance 9/4) is
an admissible forward candidate that is nearer; with the bound at the size of the cloud
the search caches index 6. For the query `(6, 0, 0)`, whose nearest neighbour is index 0
(ring 1), and one current sharp point, the search caches no second neighbour (`-1`)
although index 1 (ring 2, squared distance 1) is admissible; with the bound at the size of
the cloud it caches index 1. -/
theorem edgeSearch_forward_bound_defect :
    edgeSearch ringWindowCloud 2 ⟨0, 0, 0, 0⟩ 5 1 = some (5, 3) ∧
    edgeSearch ringWindowCloud ringWindowCloud.length ⟨0, 0, 0, 0⟩ 5 1 = some (5, 6) ∧
    (∃ pa p3 p6, ringWindowCloud[5]? = some pa ∧ ringWindowCloud[3]? = some p3 ∧
      ringWindowCloud[6]? = some p6 ∧ ring pa < ring p6 ∧ ring p6 ≤ ring pa + 2 ∧
      calcSquaredDiff p6 (⟨0, 0, 0, 0⟩ : PointXYZI ℚ) < 25 ∧
      calcSquaredDiff p6 (⟨0, 0, 0, 0⟩ : PointXYZI ℚ)
        < calcSquaredDiff p3 (⟨0, 0, 0, 0⟩ : PointXYZI ℚ)) ∧
    edgeSearch ringWindowCloud 1 ⟨6, 0, 0, 0⟩ 0 0 = some (0, -1) ∧
    edgeSearch ringWindowCloud ringWindowCloud.length ⟨6, 0, 0, 0⟩ 0 0 = some (0, 1) ∧
    (∃ pa p1, ringWindowCloud[0]? = some pa ∧ ringWindowCloud[1]? = some p1 ∧
      ring pa < ring p1 ∧ ring p1 ≤ ring pa + 2 ∧
      calcSquaredDiff p1 (⟨6, 0, 0, 0⟩ : PointXYZI ℚ) < 25) := by
  refine ⟨by decide!, by decide!, ?_, by decide!, by decide!, ?_⟩
  · exact ⟨_, _, _, rfl, rfl, rfl, by decide!, by decide!, by decide!, by decide!⟩
  · exact ⟨_, _, rfl, rfl, by decide!, by decide!, by decide!⟩

/-! ## Residuals and selection -/

/-- C11, counterexample: in iteration 6 the query `(0, 1/2, 0)` with the cached neighbours
`(0, 0, 0)` and `(1, 0, 0)` has the residual `d = 1/2`, which is not below `0.5`. The
factor of the weight is the binary32 literal `1.8f = 15099494/2^23`, which is below `9/5`,
so the weight is `1 - 1.8f * 0.5 = 838861/8388608 > 1/10` (every operation of the source
is exact in binary32 at this input) and the point is appended, with the coefficient
`(0, s, 0, s/2)`. -/
theorem edgeStep_selection_counterexample :
    edgeResidual realLibm
      (transformToStart realLibm (edgeExample ℝ (1 / 2)) ⟨0, 1 / 2, 0, 0⟩)
      ⟨0, 0, 0, 0⟩ ⟨1, 0, 0, 1⟩ = (0, 1, 0, 1 / 2) ∧
    ¬ (|(1 / 2 : ℝ)| < 1 / 2) ∧
    (weightFactor : ℝ) < 9 / 5 ∧
    edgeWeight 6 (1 / 2 : ℝ) = 838861 / 8388608 ∧
    (1 / 10 : ℝ) < 838861 / 8388608 ∧
    ∀ ext : External ℝ,
      edgeStep realLibm ext 6 (edgeExample ℝ (1 / 2)) 0 =
        some { edgeExample ℝ (1 / 2) with
          laserCloudOri := [⟨0, 1 / 2, 0, 0⟩]
          coeffSel := [⟨0, 838861 / 8388608, 0, 838861 / 16777216⟩] } := by
  refine ⟨?_, ?_, ?_, edgeWeight_exampleHalf, by norm_num, edgeStep_exampleHalf⟩
  · rw [transformToStart_edgeExample]
    exact edgeResidual_exampleHalf
  · rw [abs_of_pos (by norm_num : (0 : ℝ) < 1 / 2)]
    exact lt_irrefl _
  · unfold weightFactor
    norm_num

/-- C11, amended: for every edge correspondence handled by the edge loop in solver
iteration `k` (a query point `pi` with cached neighbours `A`, `B`, the second index being
`>= 0`), with `(la, lb, lc, d)` the edge residual of the query transformed to the sweep
start, `c = 15099494/2^23` the value of the literal `1.8f` and `s` the weight (`1` when
`k < 5`, `1 - c * |d|` otherwise): the query point and the coefficient
`(s * la, s * lb, s * lc, s * d)` are appended to `laserCloudOri` / `coeffSel` if and only
if `d != 0` and (`k < 5` or `1 - c * |d| > 0.1`), the latter being
`|d| < 18874368/37748735` (a bound slightly above `0.5`, so that every `|d| <= 0.5` passes);
otherwise both clouds are left as they are; in particular a correspondence with
`|d| = 10` is dropped in every iteration `k >= 5`. -/
theorem edgeStep_selection {α : Type} [LinearOrderedField α] [FloorRing α]
    (lm : Libm α) (ext : External α) (k : ℕ)
    (st st' : BasicLaserOdometry α) (i : ℕ) (ind2 : ℤ)
    (h : edgeStep lm ext k st i = some st')
    (h2 : st'.pointSearchCornerInd2[i]? = some ind2) (h0 : 0 ≤ ind2) :
    ∃ pi ind1 A B la lb lc d s,
      st.cornerPointsSharp[i]? = some pi ∧ st'.pointSearchCornerInd1[i]? = some ind1 ∧
      st.lastCornerCloud[ind1.toNat]? = some A ∧ st.lastCornerCloud[ind2.toNat]? = some B ∧
      edgeResidual lm (transformToStart lm st pi) A B = (la, lb, lc, d) ∧
      s = (if k ≥ 5 then 1 - weightFactor * |d| else 1) ∧
      (k < 5 → s = 1) ∧
      ((st'.laserCloudOri = st.laserCloudOri ++ [pi] ∧
          st'.coeffSel = st.coeffSel ++ [⟨s * la, s * lb, s * lc, s * d⟩]) ↔
        (d ≠ 0 ∧ (k < 5 ∨ 1 - weightFactor * |d| > 1 / 10))) ∧
      (1 - weightFactor * |d| > 1 / 10 ↔ |d| < 18874368 / 37748735) ∧
      (|d| ≤ 1 / 2 → 1 - weightFactor * |d| > 1 / 10) ∧
      (¬ (d ≠ 0 ∧ (k < 5 ∨ |d| < 18874368 / 37748735)) →
        st'.laserCloudOri = st.laserCloudOri ∧ st'.coeffSel = st.coeffSel) ∧
      (k ≥ 5 → |d| = 10 →
        st'.laserCloudOri = st.laserCloudOri ∧ st'.coeffSel = st.coeffSel) := by
  obtain ⟨pi, ind1, ind2', hpi, -, h1, h2', -, hpos⟩ := edgeStep_spec lm ext k st st' i h
  rw [h2] at h2'
  obtain rfl : ind2 = ind2' := Option.some.inj h2'
  obtain ⟨-, A, B, hA, hB, hsel, hnsel⟩ := hpos h0
  have hw : (1 : α) - weightFactor * |(edgeResidual lm (transformToStart lm st pi) A B).2.2.2|
        > 1 / 10
      ↔ |(edgeResidual lm (transformToStart lm st pi) A B).2.2.2| < 18874368 / 37748735 := by
    unfold weightFactor
    constructor <;> intro hh <;> linarith
  have hhalf : |(edgeResidual lm (transformToStart lm st pi) A B).2.2.2| ≤ 1 / 2 →
      (1 : α) - weightFactor * |(edgeResidual lm (transformToStart lm st pi) A B).2.2.2|
        > 1 / 10 := by
    intro hh
    apply hw.mpr
    have : (1 / 2 : α) < 18874368 / 37748735 := by norm_num
    linarith
  have hdrop : ¬ ((edgeResidual lm (transformToStart lm st pi) A B).2.2.2 ≠ 0 ∧
      (k < 5 ∨ |(edgeResidual lm (transformToStart lm st pi) A B).2.2.2|
        < 18874368 / 37748735)) →
      st'.laserCloudOri = st.laserCloudOri ∧ st'.coeffSel = st.coeffSel := by
    intro hn
    exact hnsel (fun hs => hn ((selected_edgeWeight_iff k _).mp hs))
  refine ⟨pi, ind1, A, B, (edgeResidual lm (transformToStart lm st pi) A B).1,
    (edgeResidual lm (transformToStart lm st pi) A B).2.1,
    (edgeResidual lm (transformToStart lm st pi) A B).2.2.1,
    (edgeResidual lm (transformToStart lm st pi) A B).2.2.2,
    edgeWeight k (edgeResidual lm (transformToStart lm st pi) A B).2.2.2,
    hpi, h1, hA, hB, rfl, rfl, ?_, ?_, hw, hhalf, hdrop, ?_⟩
  · intro hk
    unfold edgeWeight
    rw [if_neg (by omega)]
  · constructor
    · intro happ
      by_contra hns
      have hns' : ¬ selected (edgeWeight k (edgeResidual lm (transformToStart lm st pi) A B).2.2.2)
          (edgeResidual lm (transformToStart lm st pi) A B).2.2.2 := by
        intro hs
        obtain ⟨hd, hk⟩ := (selected_edgeWeight_iff k _).mp hs
        exact hns ⟨hd, hk.imp id hw.mpr⟩
      have := (hnsel hns').1
      rw [this] at happ
      have hl := congrArg List.length happ.1
      simp at hl
    · rintro ⟨hd, hk⟩
      exact hsel ((selected_edgeWeight_iff k _).mpr ⟨hd, hk.imp id hw.mp⟩)
  · intro hk h10
    apply hdrop
    rintro ⟨-, hlt | hlt⟩
    · omega
    · rw [h10] at hlt
      norm_num at hlt

/-- Witness for C11 (amended): in iteration 6 the query `(0, 1/2, 0)` with neighbours
`(0, 0, 0)` and `(1, 0, 0)` has the residual `(0, 1, 0, 1/2)` and the weight
`838861/8388608`; it is selected with the coefficient `(0, s, 0, s/2)`. -/
theorem edgeStep_selection_witness :
    (edgeExample ℝ (1 / 2)).pointSearchCornerInd2 = [1] ∧
    ∀ ext : External ℝ,
      ∃ st', edgeStep realLibm ext 6 (edgeExample ℝ (1 / 2)) 0 = some st' ∧
        st'.laserCloudOri = [⟨0, 1 / 2, 0, 0⟩] ∧
        st'.coeffSel = [⟨0, 838861 / 8388608, 0, 838861 / 16777216⟩] ∧
        ∃ pi ind1 A B la lb lc d s,
          (edgeExample ℝ (1 / 2)).cornerPointsSharp[0]? = some pi ∧
          st'.pointSearchCornerInd1[0]? = some ind1 ∧
          (edgeExample ℝ (1 / 2)).lastCornerCloud[ind1.toNat]? = some A ∧
          (edgeExample ℝ (1 / 2)).lastCornerCloud[(1 : ℤ).toNat]? = some B ∧
          edgeResidual realLibm (transformToStart realLibm (edgeExample ℝ (1 / 2)) pi) A B
            = (la, lb, lc, d) ∧
          s = (if 6 ≥ 5 then 1 - weightFactor * |d| else 1) ∧
          (6 < 5 → s = 1) ∧
          ((st'.laserCloudOri = (edgeExample ℝ (1 / 2)).laserCloudOri ++ [pi] ∧
              st'.coeffSel = (edgeExample ℝ (1 / 2)).coeffSel
                ++ [⟨s * la, s * lb, s * lc, s * d⟩]) ↔
            (d ≠ 0 ∧ (6 < 5 ∨ 1 - weightFactor * |d| > 1 / 10))) ∧
          (1 - weightFactor * |d| > 1 / 10 ↔ |d| < 18874368 / 37748735) ∧
          (|d| ≤ 1 / 2 → 1 - weightFactor * |d| > 1 / 10) ∧
          (¬ (d ≠ 0 ∧ (6 < 5 ∨ |d| < 18874368 / 37748735)) →
            st'.laserCloudOri = (edgeExample ℝ (1 / 2)).laserCloudOri ∧
              st'.coeffSel = (edgeExample ℝ (1 / 2)).coeffSel) ∧
          (6 ≥ 5 → |d| = 10 →
            st'.laserCloudOri = (edgeExample ℝ (1 / 2)).laserCloudOri ∧
              st'.coeffSel = (edgeExample ℝ (1 / 2)).coeffSel) :=
  ⟨rfl, fun ext => ⟨_, edgeStep_exampleHalf ext, rfl, rfl,
    edgeStep_selection realLibm ext 6 (edgeExample ℝ (1 / 2)) _ 0 1
      (edgeStep_exampleHalf ext) rfl (by norm_num)⟩⟩

/-- C12: for all points O, A, B (in particular for A ≠ B and O off the line through A and
B), swapping A and B leaves the whole edge residual `(la, lb, lc, ld2)` unchanged: the
residual `ld2` is the same and the gradient `(la, lb, lc)` is the same, with sign `+1`. -/
theorem edgeResidual_symm {α : Type} [LinearOrderedField α]
    (lm : Libm α) (O A B : PointXYZI α) :
    edgeResidual lm O A B = edgeResidual lm O B A := by
  simp only [edgeResidual]
  have h1 : ((O.x - A.x) * (O.y - B.y) - (O.x - B.x) * (O.y - A.y))
        * ((O.x - A.x) * (O.y - B.y) - (O.x - B.x) * (O.y - A.y))
      + ((O.x - A.x) * (O.z - B.z) - (O.x - B.x) * (O.z - A.z))
        * ((O.x - A.x) * (O.z - B.z) - (O.x - B.x) * (O.z - A.z))
      + ((O.y - A.y) * (O.z - B.z) - (O.y - B.y) * (O.z - A.z))
        * ((O.y - A.y) * (O.z - B.z) - (O.y - B.y) * (O.z - A.z))
      = ((O.x - B.x) * (O.y - A.y) - (O.x - A.x) * (O.y - B.y))
        * ((O.x - B.x) * (O.y - A.y) - (O.x - A.x) * (O.y - B.y))
      + ((O.x - B.x) * (O.z - A.z) - (O.x - A.x) * (O.z - B.z))
        * ((O.x - B.x) * (O.z - A.z) - (O.x - A.x) * (O.z - B.z))
      + ((O.y - B.y) * (O.z - A.z) - (O.y - A.y) * (O.z - B.z))
        * ((O.y - B.y) * (O.z - A.z) - (O.y - A.y) * (O.z - B.z)) := by ring
  have h2 : (A.x - B.x) * (A.x - B.x) + (A.y - B.y) * (A.y - B.y) + (A.z - B.z) * (A.z - B.z)
      = (B.x - A.x) * (B.x - A.x) + (B.y - A.y) * (B.y - A.y) + (B.z - A.z) * (B.z - A.z) := by
    ring
  rw [h1, h2]
  refine Prod.ext ?_ (Prod.ext ?_ (Prod.ext ?_ rfl)) <;> simp only <;> congr 2 <;> ring


/-- C13: for all points O, A, B, C (in particular for non-collinear A, B, C), replacing
`(A, B, C)` by the cyclic permutation `(B, C, A)` leaves the whole planar residual
`(pa, pb, pc, pd2)` unchanged: the normal and the residual are the same, with the common
sign `+1`. -/
theorem planeResidual_cyclic {α : Type} [LinearOrderedField α]
    (lm : Libm α) (O A B C : PointXYZI α) :
    planeResidual lm O A B C = planeResidual lm O B C A := by
  simp only [planeResidual]
  have ha : (B.y - A.y) * (C.z - A.z) - (C.y - A.y) * (B.z - A.z)
      = (C.y - B.y) * (A.z - B.z) - (A.y - B.y) * (C.z - B.z) := by ring
  have hb : (B.z - A.z) * (C.x - A.x) - (C.z - A.z) * (B.x - A.x)
      = (C.z - B.z) * (A.x - B.x) - (A.z - B.z) * (C.x - B.x) := by ring
  have hc : (B.x - A.x) * (C.y - A.y) - (C.x - A.x) * (B.y - A.y)
      = (C.x - B.x) * (A.y - B.y) - (A.x - B.x) * (C.y - B.y) := by ring
  rw [ha, hb, hc]
  refine Prod.ext rfl (Prod.ext rfl (Prod.ext rfl ?_))
  simp only
  congr 2
  ring


/-- C20: for all points O, A, B with A ≠ B and O not on the line through A and B, the edge
residual `(la, lb, lc, ld2)` satisfies: `ld2 = a012 / l12` with `a012 = |(O-A) x (O-B)| > 0`
and `l12 = |A-B| > 0`; `(la, lb, lc) = ((A-B) x ((O-A) x (O-B))) / (a012 * l12)`; the
gradient has Euclidean norm 1; the point `P = O - ld2 * (la, lb, lc)` lies on the line
through A and B and `O - P` is orthogonal to `B - A`, so `P` is the orthogonal projection
of O onto the line; and `ld2 = |O - P|` is at most the distance from O to any point of the
line, so it is the Euclidean distance from O to the line. -/
theorem edgeResidual_point_to_line (O A B : PointXYZI ℝ)
    (hAB : ¬ (A.x = B.x ∧ A.y = B.y ∧ A.z = B.z))
    (hO : ∀ t : ℝ, ¬ (O.x = A.x + t * (B.x - A.x) ∧ O.y = A.y + t * (B.y - A.y) ∧
      O.z = A.z + t * (B.z - A.z))) :
    ∃ la lb lc ld2 : ℝ, edgeResidual realLibm O A B = (la, lb, lc, ld2) ∧
      (∃ a012 l12 : ℝ, 0 < a012 ∧ 0 < l12 ∧
        a012 = Real.sqrt (Matrix.dotProduct
          (crossProduct ![O.x - A.x, O.y - A.y, O.z - A.z] ![O.x - B.x, O.y - B.y, O.z - B.z])
          (crossProduct ![O.x - A.x, O.y - A.y, O.z - A.z]
            ![O.x - B.x, O.y - B.y, O.z - B.z])) ∧
        l12 = Real.sqrt ((A.x - B.x) ^ 2 + (A.y - B.y) ^ 2 + (A.z - B.z) ^ 2) ∧
        ld2 = a012 / l12 ∧
        ![la, lb, lc] = (a012 * l12)⁻¹ • crossProduct ![A.x - B.x, A.y - B.y, A.z - B.z]
          (crossProduct ![O.x - A.x, O.y - A.y, O.z - A.z]
            ![O.x - B.x, O.y - B.y, O.z - B.z])) ∧
      la ^ 2 + lb ^ 2 + lc ^ 2 = 1 ∧
      (∃ t : ℝ, O.x - ld2 * la = A.x + t * (B.x - A.x) ∧
        O.y - ld2 * lb = A.y + t * (B.y - A.y) ∧ O.z - ld2 * lc = A.z + t * (B.z - A.z)) ∧
      ld2 * la * (B.x - A.x) + ld2 * lb * (B.y - A.y) + ld2 * lc * (B.z - A.z) = 0 ∧
      ld2 = Real.sqrt ((ld2 * la) ^ 2 + (ld2 * lb) ^ 2 + (ld2 * lc) ^ 2) ∧
      ∀ s : ℝ, ld2 ≤ Real.sqrt ((O.x - (A.x + s * (B.x - A.x))) ^ 2
        + (O.y - (A.y + s * (B.y - A.y))) ^ 2 + (O.z - (A.z + s * (B.z - A.z))) ^ 2) := by
  obtain ⟨x0, y0, z0, i0⟩ := O
  obtain ⟨x1, y1, z1, i1⟩ := A
  obtain ⟨x2, y2, z2, i2⟩ := B
  simp only at hAB hO
  -- the squared norms of `A - B` and of `(O - A) x (O - B)`, and the numerators
  obtain ⟨D, hDdef⟩ : ∃ D : ℝ, D = (x1 - x2) * (x1 - x2) + (y1 - y2) * (y1 - y2)
    + (z1 - z2) * (z1 - z2) := ⟨_, rfl⟩
  obtain ⟨N, hNdef⟩ : ∃ N : ℝ, N = ((x0 - x1) * (y0 - y2) - (x0 - x2) * (y0 - y1))
      * ((x0 - x1) * (y0 - y2) - (x0 - x2) * (y0 - y1))
    + ((x0 - x1) * (z0 - z2) - (x0 - x2) * (z0 - z1))
      * ((x0 - x1) * (z0 - z2) - (x0 - x2) * (z0 - z1))
    + ((y0 - y1) * (z0 - z2) - (y0 - y2) * (z0 - z1))
      * ((y0 - y1) * (z0 - z2) - (y0 - y2) * (z0 - z1)) := ⟨_, rfl⟩
  obtain ⟨nx, hnx⟩ : ∃ nx : ℝ, nx = (y1 - y2) * ((x0 - x1) * (y0 - y2) - (x0 - x2) * (y0 - y1))
    + (z1 - z2) * ((x0 - x1) * (z0 - z2) - (x0 - x2) * (z0 - z1)) := ⟨_, rfl⟩
  obtain ⟨ny, hny⟩ : ∃ ny : ℝ, ny = -((x1 - x2) * ((x0 - x1) * (y0 - y2) - (x0 - x2) * (y0 - y1))
    - (z1 - z2) * ((y0 - y1) * (z0 - z2) - (y0 - y2) * (z0 - z1))) := ⟨_, rfl⟩
  obtain ⟨nz, hnz⟩ : ∃ nz : ℝ, nz = -((x1 - x2) * ((x0 - x1) * (z0 - z2) - (x0 - x2) * (z0 - z1))
    + (y1 - y2) * ((y0 - y1) * (z0 - z2) - (y0 - y2) * (z0 - z1))) := ⟨_, rfl⟩
  have hres : edgeResidual realLibm ⟨x0, y0, z0, i0⟩ ⟨x1, y1, z1, i1⟩ ⟨x2, y2, z2, i2⟩
      = (nx / Real.sqrt N / Real.sqrt D, ny / Real.sqrt N / Real.sqrt D,
        nz / Real.sqrt N / Real.sqrt D, Real.sqrt N / Real.sqrt D) := by
    rw [hnx, hny, hnz, hNdef, hDdef]
    rfl
  have hD0 : 0 ≤ D := by
    rw [hDdef]
    exact add_nonneg (add_nonneg (mul_self_nonneg _) (mul_self_nonneg _)) (mul_self_nonneg _)
  have hN0 : 0 ≤ N := by
    rw [hNdef]
    exact add_nonneg (add_nonneg (mul_self_nonneg _) (mul_self_nonneg _)) (mul_self_nonneg _)
  have hD : 0 < D := by
    rcases hD0.lt_or_eq with h | h
    · exact h
    · exfalso
      apply hAB
      rw [hDdef] at h
      have hx : (x1 - x2) * (x1 - x2) = 0 := by
        linarith [mul_self_nonneg (x1 - x2), mul_self_nonneg (y1 - y2),
          mul_self_nonneg (z1 - z2)]
      have hy : (y1 - y2) * (y1 - y2) = 0 := by
        linarith [mul_self_nonneg (x1 - x2), mul_self_nonneg (y1 - y2),
          mul_self_nonneg (z1 - z2)]
      have hz : (z1 - z2) * (z1 - z2) = 0 := by
        linarith [mul_self_nonneg (x1 - x2), mul_self_nonneg (y1 - y2),
          mul_self_nonneg (z1 - z2)]
      exact ⟨sub_eq_zero.mp (mul_self_eq_zero.mp hx), sub_eq_zero.mp (mul_self_eq_zero.mp hy),
        sub_eq_zero.mp (mul_self_eq_zero.mp hz)⟩
  -- the parameter of the foot of the perpendicular
  obtain ⟨t, htdef⟩ : ∃ t : ℝ, t = ((x0 - x1) * (x2 - x1) + (y0 - y1) * (y2 - y1)
    + (z0 - z1) * (z2 - z1)) / D := ⟨_, rfl⟩
  have htD : t * D = (x0 - x1) * (x2 - x1) + (y0 - y1) * (y2 - y1) + (z0 - z1) * (z2 - z1) := by
    rw [htdef]
    exact div_mul_cancel₀ _ hD.ne'
  have hdist : ∀ s : ℝ, ((x0 - (x1 + s * (x2 - x1))) * (x0 - (x1 + s * (x2 - x1)))
      + (y0 - (y1 + s * (y2 - y1))) * (y0 - (y1 + s * (y2 - y1)))
      + (z0 - (z1 + s * (z2 - z1))) * (z0 - (z1 + s * (z2 - z1)))) * D
      = N + (t * D - s * D) * (t * D - s * D) := by
    intro s
    rw [htD, hNdef, hDdef]
    ring
  have hN : 0 < N := by
    rcases hN0.lt_or_eq with h | h
    · exact h
    · exfalso
      apply hO t
      have h1 := hdist t
      rw [← h, sub_self, mul_zero, add_zero] at h1
      have h2 : (x0 - (x1 + t * (x2 - x1))) * (x0 - (x1 + t * (x2 - x1)))
          + (y0 - (y1 + t * (y2 - y1))) * (y0 - (y1 + t * (y2 - y1)))
          + (z0 - (z1 + t * (z2 - z1))) * (z0 - (z1 + t * (z2 - z1))) = 0 := by
        rcases mul_eq_zero.mp h1 with h3 | h3
        · exact h3
        · exact absurd h3 hD.ne'
      have hx : (x0 - (x1 + t * (x2 - x1))) * (x0 - (x1 + t * (x2 - x1))) = 0 := by
        linarith [mul_self_nonneg (x0 - (x1 + t * (x2 - x1))),
          mul_self_nonneg (y0 - (y1 + t * (y2 - y1))),
          mul_self_nonneg (z0 - (z1 + t * (z2 - z1)))]
      have hy : (y0 - (y1 + t * (y2 - y1))) * (y0 - (y1 + t * (y2 - y1))) = 0 := by
        linarith [mul_self_nonneg (x0 - (x1 + t * (x2 - x1))),
          mul_self_nonneg (y0 - (y1 + t * (y2 - y1))),
          mul_self_nonneg (z0 - (z1 + t * (z2 - z1)))]
      have hz : (z0 - (z1 + t * (z2 - z1))) * (z0 - (z1 + t * (z2 - z1))) = 0 := by
        linarith [mul_self_nonneg (x0 - (x1 + t * (x2 - x1))),
          mul_self_nonneg (y0 - (y1 + t * (y2 - y1))),
          mul_self_nonneg (z0 - (z1 + t * (z2 - z1)))]
      exact ⟨sub_eq_zero.mp (mul_self_eq_zero.mp hx), sub_eq_zero.mp (mul_self_eq_zero.mp hy),
        sub_eq_zero.mp (mul_self_eq_zero.mp hz)⟩
  have hsN : 0 < Real.sqrt N := Real.sqrt_pos.mpr hN
  have hsD : 0 < Real.sqrt D := Real.sqrt_pos.mpr hD
  have hsN2 : Real.sqrt N * Real.sqrt N = N := Real.mul_self_sqrt hN0
  have hsD2 : Real.sqrt D * Real.sqrt D = D := Real.mul_self_sqrt hD0
  have hnorm : nx ^ 2 + ny ^ 2 + nz ^ 2 = N * D := by
    rw [hnx, hny, hnz, hNdef, hDdef]; ring
  have hfx : nx = D * (x0 - x1) - t * D * (x2 - x1) := by
    rw [htD, hnx, hDdef]; ring
  have hfy : ny = D * (y0 - y1) - t * D * (y2 - y1) := by
    rw [htD, hny, hDdef]; ring
  have hfz : nz = D * (z0 - z1) - t * D * (z2 - z1) := by
    rw [htD, hnz, hDdef]; ring
  have hperp : nx * (x2 - x1) + ny * (y2 - y1) + nz * (z2 - z1) = 0 := by
    rw [hnx, hny, hnz]; ring
  have hmul : ∀ n : ℝ, Real.sqrt N / Real.sqrt D * (n / Real.sqrt N / Real.sqrt D) = n / D := by
    intro n
    have e : Real.sqrt N / Real.sqrt D * (n / Real.sqrt N / Real.sqrt D)
        = n / (Real.sqrt D * Real.sqrt D) := by
      rw [eq_div_iff (mul_pos hsD hsD).ne']
      calc Real.sqrt N / Real.sqrt D * (n / Real.sqrt N / Real.sqrt D)
            * (Real.sqrt D * Real.sqrt D)
          = n * (Real.sqrt N / Real.sqrt N) * (Real.sqrt D / Real.sqrt D)
            * (Real.sqrt D / Real.sqrt D) := by ring
        _ = n := by rw [div_self hsN.ne', div_self hsD.ne']; ring
    rw [e, hsD2]
  have hunit : (nx / Real.sqrt N / Real.sqrt D) ^ 2 + (ny / Real.sqrt N / Real.sqrt D) ^ 2
      + (nz / Real.sqrt N / Real.sqrt D) ^ 2 = 1 := by
    have e : (nx / Real.sqrt N / Real.sqrt D) ^ 2 + (ny / Real.sqrt N / Real.sqrt D) ^ 2
        + (nz / Real.sqrt N / Real.sqrt D) ^ 2
        = (nx ^ 2 + ny ^ 2 + nz ^ 2)
          / ((Real.sqrt N * Real.sqrt N) * (Real.sqrt D * Real.sqrt D)) := by
      ring
    rw [e, hsN2, hsD2, hnorm]
    exact div_self (mul_pos hN hD).ne'
  have hld : 0 ≤ Real.sqrt N / Real.sqrt D := (div_pos hsN hsD).le
  refine ⟨nx / Real.sqrt N / Real.sqrt D, ny / Real.sqrt N / Real.sqrt D,
    nz / Real.sqrt N / Real.sqrt D, Real.sqrt N / Real.sqrt D, hres, ?_, hunit, ?_, ?_, ?_, ?_⟩
  · refine ⟨Real.sqrt N, Real.sqrt D, hsN, hsD, ?_, ?_, rfl, ?_⟩
    · congr 1
      simp only [cross_apply, Matrix.dotProduct, Fin.sum_univ_three, Matrix.cons_val_zero,
        Matrix.cons_val_one, Matrix.head_cons, Matrix.cons_val_two, Matrix.tail_cons]
      rw [hNdef]; ring
    · congr 1
      rw [hDdef]; ring
    · simp only [cross_apply, Matrix.cons_val_zero, Matrix.cons_val_one, Matrix.head_cons,
        Matrix.cons_val_two, Matrix.tail_cons, Matrix.smul_cons, smul_eq_mul,
        Matrix.smul_empty]
      have e : ∀ n : ℝ, n / Real.sqrt N / Real.sqrt D = (Real.sqrt N * Real.sqrt D)⁻¹ * n := by
        intro n; ring
      rw [e nx, e ny, e nz, hnx, hny, hnz]
      ring_nf
  · refine ⟨t, ?_, ?_, ?_⟩
    · show x0 - Real.sqrt N / Real.sqrt D * (nx / Real.sqrt N / Real.sqrt D)
        = x1 + t * (x2 - x1)
      have e : nx / D = (x0 - x1) - t * (x2 - x1) := by
        rw [div_eq_iff hD.ne', hfx]; ring
      rw [hmul, e]; ring
    · show y0 - Real.sqrt N / Real.sqrt D * (ny / Real.sqrt N / Real.sqrt D)
        = y1 + t * (y2 - y1)
      have e : ny / D = (y0 - y1) - t * (y2 - y1) := by
        rw [div_eq_iff hD.ne', hfy]; ring
      rw [hmul, e]; ring
    · show z0 - Real.sqrt N / Real.sqrt D * (nz / Real.sqrt N / Real.sqrt D)
        = z1 + t * (z2 - z1)
      have e : nz / D = (z0 - z1) - t * (z2 - z1) := by
        rw [div_eq_iff hD.ne', hfz]; ring
      rw [hmul, e]; ring
  · rw [hmul, hmul, hmul]
    have e : nx / D * (x2 - x1) + ny / D * (y2 - y1) + nz / D * (z2 - z1)
        = (nx * (x2 - x1) + ny * (y2 - y1) + nz * (z2 - z1)) / D := by ring
    rw [e, hperp, zero_div]
  · have e : (Real.sqrt N / Real.sqrt D * (nx / Real.sqrt N / Real.sqrt D)) ^ 2
        + (Real.sqrt N / Real.sqrt D * (ny / Real.sqrt N / Real.sqrt D)) ^ 2
        + (Real.sqrt N / Real.sqrt D * (nz / Real.sqrt N / Real.sqrt D)) ^ 2
        = (Real.sqrt N / Real.sqrt D) ^ 2 := by
      linear_combination (Real.sqrt N / Real.sqrt D) ^ 2 * hunit
    rw [e, Real.sqrt_sq hld]
  · intro s
    rw [← Real.sqrt_div hN0]
    apply Real.sqrt_le_sqrt
    have h1 := hdist s
    rw [div_le_iff₀ hD]
    have h2 : ((x0 - (x1 + s * (x2 - x1))) ^ 2 + (y0 - (y1 + s * (y2 - y1))) ^ 2
        + (z0 - (z1 + s * (z2 - z1))) ^ 2) * D = N + (t * D - s * D) * (t * D - s * D) := by
      rw [← h1]; ring
    rw [h2]
    linarith [mul_self_nonneg (t * D - s * D)]

/-- Witness for C20: O = (0, 1, 0), A = (0, 0, 0), B = (1, 0, 0): the residual is
`(0, 1, 0, 1)`, the distance of O from the x axis is 1 and the foot is the origin. -/
theorem edgeResidual_point_to_line_witness :
    edgeResidual realLibm ⟨0, 1, 0, 0⟩ ⟨0, 0, 0, 0⟩ ⟨1, 0, 0, 1⟩ = (0, 1, 0, 1) ∧
    ∃ la lb lc ld2 : ℝ,
      edgeResidual realLibm ⟨0, 1, 0, 0⟩ ⟨0, 0, 0, 0⟩ ⟨1, 0, 0, 1⟩ = (la, lb, lc, ld2) ∧
      la ^ 2 + lb ^ 2 + lc ^ 2 = 1 ∧
      ∀ s : ℝ, ld2 ≤ Real.sqrt (((0 : ℝ) - (0 + s * (1 - 0))) ^ 2
        + ((1 : ℝ) - (0 + s * (0 - 0))) ^ 2 + ((0 : ℝ) - (0 + s * (0 - 0))) ^ 2) := by
  have h := edgeResidual_point_to_line ⟨0, 1, 0, 0⟩ ⟨0, 0, 0, 0⟩ ⟨1, 0, 0, 1⟩
    (by norm_num) (by intro t; norm_num)
  obtain ⟨la, lb, lc, ld2, h1, -, h2, -, -, -, h3⟩ := h
  refine ⟨?_, la, lb, lc, ld2, h1, h2, h3⟩
  simp [edgeResidual, realLibm]

/-! ## Skipped optimisation -/

/-- C14, counterexample: on an initialised odometry with 11 last corner and 101 last
surface points and no current feature point, each of the 25 solver iterations selects
nothing, and yet the call moves `transformSum.pos` from `(0, 0, 0)` to `(-9/10, 0, 1)`:
the pose accumulation runs with the carried-forward transform. -/
theorem process_all_skip_counterexample :
    (stalledExample ℝ).systemInited = true ∧
    (stalledExample ℝ).lastCornerCloud.length > 10 ∧
    (stalledExample ℝ).lastSurfaceCloud.length > 100 ∧
    (stalledExample ℝ).transformSum.pos = ⟨0, 0, 0⟩ ∧
    ∀ ext : External ℝ, EverySkip realLibm ext (stalledExample ℝ) ∧
      ∃ st', process realLibm ext (stalledExample ℝ) = some st' ∧
        st'.transformSum.pos = ⟨-9 / 10, 0, 1⟩ ∧
        st'.transformSum ≠ (stalledExample ℝ).transformSum := by
  refine ⟨rfl, by simp [stalledExample], by simp [stalledExample], rfl, fun ext => ?_⟩
  refine ⟨everySkip_stalledExample realLibm ext, ?_⟩
  obtain ⟨st', h, -, hp⟩ := process_stalledExample ext
  refine ⟨st', h, hp, fun hc => ?_⟩
  have h2 : st'.transformSum.pos.z = (stalledExample ℝ).transformSum.pos.z := by rw [hc]
  rw [hp] at h2
  simp [stalledExample, BasicLaserOdometry.new, Twist.zero] at h2

/-- C14, amended: for every initialised state, if the optimisation is not entered or
every solver iteration selects fewer than 10 correspondences, then `process()` returns,
the transform after the call is the initial guess (the previous transform with its
translation reduced by `imuVeloFromStart * scanPeriod`), and `transformSum` after the call
is the one that the pose accumulation computes from that initial guess. -/
theorem process_all_skip {α : Type} [LinearOrderedField α] [FloorRing α]
    (lm : Libm α) (ext : External α) (st : BasicLaserOdometry α)
    (hinit : st.systemInited = true)
    (hskip : st.lastCornerCloud.length > 10 ∧ st.lastSurfaceCloud.length > 100 →
      EverySkip lm ext st) :
    ∃ st', process lm ext st = some st' ∧
      st'.transform = (initialGuess st).transform ∧
      st'.transformSum = (accumulate lm (initialGuess st)).transformSum := by
  obtain ⟨st1, h1, hf⟩ := process_of_allSkip lm ext st hinit hskip
  refine ⟨_, h1, ?_, accumulate_transformSum_frame lm st1 (initialGuess st) hf⟩
  rw [accumulate_transform]
  exact (congrArg (fun s => BasicLaserOdometry.transform s) hf :
    st1.frame.transform = (initialGuess st).frame.transform)

/-- Witness for C14 (amended): the stalled odometry, whose 25 solver iterations all select
nothing. -/
theorem process_all_skip_witness :
    (stalledExample ℚ).systemInited = true ∧
    ∀ (lm : Libm ℚ) (ext : External ℚ), EverySkip lm ext (stalledExample ℚ) ∧
      ∃ st', process lm ext (stalledExample ℚ) = some st' ∧
        st'.transform = (initialGuess (stalledExample ℚ)).transform ∧
        st'.transformSum = (accumulate lm (initialGuess (stalledExample ℚ))).transformSum :=
  ⟨rfl, fun lm ext => ⟨everySkip_stalledExample lm ext,
    process_all_skip lm ext (stalledExample ℚ) rfl
      (fun _ => everySkip_stalledExample lm ext)⟩⟩

/-- C15, counterexample: an initialised odometry with empty last clouds (so the
optimisation is skipped) and empty k-d trees is handed 11 less-sharp and 101 less-flat
points; after the call the k-d trees hold 11 and 101 points: they were rebuilt. -/
theorem process_kdtree_counterexample :
    (rebuildExample ℚ).systemInited = true ∧
    (rebuildExample ℚ).lastCornerCloud.length ≤ 10 ∧
    (rebuildExample ℚ).lastCornerKDTree = [] ∧ (rebuildExample ℚ).lastSurfaceKDTree = [] ∧
    ∀ (lm : Libm ℚ) (ext : External ℚ),
      ∃ st', process lm ext (rebuildExample ℚ) = some st' ∧
        st'.lastCornerKDTree.length = 11 ∧ st'.lastSurfaceKDTree.length = 101 ∧
        st'.lastCornerKDTree ≠ (rebuildExample ℚ).lastCornerKDTree ∧
        st'.lastSurfaceKDTree ≠ (rebuildExample ℚ).lastSurfaceKDTree := by
  refine ⟨rfl, by simp [rebuildExample, BasicLaserOdometry.new], rfl, rfl, fun lm ext => ?_⟩
  have hp : process lm ext (rebuildExample ℚ)
      = some (accumulate lm (initialGuess (rebuildExample ℚ))) := by
    rw [process_of_inited lm ext _ rfl, optimise_eq, if_neg]
    · rfl
    · simp [initialGuess, rebuildExample, BasicLaserOdometry.new]
  have hk := accumulate_kdtree_rebuilt lm (initialGuess (rebuildExample ℚ))
    (by simp [initialGuess, rebuildExample])
  have hc := accumulate_lastCornerCloud_length lm (initialGuess (rebuildExample ℚ))
  have hs := accumulate_lastSurfaceCloud_length lm (initialGuess (rebuildExample ℚ))
  have hc2 : (accumulate lm (initialGuess (rebuildExample ℚ))).lastCornerKDTree.length = 11 := by
    rw [hk.1, hc]; simp [initialGuess, rebuildExample]
  have hs2 : (accumulate lm (initialGuess (rebuildExample ℚ))).lastSurfaceKDTree.length
      = 101 := by
    rw [hk.2, hs]; simp [initialGuess, rebuildExample]
  refine ⟨_, hp, hc2, hs2, fun h => ?_, fun h => ?_⟩
  · rw [h] at hc2; simp [rebuildExample, BasicLaserOdometry.new] at hc2
  · rw [h] at hs2; simp [rebuildExample, BasicLaserOdometry.new] at hs2

/-- C15, amended: for every `process()` call on an initialised system that starts with
`lastCorner` holding at most 10 points or `lastSurface` holding at most 100 points, the
call returns, the new last clouds have the sizes of the supplied less-sharp and less-flat
clouds, and the previous k-d trees are kept exactly when the supplied less-sharp cloud has
at most 10 points or the supplied less-flat cloud has at most 100 points; otherwise both
trees are rebuilt from the new last clouds. -/
theorem process_kdtree {α : Type} [LinearOrderedField α] [FloorRing α]
    (lm : Libm α) (ext : External α) (st : BasicLaserOdometry α)
    (hinit : st.systemInited = true)
    (hsmall : st.lastCornerCloud.length ≤ 10 ∨ st.lastSurfaceCloud.length ≤ 100) :
    ∃ st', process lm ext st = some st' ∧
      st'.lastCornerCloud.length = st.cornerPointsLessSharp.length ∧
      st'.lastSurfaceCloud.length = st.surfPointsLessFlat.length ∧
      (st.cornerPointsLessSharp.length > 10 ∧ st.surfPointsLessFlat.length > 100 →
        st'.lastCornerKDTree = st'.lastCornerCloud ∧
          st'.lastSurfaceKDTree = st'.lastSurfaceCloud) ∧
      (st.cornerPointsLessSharp.length ≤ 10 ∨ st.surfPointsLessFlat.length ≤ 100 →
        st'.lastCornerKDTree = st.lastCornerKDTree ∧
          st'.lastSurfaceKDTree = st.lastSurfaceKDTree) := by
  have hp : process lm ext st = some (accumulate lm (initialGuess st)) := by
    rw [process_of_inited lm ext _ hinit, optimise_eq, if_neg]
    · rfl
    · show ¬ (st.lastCornerCloud.length > 10 ∧ st.lastSurfaceCloud.length > 100)
      omega
  refine ⟨_, hp, accumulate_lastCornerCloud_length lm _,
    accumulate_lastSurfaceCloud_length lm _, fun h => ?_, fun h => ?_⟩
  · exact accumulate_kdtree_rebuilt lm (initialGuess st) h
  · exact accumulate_kdtree_kept lm (initialGuess st)
      (by show ¬ (st.cornerPointsLessSharp.length > 10 ∧ st.surfPointsLessFlat.length > 100)
          omega)

/-- Witness for C15 (amended): with 3 less-sharp and 2 less-flat points supplied the
one-point trees are kept; with 11 and 101 points supplied the trees are rebuilt. -/
theorem process_kdtree_witness :
    (keepExample ℚ).systemInited = true ∧ (keepExample ℚ).lastCornerCloud.length ≤ 10 ∧
    ∀ (lm : Libm ℚ) (ext : External ℚ),
      ∃ st', process lm ext (keepExample ℚ) = some st' ∧
        st'.lastCornerCloud.length = 3 ∧ st'.lastSurfaceCloud.length = 2 ∧
        st'.lastCornerKDTree = [⟨5, 0, 0, 0⟩] ∧ st'.lastSurfaceKDTree = [⟨0, 5, 0, 0⟩] := by
  refine ⟨rfl, by simp [keepExample, BasicLaserOdometry.new], fun lm ext => ?_⟩
  obtain ⟨st', h, hc, hs, -, hk⟩ := process_kdtree lm ext (keepExample ℚ) rfl
    (Or.inl (by simp [keepExample, BasicLaserOdometry.new]))
  have hk2 := hk (Or.inl (by simp [keepExample]))
  exact ⟨st', h, by rw [hc]; simp [keepExample], by rw [hs]; simp [keepExample],
    hk2.1, hk2.2⟩

/-- C16: for every `process()` call on an initialised system in which no Gauss-Newton update
is applied (`lastCorner` has at most 10 points, or `lastSurface` has at most 100 points, or
`maxIterations = 0`, or every solver iteration selects fewer than 10 correspondences), the
call returns, the transform after the call has the same `rot_x`, `rot_y`, `rot_z` as before
and its translation is the previous translation minus `imuVeloFromStart * scanPeriod`. -/
theorem process_initial_guess {α : Type} [LinearOrderedField α] [FloorRing α]
    (lm : Libm α) (ext : External α) (st : BasicLaserOdometry α)
    (hinit : st.systemInited = true)
    (h : st.lastCornerCloud.length ≤ 10 ∨ st.lastSurfaceCloud.length ≤ 100 ∨
      st.maxIterations = 0 ∨ EverySkip lm ext st) :
    ∃ st', process lm ext st = some st' ∧
      st'.transform.rot_x = st.transform.rot_x ∧
      st'.transform.rot_y = st.transform.rot_y ∧
      st'.transform.rot_z = st.transform.rot_z ∧
      st'.transform.pos = ⟨st.transform.pos.x - st.imuVeloFromStart.x * st.scanPeriod,
        st.transform.pos.y - st.imuVeloFromStart.y * st.scanPeriod,
        st.transform.pos.z - st.imuVeloFromStart.z * st.scanPeriod⟩ := by
  have hskip : st.lastCornerCloud.length > 10 ∧ st.lastSurfaceCloud.length > 100 →
      EverySkip lm ext st := by
    intro hg
    rcases h with h | h | h | h
    · omega
    · omega
    · unfold EverySkip
      rw [h]
      trivial
    · exact h
  obtain ⟨st1, h1, hf⟩ := process_of_allSkip lm ext st hinit hskip
  have ht : (accumulate lm st1).transform = (initialGuess st).transform := by
    rw [accumulate_transform]
    exact (congrArg (fun s => BasicLaserOdometry.transform s) hf :
      st1.frame.transform = (initialGuess st).frame.transform)
  refine ⟨_, h1, ?_, ?_, ?_, ?_⟩ <;> rw [ht] <;> rfl

/-- Witness for C16: the stalled odometry (every one of its 25 solver iterations selects
nothing) keeps its zero rotation and its translation `(1, 0, 0)` becomes
`(1 - 1 * (1/10), 0, 0) = (9/10, 0, 0)`. -/
theorem process_initial_guess_witness :
    (stalledExample ℚ).systemInited = true ∧
    (stalledExample ℚ).lastCornerCloud.length > 10 ∧
    (stalledExample ℚ).lastSurfaceCloud.length > 100 ∧
    ∀ (lm : Libm ℚ) (ext : External ℚ), EverySkip lm ext (stalledExample ℚ) ∧
      ∃ st', process lm ext (stalledExample ℚ) = some st' ∧
        st'.transform.rot_x = 0 ∧ st'.transform.rot_y = 0 ∧ st'.transform.rot_z = 0 ∧
        st'.transform.pos = ⟨9 / 10, 0, 0⟩ := by
  refine ⟨rfl, by simp [stalledExample], by simp [stalledExample], fun lm ext => ?_⟩
  refine ⟨everySkip_stalledExample lm ext, ?_⟩
  obtain ⟨st', h, hx, hy, hz, hp⟩ := process_initial_guess lm ext (stalledExample ℚ) rfl
    (Or.inr (Or.inr (Or.inr (everySkip_stalledExample lm ext))))
  refine ⟨st', h, hx, hy, hz, ?_⟩
  rw [hp]
  simp [stalledExample, BasicLaserOdometry.new]
  norm_num

/-! ## The solver loop -/

/-- C17: in every `process()` call on an initialised system that enters the optimisation
and returns, the iterations that were run form a log of at most `maxIterations` entries
whose last state is the one handed to the pose accumulation. Entry `i` is the outcome of
the loop body of iteration `i` on the state before it; an iteration with fewer than 10
selected correspondences leaves the transform as it is and does not stop the loop; one
with at least 10 adds an update `x` to the transform, and it ends with `break` exactly
when `deltaR = sqrt(rad2deg(x0)^2 + rad2deg(x1)^2 + rad2deg(x2)^2) < deltaRAbort` and
`deltaT = sqrt((100 x3)^2 + (100 x4)^2 + (100 x5)^2) < deltaTAbort`. An entry that ends
with `break` is the last one, and an entry that does not is followed by another
iteration unless the budget `maxIterations` is used up. -/
theorem process_solver_bounded {α : Type} [LinearOrderedField α] [FloorRing α]
    (lm : Libm α) (ext : External α) (st st' : BasicLaserOdometry α)
    (hinit : st.systemInited = true)
    (hgate : st.lastCornerCloud.length > 10 ∧ st.lastSurfaceCloud.length > 100)
    (h : process lm ext st = some st') :
    ∃ tr : List (SolverState α × Flow),
      solverTrace lm ext st.maxIterations 0 (solverStart (initialGuess st)) = some tr ∧
      tr.length ≤ st.maxIterations ∧
      st' = accumulate lm
        ((tr.getLast?.map fun e => e.1.st).getD (solverStart (initialGuess st)).st) ∧
      ∀ (i : ℕ) (e : SolverState α × Flow), tr[i]? = some e →
        ∃ (prev : SolverState α) (st1 : BasicLaserOdometry α),
          (solverStart (initialGuess st) :: tr.map Prod.fst)[i]? = some prev ∧
          solverStep lm ext i prev = some e ∧
          assemble lm ext i prev.st = some st1 ∧
          (st1.laserCloudOri.length < 10 →
            e.2 = Flow.next ∧ e.1.st.transform = prev.st.transform) ∧
          (10 ≤ st1.laserCloudOri.length →
            ∃ matX : Fin 6 → α,
              e.1.st.transform =
                { rot_x := prev.st.transform.rot_x + matX 0
                  rot_y := prev.st.transform.rot_y + matX 1
                  rot_z := prev.st.transform.rot_z + matX 2
                  pos := ⟨prev.st.transform.pos.x + matX 3, prev.st.transform.pos.y + matX 4,
                    prev.st.transform.pos.z + matX 5⟩ } ∧
              (e.2 = Flow.stop ↔
                (lm.sqrt ((rad2deg lm (matX 0)) ^ 2 + (rad2deg lm (matX 1)) ^ 2
                    + (rad2deg lm (matX 2)) ^ 2) < st.deltaRAbort ∧
                  lm.sqrt ((matX 3 * 100) ^ 2 + (matX 4 * 100) ^ 2 + (matX 5 * 100) ^ 2)
                    < st.deltaTAbort))) ∧
          (e.2 = Flow.stop → i + 1 = tr.length) ∧
          (e.2 = Flow.next → i + 1 < st.maxIterations → i + 1 < tr.length) := by
  rw [process_of_inited lm ext st hinit, optimise_eq] at h
  have hg : (initialGuess st).lastCornerCloud.length > 10 ∧
      (initialGuess st).lastSurfaceCloud.length > 100 := hgate
  rw [if_pos hg] at h
  obtain ⟨st1, h1, rfl⟩ := Option.map_eq_some'.mp h
  obtain ⟨ss1, hss, rfl⟩ := Option.map_eq_some'.mp h1
  have hss2 : solverLoop lm ext st.maxIterations 0 (solverStart (initialGuess st))
      = some ss1 := hss
  obtain ⟨tr, htr⟩ := solverTrace_of_solverLoop lm ext _ _ _ _ hss2
  obtain ⟨hlen, hloop, hent⟩ := solverTrace_spec lm ext _ _ _ _ htr
  refine ⟨tr, htr, hlen, ?_, ?_⟩
  · rw [hss2, Option.some.injEq] at hloop
    rw [hloop]
    cases tr.getLast? <;> rfl
  · intro i e he
    obtain ⟨prev, hp, hstep, hfr, hstop, hnext⟩ := hent i e he
    rw [Nat.zero_add] at hstep
    obtain ⟨st1, ha, hlt, hge⟩ := solverStep_spec lm ext i prev e.1 e.2 hstep
    have hf := assemble_frame lm ext i prev.st st1 ha
    have ht : st1.transform = prev.st.transform := by
      have e := congrArg (fun s => BasicLaserOdometry.transform s) hf
      exact e
    have hR : st1.deltaRAbort = st.deltaRAbort := by
      have e1 := congrArg (fun s => BasicLaserOdometry.deltaRAbort s) hf
      have e2 := congrArg (fun s => BasicLaserOdometry.deltaRAbort s) hfr
      exact e1.trans e2
    have hT : st1.deltaTAbort = st.deltaTAbort := by
      have e1 := congrArg (fun s => BasicLaserOdometry.deltaTAbort s) hf
      have e2 := congrArg (fun s => BasicLaserOdometry.deltaTAbort s) hfr
      exact e1.trans e2
    refine ⟨prev, st1, hp, hstep, ha, ?_, ?_, hstop, hnext⟩
    · intro hl
      obtain ⟨h1, h2⟩ := hlt hl
      exact ⟨h2, by rw [h1]; exact ht⟩
    · intro hl
      obtain ⟨matX, h1, h2⟩ := hge hl
      refine ⟨matX, ?_, ?_⟩
      · rw [h1, ← ht]
      · rw [← hR, ← hT]
        exact h2

/-- Witness for C17: the stalled odometry enters the optimisation with a budget of 25
iterations; the call returns and its log has at most 25 entries. -/
theorem process_solver_bounded_witness :
    (stalledExample ℚ).systemInited = true ∧
    (stalledExample ℚ).lastCornerCloud.length > 10 ∧
    (stalledExample ℚ).lastSurfaceCloud.length > 100 ∧
    ∀ (lm : Libm ℚ) (ext : External ℚ),
      ∃ st', process lm ext (stalledExample ℚ) = some st' ∧
        ∃ tr : List (SolverState ℚ × Flow),
          solverTrace lm ext 25 0 (solverStart (initialGuess (stalledExample ℚ))) = some tr ∧
          tr.length ≤ 25 ∧
          st' = accumulate lm ((tr.getLast?.map fun e => e.1.st).getD
            (solverStart (initialGuess (stalledExample ℚ))).st) := by
  refine ⟨rfl, by simp [stalledExample], by simp [stalledExample], fun lm ext => ?_⟩
  obtain ⟨st1, h1, -⟩ := process_of_allSkip lm ext (stalledExample ℚ) rfl
    (fun _ => everySkip_stalledExample lm ext)
  obtain ⟨tr, htr, hlen, hst, -⟩ := process_solver_bounded lm ext (stalledExample ℚ) _ rfl
    ⟨by simp [stalledExample], by simp [stalledExample]⟩ h1
  exact ⟨_, h1, tr, htr, hlen, hst⟩

/-! ## Degeneracy handling -/

/-- C18, evaluation at the failing input: `axisExampleAtA` is the symmetric normal matrix
`diag(400, 1, 100, 900, 1600, 2500)` of six Jacobian rows along the axes. Whatever the
eigen-solver returns for it, as long as it is an orthonormal eigen-decomposition with the
eigenvalues in ascending order and `inverse` inverts `matV`: the two smallest eigenvalues
are 1 and 100, the system is flagged degenerate, and the matrix `matP = matV^-1 * matV2`
built by zeroing row 0 of `matV` is `diag(1, 1, 0, 1, 1, 1)`. So `matP` maps the
eigenvector of column 1 (eigenvalue 100, not degenerate) to zero instead of fixing it,
and `matP` applied to the eigenvector of column 0 (eigenvalue 1, degenerate) keeps the
full component 1 along that eigenvector instead of removing it. -/
theorem degeneracy_projection_defect {α : Type} [LinearOrderedField α]
    (ext : External α)
    (heig : axisExampleAtA * (ext.eigenSolver axisExampleAtA).2
      = (ext.eigenSolver axisExampleAtA).2 * Matrix.diagonal (ext.eigenSolver axisExampleAtA).1)
    (horth : (ext.eigenSolver axisExampleAtA).2.transpose * (ext.eigenSolver axisExampleAtA).2
      = 1)
    (hasc : ∀ i j : Fin 6, i ≤ j →
      (ext.eigenSolver axisExampleAtA).1 i ≤ (ext.eigenSolver axisExampleAtA).1 j)
    (hinv : ext.inverse (ext.eigenSolver axisExampleAtA).2 * (ext.eigenSolver axisExampleAtA).2
      = 1) :
    matAtA axisExampleRows = (axisExampleAtA : Matrix (Fin 6) (Fin 6) α) ∧
    (axisExampleAtA : Matrix (Fin 6) (Fin 6) α).transpose = axisExampleAtA ∧
    (ext.eigenSolver axisExampleAtA).1 0 = 1 ∧
    (ext.eigenSolver axisExampleAtA).1 1 = 100 ∧
    (degeneracy ext axisExampleAtA).1 = true ∧
    (degeneracy ext axisExampleAtA).2 = Matrix.diagonal ![1, 1, 0, 1, 1, 1] ∧
    (fun i => (ext.eigenSolver axisExampleAtA).2 i 1) ≠ 0 ∧
    (degeneracy ext axisExampleAtA).2.mulVec (fun i => (ext.eigenSolver axisExampleAtA).2 i 1)
      = 0 ∧
    Matrix.dotProduct
      ((degeneracy ext axisExampleAtA).2.mulVec
        (fun i => (ext.eigenSolver axisExampleAtA).2 i 0))
      (fun i => (ext.eigenSolver axisExampleAtA).2 i 0) = 1 := by
  obtain ⟨E, V, hEV⟩ : ∃ E V, ext.eigenSolver axisExampleAtA = (E, V) := ⟨_, _, rfl⟩
  have hdeg : degeneracy ext axisExampleAtA
      = ((degeneracyScan E (List.finRange 6) (V, false)).2,
          ext.inverse V * (degeneracyScan E (List.finRange 6) (V, false)).1) := by
    simp only [degeneracy, hEV]
  rw [hEV] at heig horth hasc hinv ⊢
  simp only at heig horth hasc hinv
  obtain ⟨e0, e1, e2, c0, u0, c1, u1, r0, ur⟩ := axisExample_eigen E V heig horth hasc
  obtain ⟨V2, hV2⟩ : ∃ V2 : Matrix (Fin 6) (Fin 6) α,
      V2 = fun r c => if r = 0 then 0 else V r c := ⟨_, rfl⟩
  have hscan : degeneracyScan E (List.finRange 6) (V, false) = (V2, true) := by
    have hl : List.finRange 6 = [0, 1, 2, 3, 4, 5] := rfl
    rw [hl, hV2]
    simp only [degeneracyScan]
    rw [if_pos (by rw [e0]; norm_num), if_neg (by rw [e1]; norm_num)]
  have hVVt : V * V.transpose = 1 := Matrix.mul_eq_one_comm.mp horth
  have hI : ext.inverse V = V.transpose := by
    calc ext.inverse V = ext.inverse V * (V * V.transpose) := by rw [hVVt, Matrix.mul_one]
      _ = (ext.inverse V * V) * V.transpose := by rw [Matrix.mul_assoc]
      _ = V.transpose := by rw [hinv, Matrix.one_mul]
  have hcol : ∀ j k, ∑ i, V i j * V i k = if j = k then 1 else 0 := by
    intro j k
    have h := congrFun (congrFun horth j) k
    simpa [Matrix.mul_apply, Matrix.one_apply] using h
  have p5 : (![1, 1, 0, 1, 1, 1] : Fin 6 → α) 5 = 1 := rfl
  have hP : ext.inverse V * V2 = Matrix.diagonal ![1, 1, 0, 1, 1, 1] := by
    rw [hI]
    ext j k
    have h1 : (V.transpose * V2) j k = (∑ i, V i j * V i k) - V 0 j * V 0 k := by
      rw [hV2]
      simp only [Matrix.mul_apply, Matrix.transpose_apply, Fin.sum_univ_six]
      simp
      ring
    rw [h1, hcol j k]
    have r00 := r0 0 (by decide)
    have r01 := r0 1 (by decide)
    have r03 := r0 3 (by decide)
    have r04 := r0 4 (by decide)
    have r05 := r0 5 (by decide)
    fin_cases j <;> fin_cases k <;> simp [r00, r01, r03, r04, r05, ur, Matrix.diagonal, p5]
  have hd1 : (degeneracy ext axisExampleAtA).1 = true := by rw [hdeg, hscan]
  have hd2 : (degeneracy ext axisExampleAtA).2 = Matrix.diagonal ![1, 1, 0, 1, 1, 1] := by
    rw [hdeg, hscan]
    exact hP
  refine ⟨?_, ?_, e0, e1, hd1, hd2, ?_, ?_, ?_⟩
  · ext i j
    simp only [matAtA, axisExampleRows, axisExampleAtA, axisExampleDiag, Matrix.diagonal]
    fin_cases i <;> fin_cases j <;> simp [vec6_five] <;> norm_num
  · simp [axisExampleAtA]
  · intro h
    have h2 := congrFun h 2
    have h3 : V 2 1 = 0 := h2
    rw [h3, zero_mul] at u1
    exact zero_ne_one u1
  · rw [hd2]
    ext i
    rw [Matrix.mulVec_diagonal]
    fin_cases i
    · exact (congrArg (fun t => (1 : α) * t) (c1 0 (by decide))).trans (mul_zero _)
    · exact (congrArg (fun t => (1 : α) * t) (c1 1 (by decide))).trans (mul_zero _)
    · exact zero_mul _
    · exact (congrArg (fun t => (1 : α) * t) (c1 3 (by decide))).trans (mul_zero _)
    · exact (congrArg (fun t => (1 : α) * t) (c1 4 (by decide))).trans (mul_zero _)
    · exact (congrArg (fun t => (1 : α) * t) (c1 5 (by decide))).trans (mul_zero _)
  · rw [hd2]
    simp only [Matrix.dotProduct, Matrix.mulVec_diagonal, Fin.sum_univ_six]
    have q0 : V 0 0 = 0 := c0 0 (by decide)
    have q2 : V 2 0 = 0 := c0 2 (by decide)
    have q3 : V 3 0 = 0 := c0 3 (by decide)
    have q4 : V 4 0 = 0 := c0 4 (by decide)
    have q5 : V 5 0 = 0 := c0 5 (by decide)
    have p1 : (![1, 1, 0, 1, 1, 1] : Fin 6 → α) 1 = 1 := rfl
    show _ * V 0 0 * V 0 0 + _ * V 1 0 * V 1 0 + _ * V 2 0 * V 2 0 + _ * V 3 0 * V 3 0
      + _ * V 4 0 * V 4 0 + _ * V 5 0 * V 5 0 = 1
    rw [q0, q2, q3, q4, q5, p1, one_mul, u0]
    simp

set_option maxRecDepth 100000 in
/-- Witness for C18: the routines of `axisExampleExt` return the eigenvalues
`(1, 100, 400, 900, 1600, 2500)` and the unit vectors of the axes 1, 2, 0, 3, 4, 5, an
orthonormal eigen-decomposition of `axisExampleAtA`; `matP` is `diag(1, 1, 0, 1, 1, 1)`, it
annihilates the eigenvector `e2` of eigenvalue 100 and fixes the eigenvector `e1` of
eigenvalue 1. -/
theorem degeneracy_projection_defect_witness :
    (axisExampleAtA * (axisExampleExt.eigenSolver axisExampleAtA).2
      = (axisExampleExt.eigenSolver axisExampleAtA).2
        * Matrix.diagonal (axisExampleExt.eigenSolver axisExampleAtA).1) ∧
    (axisExampleExt.eigenSolver axisExampleAtA).2.transpose
      * (axisExampleExt.eigenSolver axisExampleAtA).2 = 1 ∧
    (∀ i j : Fin 6, i ≤ j →
      (axisExampleExt.eigenSolver axisExampleAtA).1 i
        ≤ (axisExampleExt.eigenSolver axisExampleAtA).1 j) ∧
    axisExampleExt.inverse (axisExampleExt.eigenSolver axisExampleAtA).2
      * (axisExampleExt.eigenSolver axisExampleAtA).2 = 1 ∧
    (axisExampleExt.eigenSolver axisExampleAtA).1 = ![1, 100, 400, 900, 1600, 2500] ∧
    (degeneracy axisExampleExt axisExampleAtA).1 = true ∧
    (degeneracy axisExampleExt axisExampleAtA).2 = Matrix.diagonal ![1, 1, 0, 1, 1, 1] ∧
    (degeneracy axisExampleExt axisExampleAtA).2.mulVec ![0, 0, 1, 0, 0, 0] = 0 ∧
    Matrix.dotProduct ((degeneracy axisExampleExt axisExampleAtA).2.mulVec ![0, 1, 0, 0, 0, 0])
      ![0, 1, 0, 0, 0, 0] = 1 := by
  have heig : axisExampleAtA * (axisExampleExt.eigenSolver axisExampleAtA).2
      = (axisExampleExt.eigenSolver axisExampleAtA).2
        * Matrix.diagonal (axisExampleExt.eigenSolver axisExampleAtA).1 := by decide!
  have horth : (axisExampleExt.eigenSolver axisExampleAtA).2.transpose
      * (axisExampleExt.eigenSolver axisExampleAtA).2 = 1 := by decide!
  have hasc : ∀ i j : Fin 6, i ≤ j →
      (axisExampleExt.eigenSolver axisExampleAtA).1 i
        ≤ (axisExampleExt.eigenSolver axisExampleAtA).1 j := by decide!
  have hinv : axisExampleExt.inverse (axisExampleExt.eigenSolver axisExampleAtA).2
      * (axisExampleExt.eigenSolver axisExampleAtA).2 = 1 := by decide!
  obtain ⟨-, -, -, -, h5, h6, -, h8, h9⟩ := degeneracy_projection_defect axisExampleExt heig
    horth hasc hinv
  have v1 : (fun i => (axisExampleExt.eigenSolver axisExampleAtA).2 i 1)
      = ![0, 0, 1, 0, 0, 0] := by decide!
  have v0 : (fun i => (axisExampleExt.eigenSolver axisExampleAtA).2 i 0)
      = ![0, 1, 0, 0, 0, 0] := by decide!
  rw [v1] at h8
  rw [v0] at h9
  exact ⟨heig, horth, hasc, hinv, rfl, h5, h6, h8, h9⟩

/-! ## Pose accumulation -/

/-- C19, counterexample: on the stalled odometry (transform `(9/10, 0, 0)` after the
initial guess, no rotation, IMU shift `(0, 0, 1)`, zero `transformSum`) the composed
attitude is `(0, 0, 0)` and the call ends with `transformSum.pos = (-9/10, 0, 1)`, while
`transformSum.pos - rotateZXY(v, rz, rx, ry)` with `v = transform.pos - imuShiftFromStart`
and the z component of `v` multiplied by 1.05 is `(-9/10, 0, 21/20)`. -/
theorem process_world_translation_counterexample :
    (stalledExample ℝ).systemInited = true ∧
    ∀ ext : External ℝ,
      ∃ st', process realLibm ext (stalledExample ℝ) = some st' ∧
        st'.transform = ⟨0, 0, 0, ⟨9 / 10, 0, 0⟩⟩ ∧
        accumulateRotation realLibm (stalledExample ℝ).transformSum.rot_x
          (stalledExample ℝ).transformSum.rot_y (stalledExample ℝ).transformSum.rot_z
          (-st'.transform.rot_x) (-st'.transform.rot_y * (21 / 20)) (-st'.transform.rot_z)
          = (0, 0, 0) ∧
        st'.transformSum.pos = ⟨-9 / 10, 0, 1⟩ ∧
        (⟨(stalledExample ℝ).transformSum.pos.x - (rotateZXYv realLibm
              ⟨st'.transform.pos.x - (stalledExample ℝ).imuShiftFromStart.x,
                st'.transform.pos.y - (stalledExample ℝ).imuShiftFromStart.y,
                (st'.transform.pos.z - (stalledExample ℝ).imuShiftFromStart.z) * (21 / 20)⟩
              0 0 0).x,
          (stalledExample ℝ).transformSum.pos.y - (rotateZXYv realLibm
              ⟨st'.transform.pos.x - (stalledExample ℝ).imuShiftFromStart.x,
                st'.transform.pos.y - (stalledExample ℝ).imuShiftFromStart.y,
                (st'.transform.pos.z - (stalledExample ℝ).imuShiftFromStart.z) * (21 / 20)⟩
              0 0 0).y,
          (stalledExample ℝ).transformSum.pos.z - (rotateZXYv realLibm
              ⟨st'.transform.pos.x - (stalledExample ℝ).imuShiftFromStart.x,
                st'.transform.pos.y - (stalledExample ℝ).imuShiftFromStart.y,
                (st'.transform.pos.z - (stalledExample ℝ).imuShiftFromStart.z) * (21 / 20)⟩
              0 0 0).z⟩ : Vector3 ℝ) = ⟨-9 / 10, 0, 21 / 20⟩ := by
  refine ⟨rfl, fun ext => ?_⟩
  obtain ⟨st', h, ht, hp⟩ := process_stalledExample ext
  refine ⟨st', h, ht, ?_, hp, ?_⟩
  · rw [ht]
    simp [stalledExample, BasicLaserOdometry.new, Twist.zero, accumulateRotation_origin]
  · rw [ht]
    simp [stalledExample, BasicLaserOdometry.new, Twist.zero, rotateZXYv_zero]
    norm_num

/-- C19, amended: for every `process()` call on an initialised system that returns, with
`(rx, ry, rz) = accumulateRotation(transformSum.rot, (-rot_x, -1.05 * rot_y, -rot_z))`
computed from the old `transformSum` and the final transform, the new `transformSum.pos`
is the old `transformSum.pos` minus `rotateZXY(v, rz, rx, ry)`, where
`v = (pos.x - shift.x, pos.y - shift.y, 1.05 * pos.z - shift.z)` for the final
`transform.pos` and `imuShiftFromStart`: the gain 1.05 multiplies the z translation only,
not the IMU shift. The call returns whenever the optimisation is not entered or every
solver iteration selects fewer than 10 correspondences. -/
theorem process_world_translation {α : Type} [LinearOrderedField α] [FloorRing α]
    (lm : Libm α) (ext : External α) (st : BasicLaserOdometry α)
    (hinit : st.systemInited = true) :
    (∀ st', process lm ext st = some st' →
      ∃ (rx ry rz : Angle α) (v : Vector3 α),
        (rx, ry, rz) = accumulateRotation lm st.transformSum.rot_x st.transformSum.rot_y
          st.transformSum.rot_z (-st'.transform.rot_x) (-st'.transform.rot_y * (21 / 20))
          (-st'.transform.rot_z) ∧
        v = rotateZXYv lm
          ⟨st'.transform.pos.x - st.imuShiftFromStart.x,
            st'.transform.pos.y - st.imuShiftFromStart.y,
            st'.transform.pos.z * (21 / 20) - st.imuShiftFromStart.z⟩ rz rx ry ∧
        st'.transformSum.pos = ⟨st.transformSum.pos.x - v.x, st.transformSum.pos.y - v.y,
          st.transformSum.pos.z - v.z⟩) ∧
    ((st.lastCornerCloud.length > 10 ∧ st.lastSurfaceCloud.length > 100 →
        EverySkip lm ext st) → ∃ st', process lm ext st = some st') := by
  constructor
  · intro st' h
    obtain ⟨st1, rfl, hf⟩ := process_inv lm ext st st' hinit h
    have e1 : st1.transformSum = st.transformSum := by
      have e := congrArg (fun s => BasicLaserOdometry.transformSum s) hf
      exact e
    have e2 : st1.imuShiftFromStart = st.imuShiftFromStart := by
      have e := congrArg (fun s => BasicLaserOdometry.imuShiftFromStart s) hf
      exact e
    refine ⟨_, _, _, _, rfl, rfl, ?_⟩
    rw [accumulate_transformSum, accumulate_transform, e1, e2]
    rfl
  · intro hskip
    obtain ⟨st1, h1, -⟩ := process_of_allSkip lm ext st hinit hskip
    exact ⟨_, h1⟩

/-- Witness for C19 (amended): the stalled odometry; the call returns and its new
`transformSum.pos` obeys the formula. -/
theorem process_world_translation_witness :
    (stalledExample ℝ).systemInited = true ∧
    ∀ ext : External ℝ,
      (∃ st', process realLibm ext (stalledExample ℝ) = some st') ∧
      ∀ st', process realLibm ext (stalledExample ℝ) = some st' →
        ∃ (rx ry rz : Angle ℝ) (v : Vector3 ℝ),
          (rx, ry, rz) = accumulateRotation realLibm (stalledExample ℝ).transformSum.rot_x
            (stalledExample ℝ).transformSum.rot_y (stalledExample ℝ).transformSum.rot_z
            (-st'.transform.rot_x) (-st'.transform.rot_y * (21 / 20))
            (-st'.transform.rot_z) ∧
          v = rotateZXYv realLibm
            ⟨st'.transform.pos.x - (stalledExample ℝ).imuShiftFromStart.x,
              st'.transform.pos.y - (stalledExample ℝ).imuShiftFromStart.y,
              st'.transform.pos.z * (21 / 20) - (stalledExample ℝ).imuShiftFromStart.z⟩
            rz rx ry ∧
          st'.transformSum.pos = ⟨(stalledExample ℝ).transformSum.pos.x - v.x,
            (stalledExample ℝ).transformSum.pos.y - v.y,
            (stalledExample ℝ).transformSum.pos.z - v.z⟩ :=
  ⟨rfl, fun ext =>
    ⟨(process_world_translation realLibm ext (stalledExample ℝ) rfl).2
        (fun _ => everySkip_stalledExample realLibm ext),
      (process_world_translation realLibm ext (stalledExample ℝ) rfl).1⟩⟩

/-! ## Jacobian rows -/

/-- C21: for every selected feature with original point `p` whose interpolation coefficient
is 1 (full fraction), every weighted gradient `c` and every transform, the six entries
`(arx, ary, arz, atx, aty, atz)` of the Jacobian row are the partial derivatives with
respect to `(rot_x, rot_y, rot_z, tx, ty, tz)` of `f = c . q`, where `q` is `p` mapped by
`transformToStart`, that is `rotateZXY(p - t, -rot_z, -rot_x, -rot_y)`; and the y
component of `q` does not depend on `rot_y`. -/
theorem jacobianRow_gradient (st : BasicLaserOdometry ℝ) (p c : PointXYZI ℝ)
    (hs : interpolationCoeff st.scanPeriod p.intensity = 1) :
    HasDerivAt (fun r => weightedQuery realLibm st p c { st.transform with rot_x := r })
      ((jacobianRow realLibm st.transform p c).1 0) st.transform.rot_x ∧
    HasDerivAt (fun r => weightedQuery realLibm st p c { st.transform with rot_y := r })
      ((jacobianRow realLibm st.transform p c).1 1) st.transform.rot_y ∧
    HasDerivAt (fun r => weightedQuery realLibm st p c { st.transform with rot_z := r })
      ((jacobianRow realLibm st.transform p c).1 2) st.transform.rot_z ∧
    HasDerivAt (fun v => weightedQuery realLibm st p c
        { st.transform with pos := ⟨v, st.transform.pos.y, st.transform.pos.z⟩ })
      ((jacobianRow realLibm st.transform p c).1 3) st.transform.pos.x ∧
    HasDerivAt (fun v => weightedQuery realLibm st p c
        { st.transform with pos := ⟨st.transform.pos.x, v, st.transform.pos.z⟩ })
      ((jacobianRow realLibm st.transform p c).1 4) st.transform.pos.y ∧
    HasDerivAt (fun v => weightedQuery realLibm st p c
        { st.transform with pos := ⟨st.transform.pos.x, st.transform.pos.y, v⟩ })
      ((jacobianRow realLibm st.transform p c).1 5) st.transform.pos.z ∧
    transformToStart realLibm st p
      = rotateZXY realLibm
        ⟨p.x - st.transform.pos.x, p.y - st.transform.pos.y, p.z - st.transform.pos.z, p.intensity⟩
        (-st.transform.rot_z) (-st.transform.rot_x) (-st.transform.rot_y) ∧
    ∀ r : ℝ, (transformToStart realLibm
        { st with transform := { st.transform with rot_y := r } } p).y
      = (transformToStart realLibm st p).y := by
  refine ⟨jacobianRow_rot_x st p c hs, jacobianRow_rot_y st p c hs, jacobianRow_rot_z st p c hs,
    jacobianRow_pos_x st p c hs, jacobianRow_pos_y st p c hs, jacobianRow_pos_z st p c hs,
    ?_, ?_⟩
  · simp only [transformToStart, hs, neg_mul, one_mul]
  · intro r
    simp only [transformToStart, rotateZXY, rotY]

/-- Witness for C21: scan period 1/10, transform the translation `(1, 0, 0)`, the point
`(1, 2, 3)` with intensity 3.1 (ring 3, relative time 0.1, coefficient 1) and the gradient
`(1, 1, 1)`. -/
theorem jacobianRow_gradient_witness :
    interpolationCoeff (translationExample ℝ).scanPeriod
      (⟨1, 2, 3, 31 / 10⟩ : PointXYZI ℝ).intensity = 1 ∧
    HasDerivAt (fun r => weightedQuery realLibm (translationExample ℝ) (⟨1, 2, 3, 31 / 10⟩ : PointXYZI ℝ) (⟨1, 1, 1, 0⟩ : PointXYZI ℝ) { (translationExample ℝ).transform with rot_x := r })
      ((jacobianRow realLibm (translationExample ℝ).transform (⟨1, 2, 3, 31 / 10⟩ : PointXYZI ℝ) (⟨1, 1, 1, 0⟩ : PointXYZI ℝ)).1 0) (translationExample ℝ).transform.rot_x ∧
    HasDerivAt (fun r => weightedQuery realLibm (translationExample ℝ) (⟨1, 2, 3, 31 / 10⟩ : PointXYZI ℝ) (⟨1, 1, 1, 0⟩ : PointXYZI ℝ) { (translationExample ℝ).transform with rot_y := r })
      ((jacobianRow realLibm (translationExample ℝ).transform (⟨1, 2, 3, 31 / 10⟩ : PointXYZI ℝ) (⟨1, 1, 1, 0⟩ : PointXYZI ℝ)).1 1) (translationExample ℝ).transform.rot_y ∧
    HasDerivAt (fun r => weightedQuery realLibm (translationExample ℝ) (⟨1, 2, 3, 31 / 10⟩ : PointXYZI ℝ) (⟨1, 1, 1, 0⟩ : PointXYZI ℝ) { (translationExample ℝ).transform with rot_z := r })
      ((jacobianRow realLibm (translationExample ℝ).transform (⟨1, 2, 3, 31 / 10⟩ : PointXYZI ℝ) (⟨1, 1, 1, 0⟩ : PointXYZI ℝ)).1 2) (translationExample ℝ).transform.rot_z ∧
    HasDerivAt (fun v => weightedQuery realLibm (translationExample ℝ) (⟨1, 2, 3, 31 / 10⟩ : PointXYZI ℝ) (⟨1, 1, 1, 0⟩ : PointXYZI ℝ)
        { (translationExample ℝ).transform with pos := ⟨v, (translationExample ℝ).transform.pos.y, (translationExample ℝ).transform.pos.z⟩ })
      ((jacobianRow realLibm (translationExample ℝ).transform (⟨1, 2, 3, 31 / 10⟩ : PointXYZI ℝ) (⟨1, 1, 1, 0⟩ : PointXYZI ℝ)).1 3) (translationExample ℝ).transform.pos.x ∧
    HasDerivAt (fun v => weightedQuery realLibm (translationExample ℝ) (⟨1, 2, 3, 31 / 10⟩ : PointXYZI ℝ) (⟨1, 1, 1, 0⟩ : PointXYZI ℝ)
        { (translationExample ℝ).transform with pos := ⟨(translationExample ℝ).transform.pos.x, v, (translationExample ℝ).transform.pos.z⟩ })
      ((jacobianRow realLibm (translationExample ℝ).transform (⟨1, 2, 3, 31 / 10⟩ : PointXYZI ℝ) (⟨1, 1, 1, 0⟩ : PointXYZI ℝ)).1 4) (translationExample ℝ).transform.pos.y ∧
    HasDerivAt (fun v => weightedQuery realLibm (translationExample ℝ) (⟨1, 2, 3, 31 / 10⟩ : PointXYZI ℝ) (⟨1, 1, 1, 0⟩ : PointXYZI ℝ)
        { (translationExample ℝ).transform with pos := ⟨(translationExample ℝ).transform.pos.x, (translationExample ℝ).transform.pos.y, v⟩ })
      ((jacobianRow realLibm (translationExample ℝ).transform (⟨1, 2, 3, 31 / 10⟩ : PointXYZI ℝ) (⟨1, 1, 1, 0⟩ : PointXYZI ℝ)).1 5) (translationExample ℝ).transform.pos.z ∧
    transformToStart realLibm (translationExample ℝ) (⟨1, 2, 3, 31 / 10⟩ : PointXYZI ℝ)
      = rotateZXY realLibm
        ⟨(⟨1, 2, 3, 31 / 10⟩ : PointXYZI ℝ).x - (translationExample ℝ).transform.pos.x, (⟨1, 2, 3, 31 / 10⟩ : PointXYZI ℝ).y - (translationExample ℝ).transform.pos.y, (⟨1, 2, 3, 31 / 10⟩ : PointXYZI ℝ).z - (translationExample ℝ).transform.pos.z, (⟨1, 2, 3, 31 / 10⟩ : PointXYZI ℝ).intensity⟩
        (-(translationExample ℝ).transform.rot_z) (-(translationExample ℝ).transform.rot_x) (-(translationExample ℝ).transform.rot_y) ∧
    ∀ r : ℝ, (transformToStart realLibm
        { (translationExample ℝ) with transform := { (translationExample ℝ).transform with rot_y := r } } (⟨1, 2, 3, 31 / 10⟩ : PointXYZI ℝ)).y
      = (transformToStart realLibm (translationExample ℝ) (⟨1, 2, 3, 31 / 10⟩ : PointXYZI ℝ)).y := by
  have hs : interpolationCoeff (translationExample ℝ).scanPeriod
      (⟨1, 2, 3, 31 / 10⟩ : PointXYZI ℝ).intensity = 1 := by
    norm_num [interpolationCoeff, truncToInt, translationExample, BasicLaserOdometry.new]
  exact ⟨hs, jacobianRow_gradient (translationExample ℝ) ⟨1, 2, 3, 31 / 10⟩ ⟨1, 1, 1, 0⟩ hs⟩

/-! ## Planar correspondence search -/

/-- C22: for every `lastSurface` cloud whose ring ids are non-decreasing in index order
and every query, whenever the planar search caches A, B and C all `>= 0`, the three are
indices of points of the cloud and pairwise distinct, B lies on the same ring as A, C
lies on a different ring than A with `|ring(C) - ring(A)| <= 2`, and B and C each have
squared distance below 25 to the query. -/
theorem planarSearch_triple {α : Type} [LinearOrderedField α] [FloorRing α]
    (cloud : PointCloud α) (surfPointsFlatNum : ℕ)
    (pointSel : PointXYZI α) (pointSearchInd : ℤ) (pointSearchSqDis : α) (a b c : ℤ)
    (hsort : RingSorted cloud)
    (h : planarSearch cloud surfPointsFlatNum pointSel pointSearchInd pointSearchSqDis
      = some (a, b, c))
    (ha : 0 ≤ a) (hb : 0 ≤ b) (hc : 0 ≤ c) :
    ∃ pa pb pc, cloud[a.toNat]? = some pa ∧ cloud[b.toNat]? = some pb ∧
      cloud[c.toNat]? = some pc ∧ a ≠ b ∧ a ≠ c ∧ b ≠ c ∧
      ring pb = ring pa ∧ ring pc ≠ ring pa ∧ |ring pc - ring pa| ≤ 2 ∧
      calcSquaredDiff pb pointSel < 25 ∧ calcSquaredDiff pc pointSel < 25 := by
  unfold planarSearch at h
  split at h
  · split at h
    · rename_i hind
      split at h
      · exact absurd h (by simp)
      · rename_i pa hpa
        have hpa' : cloud[pointSearchInd.toNat]? = some pa := by simpa using hpa
        simp only [Option.bind_eq_some, Option.some.injEq, Prod.mk.injEq] at h
        obtain ⟨fwd, hfwd, bwd, hbwd, ha', hb', hc'⟩ := h
        have hf := planarForwardScan_ok cloud pointSel (ring pa) surfPointsFlatNum
          pointSearchInd.toNat pa hpa' rfl hsort _ _ ((25, -1), (25, -1)) fwd
          (Nat.lt_succ_self _) le_rfl le_rfl
          ⟨by intro h0; simp at h0, by intro h0; simp at h0⟩ hfwd
        have hbk := planarBackwardScan_ok cloud pointSel (ring pa) pointSearchInd.toNat
          pa hpa' rfl hsort _ fwd bwd le_rfl hf.1 hf.2.1 hf.2.2 hbwd
        obtain ⟨pb, b1, b2, b3, b4, b5⟩ := hbk.2.2.1 (by rw [hb']; exact hb)
        obtain ⟨pc, c1, c2, c3, c4, c5, c6⟩ := hbk.2.2.2 (by rw [hc']; exact hc)
        subst ha'
        rw [hb'] at b1 b3
        rw [hc'] at c1 c4
        rw [Int.toNat_of_nonneg hind] at b3 c4
        refine ⟨pa, pb, pc, hpa', b1, c1, fun e => b3 e.symm, fun e => c4 e.symm, ?_, b2, c2,
          c3, by rw [b4]; exact b5, by rw [c5]; exact c6⟩
        intro e
        rw [e, c1] at b1
        have := Option.some.inj b1
        rw [this] at c2
        exact c2 b2
    · exact absurd h (by simp)
  · simp only [Option.some.injEq, Prod.mk.injEq] at h
    omega

/-- Witness for C22: in a cloud of three points on ring 5 and one on ring 6, for the
query at the origin with nearest neighbour index 1, the search caches `(1, 0, 3)`: B = 0
is on ring 5 at squared distance 1, C = 3 is on ring 6 at squared distance 1. -/
theorem planarSearch_triple_witness :
    RingSorted planarExampleCloud ∧
    planarSearch planarExampleCloud 4 ⟨0, 0, 0, 0⟩ 1 0 = some (1, 0, 3) ∧
    ∃ pa pb pc, planarExampleCloud[(1 : ℤ).toNat]? = some pa ∧
      planarExampleCloud[(0 : ℤ).toNat]? = some pb ∧
      planarExampleCloud[(3 : ℤ).toNat]? = some pc ∧ (1 : ℤ) ≠ 0 ∧ (1 : ℤ) ≠ 3 ∧
      (0 : ℤ) ≠ 3 ∧ ring pb = ring pa ∧ ring pc ≠ ring pa ∧ |ring pc - ring pa| ≤ 2 ∧
      calcSquaredDiff pb (⟨0, 0, 0, 0⟩ : PointXYZI ℚ) < 25 ∧
      calcSquaredDiff pc (⟨0, 0, 0, 0⟩ : PointXYZI ℚ) < 25 := by
  have hs : RingSorted planarExampleCloud := by
    intro i j pi pj hij hi hj
    have hj4 : j < 4 := by
      by_contra hn
      have : planarExampleCloud[j]? = none := by
        apply List.getElem?_eq_none
        simp [planarExampleCloud]; omega
      rw [this] at hj; cases hj
    have hi4 : i < 4 := by omega
    interval_cases j <;> interval_cases i <;>
      simp [planarExampleCloud] at hi hj <;> subst hi <;> subst hj <;> first
        | omega
        | decide!
  exact ⟨hs, by decide!, planarSearch_triple planarExampleCloud 4 ⟨0, 0, 0, 0⟩ 1 0 1 0 3 hs
    (by decide!) (by decide) (by decide) (by decide)⟩

/-! ## Tie-break of the edge search -/

/-- C23, counterexample: in the 12-point cloud `tieCloud`, for the query at the origin with
nearest neighbour index 5 (ring 5), the points of index 3 and 4 are both admissible
(ring 4, inside the window, squared distance 4 < 25), 4 is the minimal squared distance
of an admissible candidate, and the search caches B = 4, not the smaller index 3: the
backward scan visits index 4 first and keeps it against the equal distance of index 3. -/
theorem edgeSearch_tie_counterexample :
    edgeSearch tieCloud 12 ⟨0, 0, 0, 0⟩ 5 1 = some (5, 4) ∧
    (∃ pa p3 p4, tieCloud[5]? = some pa ∧ tieCloud[3]? = some p3 ∧ tieCloud[4]? = some p4 ∧
      ring p3 ≠ ring pa ∧ |ring p3 - ring pa| ≤ 2 ∧
      ring p4 ≠ ring pa ∧ |ring p4 - ring pa| ≤ 2 ∧
      calcSquaredDiff p3 (⟨0, 0, 0, 0⟩ : PointXYZI ℚ) = 4 ∧
      calcSquaredDiff p4 (⟨0, 0, 0, 0⟩ : PointXYZI ℚ) = 4) ∧
    (∀ p ∈ tieCloud, ring p ≠ 5 → |ring p - 5| ≤ 2 →
      4 ≤ calcSquaredDiff p (⟨0, 0, 0, 0⟩ : PointXYZI ℚ)) ∧
    (3 : ℤ) < 4 := by
  refine ⟨by decide!, ⟨_, _, _, rfl, rfl, rfl, by decide!, by decide!, by decide!,
    by decide!, by decide!, by decide!⟩, by decide!, by decide⟩

/-- C23, amended: whenever the edge search ran for a nearest neighbour A and returns B,
then for every candidate that the scans reach and compare (see `EdgeCandidate`), B is
cached (`>= 0`), B is itself such a candidate, the squared distance of B to the query is
at most the one of the candidate, and on equality: if the candidate is one of the forward
scan (index above A), then B is an index of the forward scan too, above A and not above
the candidate; if the candidate is one of the backward scan (index below A), its index is
not above B. So B is a candidate of minimal distance; among forward candidates of that
distance the smallest index wins, among backward candidates the largest index wins, and a
forward candidate wins against a backward candidate of equal distance. -/
theorem edgeSearch_tie_break {α : Type} [LinearOrderedField α] [FloorRing α]
    (cloud : PointCloud α) (cornerPointsSharpNum : ℕ)
    (pointSel : PointXYZI α) (pointSearchInd : ℤ) (pointSearchSqDis : α) (a b : ℤ)
    (h : edgeSearch cloud cornerPointsSharpNum pointSel pointSearchInd pointSearchSqDis
      = some (a, b))
    (ha : 0 ≤ a) (pa : PointXYZI α) (hpa : cloud[a.toNat]? = some pa)
    (j : ℕ) (pj : PointXYZI α)
    (hcand : EdgeCandidate cloud pointSel (ring pa) cornerPointsSharpNum a.toNat j pj) :
    0 ≤ b ∧ ∃ pb, cloud[b.toNat]? = some pb ∧
      EdgeCandidate cloud pointSel (ring pa) cornerPointsSharpNum a.toNat b.toNat pb ∧
      calcSquaredDiff pb pointSel ≤ calcSquaredDiff pj pointSel ∧
      (calcSquaredDiff pj pointSel = calcSquaredDiff pb pointSel →
        (a.toNat < j → a < b ∧ b ≤ (j : ℤ)) ∧ (j < a.toNat → (j : ℤ) ≤ b)) := by
  unfold edgeSearch at h
  split at h
  · split at h
    · rename_i hind
      split at h
      · exact absurd h (by simp)
      · rename_i pa' hpa'
        simp only [Option.bind_eq_some, Option.some.injEq, Prod.mk.injEq] at h
        obtain ⟨fwd, hfwd, bwd, hbwd, ha', hb'⟩ := h
        subst ha'
        have hpa2 : cloud[pointSearchInd.toNat]? = some pa' := by simpa using hpa'
        rw [hpa] at hpa2
        obtain rfl := Option.some.inj hpa2
        obtain ⟨f1, f2, f3, f4, f5⟩ := edgeForwardScan_min cloud pointSel (ring pa)
          cornerPointsSharpNum _ _ (25, -1) fwd (by omega) (fun h0 => absurd h0 (lt_irrefl _))
          (fun h0 => by simp at h0) hfwd
        have hfI : 0 ≤ fwd.2 → ((pointSearchInd.toNat : ℕ) : ℤ) ≤ fwd.2 := by
          intro h0
          by_cases e : fwd = (25, -1)
          · rw [e] at h0
            simp at h0
          · have := f4 e
            push_cast at this
            omega
        obtain ⟨b1, b2, b3, b4, b5⟩ := edgeBackwardScan_min cloud pointSel (ring pa)
          pointSearchInd.toNat fwd bwd f3 hfI hbwd
        obtain ⟨c1, c2⟩ := edgeForwardScan_cand cloud pointSel (ring pa) cornerPointsSharpNum
          pointSearchInd.toNat _ _ (25, -1) fwd (Nat.lt_succ_self _)
          (fun k pk h1 h2 _ => by omega) (fun h0 => by simp at h0) le_rfl hfwd
        obtain ⟨-, c4⟩ := edgeBackwardScan_cand cloud pointSel (ring pa) cornerPointsSharpNum
          pointSearchInd.toNat pointSearchInd.toNat fwd bwd le_rfl
          (fun k pk h1 h2 _ => by omega) c2 c1 hbwd
        obtain ⟨hj, hd, hc⟩ := hcand
        have key : bwd.1 ≤ calcSquaredDiff pj pointSel ∧
            (calcSquaredDiff pj pointSel = bwd.1 →
              (pointSearchInd.toNat < j → pointSearchInd < bwd.2 ∧ bwd.2 ≤ (j : ℤ)) ∧
                (j < pointSearchInd.toNat → (j : ℤ) ≤ bwd.2)) := by
          rcases hc with ⟨haj, hjn, hring, hno⟩ | ⟨hja, hring, hno⟩
          · obtain ⟨g1, g2⟩ := f5 j pj (by omega) hjn hj
              (fun m pm h1 h2 h3 => hno m pm (by omega) h2 h3) hring hd
            refine ⟨b1.trans g1, fun e => ⟨fun _ => ?_, fun hlt => by omega⟩⟩
            have e1 : bwd.1 = fwd.1 := le_antisymm b1 (by rw [← e]; exact g1)
            rw [b2 e1]
            have hne : fwd ≠ (25, -1) := by
              intro e2
              rw [e2] at e1
              rw [e1] at e
              rw [e] at hd
              exact lt_irrefl _ hd
            have h4 := f4 hne
            push_cast at h4
            exact ⟨by omega, g2 (by rw [e, e1])⟩
          · obtain ⟨g1, g2⟩ := b5 j pj hja hj hno hring hd
            exact ⟨g1, fun e => ⟨fun hlt => by omega, fun _ => g2 e⟩⟩
        have hb0 : 0 ≤ bwd.2 := b3 (lt_of_le_of_lt key.1 hd)
        obtain ⟨pb, p1, p5⟩ := c4 hb0
        rw [← hb']
        refine ⟨hb0, pb, p1.1, p1, by rw [p5]; exact key.1, fun e => ?_⟩
        rw [p5] at e
        exact key.2 e
    · exact absurd h (by simp)
  · simp only [Option.some.injEq, Prod.mk.injEq] at h
    omega

/-- Witness for C23 (amended): in `crossTieCloud` the point of index 2 is a candidate of the
forward scan and the point of index 0 a candidate of the backward scan around A = 1, both
at squared distance 4; the cached B = 2 is the forward one. -/
theorem edgeSearch_tie_break_witness :
    edgeSearch crossTieCloud 3 ⟨0, 0, 0, 0⟩ 1 1 = some (1, 2) ∧
    EdgeCandidate crossTieCloud ⟨0, 0, 0, 0⟩ (ring (⟨1, 0, 0, 5⟩ : PointXYZI ℚ)) 3 (1 : ℤ).toNat 2
      ⟨0, 2, 0, 6⟩ ∧
    EdgeCandidate crossTieCloud ⟨0, 0, 0, 0⟩ (ring (⟨1, 0, 0, 5⟩ : PointXYZI ℚ)) 3 (1 : ℤ).toNat 0
      ⟨2, 0, 0, 4⟩ ∧
    calcSquaredDiff (⟨2, 0, 0, 4⟩ : PointXYZI ℚ) ⟨0, 0, 0, 0⟩
      = calcSquaredDiff (⟨0, 2, 0, 6⟩ : PointXYZI ℚ) ⟨0, 0, 0, 0⟩ ∧
    (0 : ℤ) ≤ 2 ∧ ∃ pb, crossTieCloud[(2 : ℤ).toNat]? = some pb ∧
      EdgeCandidate crossTieCloud ⟨0, 0, 0, 0⟩ (ring (⟨1, 0, 0, 5⟩ : PointXYZI ℚ)) 3
        (1 : ℤ).toNat (2 : ℤ).toNat pb ∧
      calcSquaredDiff pb (⟨0, 0, 0, 0⟩ : PointXYZI ℚ)
        ≤ calcSquaredDiff (⟨0, 2, 0, 6⟩ : PointXYZI ℚ) ⟨0, 0, 0, 0⟩ ∧
      (calcSquaredDiff (⟨0, 2, 0, 6⟩ : PointXYZI ℚ) ⟨0, 0, 0, 0⟩
          = calcSquaredDiff pb (⟨0, 0, 0, 0⟩ : PointXYZI ℚ) →
        ((1 : ℤ).toNat < 2 → (1 : ℤ) < 2 ∧ (2 : ℤ) ≤ ((2 : ℕ) : ℤ)) ∧
          (2 < (1 : ℤ).toNat → ((2 : ℕ) : ℤ) ≤ 2)) := by
  have hc : EdgeCandidate crossTieCloud ⟨0, 0, 0, 0⟩ (ring (⟨1, 0, 0, 5⟩ : PointXYZI ℚ)) 3
      (1 : ℤ).toNat 2 ⟨0, 2, 0, 6⟩ := by
    refine ⟨rfl, by decide!, Or.inl ⟨by decide, by decide, by decide!, ?_⟩⟩
    intro k pk h1 h2 hk
    have h3 : 1 < k := h1
    interval_cases k
    simp [crossTieCloud] at hk
    subst hk
    decide!
  have hc0 : EdgeCandidate crossTieCloud ⟨0, 0, 0, 0⟩ (ring (⟨1, 0, 0, 5⟩ : PointXYZI ℚ)) 3
      (1 : ℤ).toNat 0 ⟨2, 0, 0, 4⟩ := by
    refine ⟨rfl, by decide!, Or.inr ⟨by decide, by decide!, ?_⟩⟩
    intro k pk h1 h2 hk
    have h3 : k < 1 := h2
    interval_cases k
    simp [crossTieCloud] at hk
    subst hk
    decide!
  exact ⟨by decide!, hc, hc0, by decide!,
    edgeSearch_tie_break crossTieCloud 3 ⟨0, 0, 0, 0⟩ 1 1 1 2 (by decide!)
    (by decide) ⟨1, 0, 0, 5⟩ rfl 2 ⟨0, 2, 0, 6⟩ hc⟩

/-! ## Index safety of the neighbour scans -/

/-- C24, evaluation at the failing input: the odometry is initialised, `lastCorner` holds
11 points and `lastSurface` 101 points (so the optimisation runs), and the current sweep
has 13 sharp points. The forward scan of the edge search is bounded by 13, the number of
current sharp points: started behind the nearest neighbour of index 0 it meets no ring
outside the window and reads index 11 of the 11-point cloud, so the search has no result
(with the bound at the size of the cloud it returns `(0, -1)`). Whenever the 1-NN answer
for the first query, the origin, has squared distance below 25, `process()` reads
`lastCorner` out of bounds. -/
theorem edgeSearch_index_overrun :
    (overrunExample ℚ).systemInited = true ∧
    (overrunExample ℚ).lastCornerCloud.length = 11 ∧
    (overrunExample ℚ).lastSurfaceCloud.length = 101 ∧
    (overrunExample ℚ).cornerPointsSharp.length = 13 ∧
    (overrunExample ℚ).lastCornerCloud[11]? = none ∧
    edgeForwardScan (overrunExample ℚ).lastCornerCloud ⟨0, 0, 0, 0⟩ 0 13 2 11 (25, -1)
      = none ∧
    edgeSearch (overrunExample ℚ).lastCornerCloud 13 ⟨0, 0, 0, 0⟩ 0 0 = none ∧
    edgeSearch (overrunExample ℚ).lastCornerCloud 11 ⟨0, 0, 0, 0⟩ 0 0 = some (0, -1) ∧
    transformToStart realLibm (initialGuess (overrunExample ℝ)) ⟨0, 0, 0, 0⟩
      = ⟨0, 0, 0, 0⟩ ∧
    ∀ ext : External ℝ,
      (ext.nearestKSearch (overrunExample ℝ).lastCornerKDTree ⟨0, 0, 0, 0⟩).2 < 25 →
      process realLibm ext (overrunExample ℝ) = none := by
  have hq : transformToStart realLibm (initialGuess (overrunExample ℝ)) ⟨0, 0, 0, 0⟩
      = ⟨0, 0, 0, 0⟩ := by
    have h0 : truncToInt (0 : ℝ) = 0 := by
      rw [truncToInt_of_nonneg le_rfl]
      simp
    simp [transformToStart, interpolationCoeff, h0, rotateZXY_zero]
  refine ⟨rfl, by simp [overrunExample], by simp [overrunExample], by simp [overrunExample],
    by simp [overrunExample], by decide!, by decide!, by decide!, hq, fun ext hnn => ?_⟩
  refine process_overrun realLibm ext (overrunExample ℝ) rfl
    ⟨by simp [overrunExample], by simp [overrunExample]⟩ (by simp [overrunExample,
      BasicLaserOdometry.new]) (by simp [overrunExample]) ?_ ⟨0, 0, 0, 0⟩ rfl ?_
  · intro p hp p' hp'
    have e1 : p = ⟨0, 0, 0, 0⟩ := List.eq_of_mem_replicate hp
    have e2 : p' = ⟨0, 0, 0, 0⟩ := List.eq_of_mem_replicate hp'
    rw [e1, e2]
    omega
  · rw [hq]
    exact hnn

/-! ## Consistency of the k-d trees with the last clouds -/

/-- C25: in every state reachable from a fresh instance by any sequence of the four cloud
updates, `updateIMU` and `process()`, if `lastCorner` holds more than 10 points and
`lastSurface` more than 100 points, then each k-d tree was last built from exactly the
current `lastCorner` / `lastSurface` cloud; so, for a nearest-neighbour routine that
answers a query on a non-empty tree with an index of a point of that tree, every index a
1-NN query returns is the index of a point of the cloud. -/
theorem reachable_kdtree_consistent {α : Type} [LinearOrderedField α] [FloorRing α]
    (lm : Libm α) (ext : External α) (st : BasicLaserOdometry α)
    (hr : Reachable lm ext st)
    (hc : st.lastCornerCloud.length > 10) (hs : st.lastSurfaceCloud.length > 100) :
    st.lastCornerKDTree = st.lastCornerCloud ∧
    st.lastSurfaceKDTree = st.lastSurfaceCloud ∧
    ((∀ (tree : PointCloud α) (q : PointXYZI α), tree ≠ [] →
        0 ≤ (ext.nearestKSearch tree q).1 ∧
          (ext.nearestKSearch tree q).1.toNat < tree.length) →
      ∀ q : PointXYZI α,
        (0 ≤ (ext.nearestKSearch st.lastCornerKDTree q).1 ∧
          ∃ p, st.lastCornerCloud[(ext.nearestKSearch st.lastCornerKDTree q).1.toNat]?
            = some p) ∧
        (0 ≤ (ext.nearestKSearch st.lastSurfaceKDTree q).1 ∧
          ∃ p, st.lastSurfaceCloud[(ext.nearestKSearch st.lastSurfaceKDTree q).1.toNat]?
            = some p)) := by
  obtain ⟨h1, h2⟩ := reachable_kdtree_inv lm ext st hr hc hs
  refine ⟨h1, h2, fun hnn q => ?_⟩
  have hc0 : st.lastCornerCloud ≠ [] := by
    intro e
    rw [e] at hc
    simp at hc
  have hs0 : st.lastSurfaceCloud ≠ [] := by
    intro e
    rw [e] at hs
    simp at hs
  rw [h1, h2]
  obtain ⟨c1, c2⟩ := hnn st.lastCornerCloud q hc0
  obtain ⟨s1, s2⟩ := hnn st.lastSurfaceCloud q hs0
  exact ⟨⟨c1, _, List.getElem?_eq_getElem c2⟩, ⟨s1, _, List.getElem?_eq_getElem s2⟩⟩

/-- Witness for C25: a fresh odometry is handed 11 less-sharp and 101 less-flat points and
runs its first `process()`; the resulting state is reachable, its last clouds hold 11 and
101 points and its k-d trees are these clouds. -/
theorem reachable_kdtree_consistent_witness :
    (firstSweepExample ℚ).systemInited = false ∧
    ∀ (lm : Libm ℚ) (ext : External ℚ),
      ∃ st, process lm ext (firstSweepExample ℚ) = some st ∧ Reachable lm ext st ∧
        st.lastCornerCloud.length = 11 ∧ st.lastSurfaceCloud.length = 101 ∧
        st.lastCornerKDTree = st.lastCornerCloud ∧
        st.lastSurfaceKDTree = st.lastSurfaceCloud := by
  refine ⟨rfl, fun lm ext => ?_⟩
  have hp : ∃ st, process lm ext (firstSweepExample ℚ) = some st ∧
      st.lastCornerCloud.length = 11 ∧ st.lastSurfaceCloud.length = 101 := by
    refine ⟨_, rfl, ?_, ?_⟩ <;>
      simp [firstSweepExample, updateSurfPointsLessFlat, updateCornerPointsLessSharp]
  obtain ⟨st, h, h1, h2⟩ := hp
  have hr : Reachable lm ext st :=
    Reachable.sweep _ _
      (Reachable.surfLessFlat _ _ (Reachable.cornerLessSharp _ _ (Reachable.fresh _ _))) h
  obtain ⟨k1, k2, -⟩ := reachable_kdtree_consistent lm ext st hr (by omega) (by omega)
  exact ⟨st, h, hr, h1, h2, k1, k2⟩

/-! ## Degeneracy detection and the first iteration -/

/-- C26: for every `process()` call on an initialised system that enters the optimisation
and in which iteration 0 returns with fewer than 10 selected correspondences: every
iteration of the call selects fewer than 10 correspondences (the transform is not
updated, so the searches repeat and the weights only drop correspondences) and takes the
`continue` of line 526; the call returns, and it returns the same state whatever the
linear solver, the eigen-solver and the matrix inverse are, so that no normal matrix is
solved or decomposed in the call; `isDegenerate` is false after every iteration; and the
transform stays the initial guess in every iteration and at the end of the call, so no
update, projected or not, is ever added. -/
theorem process_iteration_zero_skipped {α : Type} [LinearOrderedField α] [FloorRing α]
    (lm : Libm α) (ext : External α) (st : BasicLaserOdometry α)
    (hinit : st.systemInited = true)
    (hgate : st.lastCornerCloud.length > 10 ∧ st.lastSurfaceCloud.length > 100)
    (st0 : BasicLaserOdometry α)
    (h0 : assemble lm ext 0 (solverStart (initialGuess st)).st = some st0)
    (hlt : st0.laserCloudOri.length < 10) :
    EverySkip lm ext st ∧
    ∃ (st' : BasicLaserOdometry α) (tr : List (SolverState α × Flow)),
      process lm ext st = some st' ∧
      (∀ (qr : Matrix (Fin 6) (Fin 6) α → (Fin 6 → α) → (Fin 6 → α))
          (es : Matrix (Fin 6) (Fin 6) α → (Fin 6 → α) × Matrix (Fin 6) (Fin 6) α)
          (inv : Matrix (Fin 6) (Fin 6) α → Matrix (Fin 6) (Fin 6) α),
        process lm { ext with qrSolve := qr, eigenSolver := es, inverse := inv } st
          = some st') ∧
      st'.transform = (initialGuess st).transform ∧
      solverTrace lm ext st.maxIterations 0 (solverStart (initialGuess st)) = some tr ∧
      tr.length = st.maxIterations ∧
      ∀ (i : ℕ) (e : SolverState α × Flow), tr[i]? = some e →
        e.2 = Flow.next ∧ e.1.isDegenerate = false ∧
          e.1.st.laserCloudOri.length < 10 ∧
          e.1.st.transform = (initialGuess st).transform := by
  have hskip : EverySkip lm ext st := everySkip_of_first lm ext st st0 h0 hlt
  have hall : AllSkip lm ext st.maxIterations 0 (solverStart (initialGuess st)) := hskip
  have hg : (initialGuess st).lastCornerCloud.length > 10 ∧
      (initialGuess st).lastSurfaceCloud.length > 100 := hgate
  obtain ⟨ss1, hloop, hf⟩ := solverLoop_of_allSkip lm ext _ _ _ hall
  obtain ⟨tr, htr, hlen, hent⟩ := solverTrace_of_allSkip lm ext _ _ _ hall
  have hloop2 : solverLoop lm ext (initialGuess st).maxIterations 0
      (solverStart (initialGuess st)) = some ss1 := hloop
  have hproc : process lm ext st = some (accumulate lm ss1.st) := by
    rw [process_of_inited lm ext st hinit, optimise_eq, if_pos hg, hloop2]
    rfl
  have htrans : ss1.st.transform = (initialGuess st).transform := by
    have e := congrArg (fun s => BasicLaserOdometry.transform s)
      (hf.trans (solverStart_frame (initialGuess st)))
    exact e
  refine ⟨hskip, accumulate lm ss1.st, tr, hproc, ?_, ?_, htr, hlen, ?_⟩
  · intro qr es inv
    have e := solverLoop_ext_of_allSkip lm ext qr es inv _ _ _ hall
    have e2 : solverLoop lm { ext with qrSolve := qr, eigenSolver := es, inverse := inv }
        (initialGuess st).maxIterations 0 (solverStart (initialGuess st)) = some ss1 :=
      e.trans hloop
    rw [process_of_inited lm _ st hinit, optimise_eq, if_pos hg, e2]
    rfl
  · rw [accumulate_transform, htrans]
  · intro i e he
    obtain ⟨q1, q2, -, q4, q5⟩ := hent i e he
    refine ⟨q1, q2, q5, ?_⟩
    have et := congrArg (fun s => BasicLaserOdometry.transform s)
      (q4.trans (solverStart_frame (initialGuess st)))
    exact et

/-- Witness for C26: the sparse odometry enters the optimisation, its iteration 0 selects
the one correspondence of its sharp point `(0, 1, 0)` with the neighbours `(0, 0, 0)` and
`(1, 0, 0)`, with coefficient `(0, 1, 0, 1)`; every iteration skips and the call returns
with the transform of the initial guess. -/
theorem process_iteration_zero_skipped_witness :
    (sparseExample ℝ).systemInited = true ∧
    (sparseExample ℝ).lastCornerCloud.length > 10 ∧
    (sparseExample ℝ).lastSurfaceCloud.length > 100 ∧
    ∃ st0, assemble realLibm (sparseExampleExt ℝ) 0
        (solverStart (initialGuess (sparseExample ℝ))).st = some st0 ∧
      st0.laserCloudOri = [⟨0, 1, 0, 0⟩] ∧ st0.coeffSel = [⟨0, 1, 0, 1⟩] ∧
      EverySkip realLibm (sparseExampleExt ℝ) (sparseExample ℝ) ∧
      ∃ st', process realLibm (sparseExampleExt ℝ) (sparseExample ℝ) = some st' ∧
        st'.transform = (initialGuess (sparseExample ℝ)).transform := by
  obtain ⟨st0, h0, hL, hC⟩ := assemble_sparseExample (sparseExampleExt ℝ) rfl
  have hlt : st0.laserCloudOri.length < 10 := by
    rw [hL]
    decide
  obtain ⟨hskip, st', tr, hp, -, ht, -⟩ := process_iteration_zero_skipped realLibm
    (sparseExampleExt ℝ) (sparseExample ℝ) rfl
    ⟨by simp [sparseExample], by simp [sparseExample]⟩ st0 h0 hlt
  exact ⟨rfl, by simp [sparseExample], by simp [sparseExample], st0, h0, hL, hC, hskip,
    st', hp, ht⟩

end Loam
